import Mathlib

/-!
Shallow embedding of the maluvm toolchain (assembler, bytecode decoder and
interpreter, from `src/vm/src/{asm.rs, op.rs, parse.rs, interpreter.rs}`)
together with theorems checking the specification's claims against it.

Machine integers are modelled as `Nat` with explicit reduction modulo `2^32`
(resp. `2^8`, `2^16`) wherever the Rust code performs `u32`/`u8`/`u16`
arithmetic or casts.  Byte buffers are `List Nat`.  Fallible Rust functions
returning `Result` are modelled with explicit result types; a Rust `panic!`
(`todo!()`, `unwrap` on `None`, out-of-bounds slice indexing) is modelled by a
dedicated `panicked` outcome.
-/

/-- Reduction modulo 2^32, the `u32` wrap-around used by the Rust code. -/
def u32 (n : Nat) : Nat := n % 4294967296

theorem u32_lt (n : Nat) : u32 n < 4294967296 := Nat.mod_lt _ (by decide)

/-- Little-endian value of a byte list (first byte is least significant). -/
def leVal : List Nat → Nat
  | [] => 0
  | b :: t => b + 256 * leVal t

/-- The `n` little-endian bytes of `v` (as in `u32::to_le_bytes`). -/
def leBytes : Nat → Nat → List Nat
  | 0, _ => []
  | n + 1, v => v % 256 :: leBytes n (v / 256)

theorem leBytes_length (n v : Nat) : (leBytes n v).length = n := by
  induction n generalizing v with
  | zero => rfl
  | succ n ih => simp [leBytes, ih]

theorem leVal_leBytes4 (v : Nat) : leVal (leBytes 4 v) = u32 v := by
  simp only [leBytes, leVal, u32]
  omega

/-- `slice.get(addr .. addr+n)` on a byte buffer: `some` of the `n` bytes
starting at `addr` when `addr + n` is within bounds, `none` otherwise. -/
def takeExact : Nat → List Nat → Option (List Nat)
  | 0, _ => some []
  | _ + 1, [] => none
  | n + 1, b :: t => (takeExact n t).map (b :: ·)

def sliceGet (m : List Nat) (addr n : Nat) : Option (List Nat) :=
  match addr, m with
  | 0, m => takeExact n m
  | _ + 1, [] => none
  | a + 1, _ :: t => sliceGet t a n

theorem takeExact_isSome (n : Nat) (m : List Nat) :
    (takeExact n m).isSome = true ↔ n ≤ m.length := by
  induction n generalizing m with
  | zero => simp [takeExact]
  | succ n ih =>
    cases m with
    | nil => simp [takeExact]
    | cons b t => simp [takeExact, Option.isSome_map, ih, Nat.succ_le_succ_iff]

theorem sliceGet_isSome (m : List Nat) (addr n : Nat) :
    (sliceGet m addr n).isSome = true ↔ addr + n ≤ m.length := by
  induction addr generalizing m with
  | zero => simpa [sliceGet] using takeExact_isSome n m
  | succ a ih =>
    cases m with
    | nil => simp [sliceGet]
    | cons b t =>
      simp only [sliceGet, ih, List.length_cons]
      omega

theorem isSome_opMap {α β : Type} (f : α → β) (x : Option α) :
    (x.map f).isSome = x.isSome := by cases x <;> rfl

/-- Overwrite the front of `m` with `vs` (`copy_from_slice` into a prefix);
`none` when `m` is too short (the Rust code would panic). -/
def writeList : List Nat → List Nat → Option (List Nat)
  | m, [] => some m
  | [], _ :: _ => none
  | _ :: t, v :: vs => (writeList t vs).map (v :: ·)

/-- Overwrite `m[addr .. addr+vs.length)` with `vs`; `none` when out of
bounds (the checked `get_mut` path returns an error there). -/
def storeBytes : List Nat → Nat → List Nat → Option (List Nat)
  | m, 0, vs => writeList m vs
  | [], _ + 1, _ => none
  | b :: t, a + 1, vs => (storeBytes t a vs).map (b :: ·)

theorem writeList_isSome (m vs : List Nat) :
    (writeList m vs).isSome = true ↔ vs.length ≤ m.length := by
  induction vs generalizing m with
  | nil => simp [writeList]
  | cons v vs ih =>
    cases m with
    | nil => simp [writeList]
    | cons b t => simp [writeList, Option.isSome_map, ih, Nat.succ_le_succ_iff]

theorem writeList_length (m vs m' : List Nat) (h : writeList m vs = some m') :
    m'.length = m.length := by
  induction vs generalizing m m' with
  | nil => cases m <;> simp_all [writeList]
  | cons v vs ih =>
    cases m with
    | nil => simp [writeList] at h
    | cons b t =>
      simp only [writeList, Option.map_eq_some'] at h
      obtain ⟨t', ht', rfl⟩ := h
      simp [ih t t' ht']

theorem storeBytes_isSome (m : List Nat) (addr : Nat) (vs : List Nat) :
    (storeBytes m addr vs).isSome = true ↔ addr + vs.length ≤ m.length := by
  induction addr generalizing m with
  | zero => simpa [storeBytes] using writeList_isSome m vs
  | succ a ih =>
    cases m with
    | nil => simp [storeBytes]
    | cons b t =>
      rw [show storeBytes (b :: t) (a + 1) vs = (storeBytes t a vs).map (b :: ·) from rfl]
      simp only [isSome_opMap, ih, List.length_cons]
      omega

theorem storeBytes_length (m : List Nat) (addr : Nat) (vs m' : List Nat)
    (h : storeBytes m addr vs = some m') : m'.length = m.length := by
  induction addr generalizing m m' with
  | zero =>
    refine writeList_length m vs m' ?_
    rw [show storeBytes m 0 vs = writeList m vs from by cases m <;> rfl] at h
    exact h
  | succ a ih =>
    cases m with
    | nil => simp [storeBytes] at h
    | cons b t =>
      simp only [storeBytes, Option.map_eq_some'] at h
      obtain ⟨t', ht', rfl⟩ := h
      simp [ih t t' ht']

/-! ## Opcode catalog (`src/vm/src/asm.rs` mod `opcode`, identical copy in `src/vm/src/op.rs`) -/

namespace opcode

def Nop : Nat := 0x01
def Unreachable : Nat := 0x02
def Drop : Nat := 0x03
def Const : Nat := 0x04
def Jmp : Nat := 0x05
def JmpIf : Nat := 0x06
def Branch : Nat := 0x07
def BranchIf : Nat := 0x08
def LocalGet : Nat := 0x09
def LocalSet : Nat := 0x0a
def LocalTee : Nat := 0x0b
def GlobalGet : Nat := 0x0c
def GlobalSet : Nat := 0x0e
def GlobalTee : Nat := 0x0f
def Eq : Nat := 0x10
def Eqz : Nat := 0x11
def Add : Nat := 0x12
def Sub : Nat := 0x13
def Divs : Nat := 0x14
def Divu : Nat := 0x15
def Mul : Nat := 0x16
def Neg : Nat := 0x17
def Gt : Nat := 0x18
def Lt : Nat := 0x19
def Ge : Nat := 0x1a
def Le : Nat := 0x1b
def Shiftr : Nat := 0x1c
def Shiftl : Nat := 0x1d
def And : Nat := 0x1e
def Or : Nat := 0x1f
def Xor : Nat := 0x20
def Call : Nat := 0x21
def Return : Nat := 0x22
def Store8 : Nat := 0x23
def Store16 : Nat := 0x24
def Store32 : Nat := 0x25
def Load8u : Nat := 0x26
def Load8s : Nat := 0x27
def Load16s : Nat := 0x28
def Load16u : Nat := 0x29
def Load32s : Nat := 0x2a
def Load32u : Nat := 0x2b
def Extend8_32s : Nat := 0x2c
def Extend16_32s : Nat := 0x2d
def Extend8_32u : Nat := 0x2e
def Extend16_32u : Nat := 0x2f
def End : Nat := 0x30
def PushArg : Nat := 0x31
def DbgAssert : Nat := 0x32

/-- Modelled from the spec: the `opcode::Syscall` constant referenced by the
interpreter's `Syscall` match arm is not defined in the sources under `src/`;
the spec's opcode catalog assigns `0x33 syscall`. -/
def Syscall : Nat := 0x33

end opcode

/-- `StoreArgs` from `src/vm/src/asm.rs` (`mod opcode`). -/
structure StoreArgs where
  addr : Nat
  value : Nat
deriving DecidableEq, Repr

/-! ## Assembler data model (`src/vm/src/asm.rs`) -/

inductive AssembleErrorKind where
  | MissingDelimiter
  | UnknownOperation
  | UnableToParseInt
  | IntSize
  | MissingArgument
  | TooManyArguments
  | UnknownLabel (name : List Char)
  | LabelAlreadyExists (name : List Char)
  | UnexpectedRegisterId (num : Int)
  | UnexpectedImmArgSize
deriving DecidableEq, Repr

structure AssembleError where
  kind : AssembleErrorKind
  line : Nat
deriving DecidableEq, Repr

/-- Result of an assembler function: Rust `Result<T, AssembleError>`, with
`panicked` for Rust panics and `outOfFuel` marking a run of the (in Rust
unbounded) `parse_elems` loop that did not finish within the given fuel. -/
inductive AsmRes (α : Type) where
  | ok (a : α)
  | err (e : AssembleError)
  | panicked
  | outOfFuel
deriving DecidableEq, Repr

def STATEMENT_SEP : Char := ';'
def ENTRY_LABEL_NAME : List Char := "__ENTRY__".toList
def BYTECODE_HEADER : List Nat := [109, 97, 108, 117]

def CODE_START_ADDR_POS : Nat := 2 * 4
def CODE_START : Nat := 3 * 4

/-- Modelled from the spec: `DATA_START` is referenced by
`src/vm/src/interpreter.rs` but not defined in the sources under `src/`;
the spec defines `DATA_START = 0x04`. -/
def DATA_START : Nat := 0x04

inductive ArgType where
  | AbsLabelRef (name : List Char)
  | OffLabelRef (name : List Char)
  | Number (num : Int)
  | Register (reg : Nat)
deriving DecidableEq, Repr

def ArgType.size_bytes : ArgType → Nat
  | .AbsLabelRef _ | .OffLabelRef _ | .Number _ => 4
  | .Register _ => 1

inductive RawArg where
  | Register (reg : Nat)
  | Num (num : Nat)
deriving DecidableEq, Repr

def RawArg.size_bytes : RawArg → Nat
  | .Register _ => 1
  | .Num _ => 4

def RawArg.encode : RawArg → List Nat
  | .Register r => [r]
  | .Num n => leBytes 4 n

structure AsmOp where
  opcode : Nat
  arg : Option ArgType
deriving DecidableEq, Repr

def AsmOp.size_bytes (o : AsmOp) : Nat :=
  1 + (o.arg.map ArgType.size_bytes).getD 0

structure RawOp where
  opcode : Nat
  arg : Option RawArg
deriving DecidableEq, Repr

def RawOp.encode (o : RawOp) : List Nat :=
  o.opcode :: (o.arg.map RawArg.encode).getD []

def RawOp.size_bytes (o : RawOp) : Nat :=
  1 + (o.arg.map RawArg.size_bytes).getD 0

structure LabelDef where
  name : List Char
  position : Nat
deriving DecidableEq, Repr

structure BytecodeInfo where
  code_size_bytes : Nat
  instruction_count : Nat
  code_start_offset : Nat
deriving DecidableEq, Repr

def BytecodeInfo.total_header_size : Nat := 3 * 4 + 4

def BytecodeInfo.to_bytecode (i : BytecodeInfo) : List Nat :=
  BYTECODE_HEADER ++ leBytes 4 i.code_size_bytes
    ++ leBytes 4 i.instruction_count ++ leBytes 4 i.code_start_offset

structure Parser where
  op_count : Nat
  op_size_bytes : Nat
  line : Nat
  labels : List (List Char × Nat)
deriving DecidableEq, Repr

inductive Elem where
  | Op (op : AsmOp)
  | Const (arg : ArgType)
  | Label (id : Nat)
deriving DecidableEq, Repr

inductive ElemsStep where
  | continu (p : Parser) (elems : List Elem) (rest : Option (List Char))
  | broke (p : Parser) (elems : List Elem)
  | failed (e : AssembleError)
  | panicked
deriving DecidableEq, Repr

structure ParseResult where
  code : List Nat
  labels : List (List Char × Nat)
deriving DecidableEq, Repr

/-- `i32` two's-complement reading of a `u32` bit pattern (`v as i32`). -/
def i32_of_u32 (n : Nat) : Int :=
  if n < 2147483648 then (n : Int) else (n : Int) - 4294967296

/-- `u32` bit pattern of an integer (`x as u32`). -/
def intToU32 (x : Int) : Nat := (x % 4294967296).toNat

/-- Wrap an integer into the `i32` range (two's complement). -/
def i32wrap (x : Int) : Int := i32_of_u32 (intToU32 x)

/-- `char::to_digit` (any radix up to 36). -/
def digitVal (c : Char) : Option Nat :=
  if '0' ≤ c ∧ c ≤ '9' then some (c.toNat - '0'.toNat)
  else if 'a' ≤ c ∧ c ≤ 'z' then some (c.toNat - 'a'.toNat + 10)
  else if 'A' ≤ c ∧ c ≤ 'Z' then some (c.toNat - 'A'.toNat + 10)
  else none

def parseDigits (radix : Nat) : List Char → Nat → Option Nat
  | [], acc => some acc
  | c :: t, acc =>
    match digitVal c with
    | some d => if d < radix then parseDigits radix t (acc * radix + d) else none
    | none => none

/-- `i32::from_str_radix`: optional sign, then at least one digit, result in
the `i32` range. -/
def fromStrRadixI32 (radix : Nat) (s : List Char) : Option Int :=
  match s with
  | [] => none
  | c :: t =>
    let neg := c = '-'
    let digits := if c = '+' ∨ c = '-' then t else s
    match digits with
    | [] => none
    | _ =>
      (parseDigits radix digits 0).bind fun v =>
        let x : Int := if neg then -(v : Int) else (v : Int)
        if -2147483648 ≤ x ∧ x ≤ 2147483647 then some x else none

def Parser.parse_i32 (p : Parser) (s : List Char) : AsmRes Int :=
  let run := fun (radix : Nat) (digits : List Char) =>
    match fromStrRadixI32 radix digits with
    | some v => AsmRes.ok v
    | none => AsmRes.err ⟨.UnableToParseInt, p.line⟩
  match s with
  | [] => .panicked
  | [c] => run 10 [c]
  | c1 :: c2 :: rest =>
    if c1 = '0' ∧ c2 = 'x' then run 16 rest
    else if c1 = '0' ∧ c2 = 'b' then run 2 rest
    else run 10 s

/-- `str::find` of the delimiter: `some (before, after)` splitting around the
first occurrence. -/
def splitAtDelim (delim : Char) : List Char → Option (List Char × List Char)
  | [] => none
  | c :: t =>
    if c = delim then some ([], t)
    else (splitAtDelim delim t).map (fun w => (c :: w.1, w.2))

def Parser.slice_until (p : Parser) (s : List Char) (delim : Char) :
    AsmRes (List Char × Option (List Char)) :=
  match splitAtDelim delim s with
  | none => .err ⟨.MissingDelimiter, p.line⟩
  | some (word, rest) => .ok (word, some rest)

def Parser.skip_whitespace (p : Parser) : List Char → Parser × Option (List Char)
  | [] => (p, none)
  | c :: t =>
    if c = '\r' ∨ c = ' ' then Parser.skip_whitespace p t
    else if c = '\n' then Parser.skip_whitespace { p with line := p.line + 1 } t
    else (p, some (c :: t))

def Parser.parse_arg (p : Parser) (s : List Char) : AsmRes ArgType :=
  match s with
  | [] => .panicked
  | c :: t =>
    if c = '@' then .ok (.AbsLabelRef t)
    else if c = '.' then .ok (.OffLabelRef t)
    else
      match p.parse_i32 s with
      | .ok n => .ok (.Number n)
      | .err e => .err e
      | .panicked => .panicked
      | .outOfFuel => .outOfFuel

def isWsChar (c : Char) : Bool := c = ' ' ∨ c = '\n' ∨ c = '\r' ∨ c = '\t'

def splitWsGo : List Char → List Char → List (List Char)
  | [], acc => if acc = [] then [] else [acc.reverse]
  | c :: t, acc =>
    if isWsChar c then
      if acc = [] then splitWsGo t [] else acc.reverse :: splitWsGo t []
    else splitWsGo t (c :: acc)

/-- `iter_op_args` / `str::split_whitespace`. -/
def iter_op_args (s : List Char) : List (List Char) := splitWsGo s []

def Parser.arg_register (p : Parser) (args : List (List Char)) :
    AsmRes (ArgType × List (List Char)) :=
  match args with
  | [] => .err ⟨.MissingArgument, p.line⟩
  | s :: rest =>
    match p.parse_arg s with
    | .ok (.Number n) =>
      if 0 ≤ n ∧ n < 255 then .ok (.Register n.toNat, rest)
      else .err ⟨.UnexpectedRegisterId n, p.line⟩
    | .ok _ => .err ⟨.UnexpectedImmArgSize, p.line⟩
    | .err e => .err e
    | .panicked => .panicked
    | .outOfFuel => .outOfFuel

def Parser.arg_const (p : Parser) (args : List (List Char)) :
    AsmRes (ArgType × List (List Char)) :=
  match args with
  | [] => .err ⟨.MissingArgument, p.line⟩
  | s :: rest =>
    match p.parse_arg s with
    | .ok a => .ok (a, rest)
    | .err e => .err e
    | .panicked => .panicked
    | .outOfFuel => .outOfFuel

/-- Lift an `arg_register`/`arg_const` result to a mnemonic-table entry
`(opcode, operand, remaining argument strings)`. -/
def withArg (oc : Nat) (r : AsmRes (ArgType × List (List Char))) :
    AsmRes (Nat × Option ArgType × List (List Char)) :=
  match r with
  | .ok (a, rest) => .ok (oc, some a, rest)
  | .err e => .err e
  | .panicked => .panicked
  | .outOfFuel => .outOfFuel

/-- The mnemonic match of `Parser::parse_op` (note `extend_8_32_s` maps to
`Extend16_32s`, as in the source). -/
def Parser.mnemonic (p : Parser) (name : List Char) (args : List (List Char)) :
    AsmRes (Nat × Option ArgType × List (List Char)) :=
  if name = "nop".toList then .ok (opcode.Nop, none, args)
  else if name = "unreachable".toList then .ok (opcode.Unreachable, none, args)
  else if name = "drop".toList then .ok (opcode.Drop, none, args)
  else if name = "const".toList then withArg opcode.Const (p.arg_const args)
  else if name = "jmp".toList then .ok (opcode.Jmp, none, args)
  else if name = "jmp_if".toList then .ok (opcode.JmpIf, none, args)
  else if name = "branch".toList then .ok (opcode.Branch, none, args)
  else if name = "branch_if".toList then .ok (opcode.BranchIf, none, args)
  else if name = "local_get".toList then withArg opcode.LocalGet (p.arg_register args)
  else if name = "local_set".toList then withArg opcode.LocalSet (p.arg_register args)
  else if name = "local_tee".toList then withArg opcode.LocalTee (p.arg_register args)
  else if name = "global_get".toList then withArg opcode.GlobalGet (p.arg_register args)
  else if name = "global_set".toList then withArg opcode.GlobalSet (p.arg_register args)
  else if name = "global_tee".toList then withArg opcode.GlobalTee (p.arg_register args)
  else if name = "eq".toList then .ok (opcode.Eq, none, args)
  else if name = "eqz".toList then .ok (opcode.Eqz, none, args)
  else if name = "add".toList then .ok (opcode.Add, none, args)
  else if name = "sub".toList then .ok (opcode.Sub, none, args)
  else if name = "div_s".toList then .ok (opcode.Divs, none, args)
  else if name = "div_u".toList then .ok (opcode.Divu, none, args)
  else if name = "mul".toList then .ok (opcode.Mul, none, args)
  else if name = "neg".toList then .ok (opcode.Neg, none, args)
  else if name = "gt".toList then .ok (opcode.Gt, none, args)
  else if name = "lt".toList then .ok (opcode.Lt, none, args)
  else if name = "ge".toList then .ok (opcode.Ge, none, args)
  else if name = "le".toList then .ok (opcode.Le, none, args)
  else if name = "shiftr".toList then .ok (opcode.Shiftr, none, args)
  else if name = "shiftl".toList then .ok (opcode.Shiftl, none, args)
  else if name = "call".toList then .ok (opcode.Call, none, args)
  else if name = "return".toList then .ok (opcode.Return, none, args)
  else if name = "store_8".toList then withArg opcode.Store8 (p.arg_const args)
  else if name = "store_16".toList then withArg opcode.Store16 (p.arg_const args)
  else if name = "store_32".toList then withArg opcode.Store32 (p.arg_const args)
  else if name = "load_8_u".toList then withArg opcode.Load8u (p.arg_const args)
  else if name = "load_8_s".toList then withArg opcode.Load8s (p.arg_const args)
  else if name = "load_16_s".toList then withArg opcode.Load16s (p.arg_const args)
  else if name = "load_16_u".toList then withArg opcode.Load16u (p.arg_const args)
  else if name = "load_32_s".toList then withArg opcode.Load32s (p.arg_const args)
  else if name = "load_32_u".toList then withArg opcode.Load32u (p.arg_const args)
  else if name = "extend_8_32_s".toList then .ok (opcode.Extend16_32s, none, args)
  else if name = "extend_16_32_s".toList then .ok (opcode.Extend16_32s, none, args)
  else if name = "extend_8_32_u".toList then .ok (opcode.Extend8_32u, none, args)
  else if name = "extend_16_32_u".toList then .ok (opcode.Extend16_32u, none, args)
  else if name = "end".toList then .ok (opcode.End, none, args)
  else if name = "push_arg".toList then .ok (opcode.PushArg, none, args)
  else if name = "dbg_assert".toList then .ok (opcode.DbgAssert, none, args)
  else .err ⟨.UnknownOperation, p.line⟩

def Parser.parse_op (p : Parser) (s : List Char) :
    AsmRes (AsmOp × Option (List Char)) :=
  match p.slice_until s STATEMENT_SEP with
  | .err e => .err e
  | .panicked => .panicked
  | .outOfFuel => .outOfFuel
  | .ok (word, rest) =>
    match iter_op_args word with
    | [] => .panicked
    | op_name :: args =>
      match p.mnemonic op_name args with
      | .err e => .err e
      | .panicked => .panicked
      | .outOfFuel => .outOfFuel
      | .ok (oc, arg, remaining) =>
        match remaining with
        | _ :: _ => .err ⟨.TooManyArguments, p.line⟩
        | [] => .ok (⟨oc, arg⟩, rest)

def Parser.parse_label (p : Parser) (s : List Char) :
    AsmRes (LabelDef × Option (List Char)) :=
  match p.slice_until s ':' with
  | .err e => .err e
  | .panicked => .panicked
  | .outOfFuel => .outOfFuel
  | .ok (word, rest) => .ok (⟨word, p.op_size_bytes⟩, rest)

def lookupLabel : List (List Char × Nat) → List Char → Option Nat
  | [], _ => none
  | (k, v) :: t, n => if k = n then some v else lookupLabel t n

def Parser.try_push_label (p : Parser) (name : List Char) (position : Nat) :
    AsmRes (Parser × Nat) :=
  match lookupLabel p.labels name with
  | some _ => .err ⟨.LabelAlreadyExists name, p.line⟩
  | none =>
    let id := p.labels.length
    .ok ({ p with labels := p.labels ++ [(name, position)] }, id)

/-- One iteration of the scan loop in `Parser::parse_elems`. -/
def parseElemsStep (p : Parser) (elems : List Elem) (rest : Option (List Char)) :
    ElemsStep :=
  match rest with
  | none => .broke p elems
  | some r =>
    match r with
    | [] => .broke p elems
    | c :: _ =>
      if c = '\n' ∨ c = '\r' ∨ c = ' ' then
        let pr := p.skip_whitespace r
        .continu pr.1 elems pr.2
      else if c = '#' then
        match p.slice_until (r.drop 1) STATEMENT_SEP with
        | .err e => .failed e
        | .panicked => .panicked
        | .outOfFuel => .panicked
        | .ok (word, statement_rest) =>
          match p.parse_arg word with
          | .err e => .failed e
          | .panicked => .panicked
          | .outOfFuel => .panicked
          | .ok arg =>
            .continu { p with op_size_bytes := p.op_size_bytes + 5,
                              op_count := p.op_count + 1 }
              (elems ++ [.Const arg]) statement_rest
      else if c = '*' then
        .continu p elems (some r)
      else if c = ':' then
        match p.parse_label (r.drop 1) with
        | .err e => .failed e
        | .panicked => .panicked
        | .outOfFuel => .panicked
        | .ok (label, label_rest) =>
          match p.try_push_label label.name (u32 label.position) with
          | .err e => .failed e
          | .panicked => .panicked
          | .outOfFuel => .panicked
          | .ok (p', id) => .continu p' (elems ++ [.Label id]) label_rest
      else
        match p.parse_op r with
        | .err e => .failed e
        | .panicked => .panicked
        | .outOfFuel => .panicked
        | .ok (op, op_rest) =>
          .continu { p with op_size_bytes := p.op_size_bytes + op.size_bytes,
                            op_count := p.op_count + 1 }
            (elems ++ [.Op op]) op_rest

def parseElemsFuel : Nat → Parser → List Elem → Option (List Char) →
    AsmRes (Parser × List Elem)
  | 0, _, _, _ => .outOfFuel
  | n + 1, p, elems, rest =>
    match parseElemsStep p elems rest with
    | .continu p' e' r' => parseElemsFuel n p' e' r'
    | .broke p' e' => .ok (p', e')
    | .failed e => .err e
    | .panicked => .panicked

def Parser.parse_elems (p : Parser) (code : List Char) : AsmRes (Parser × List Elem) :=
  parseElemsFuel (code.length + 2) p [] (some code)

def Parser.try_get_label (p : Parser) (name : List Char) : AsmRes Nat :=
  match lookupLabel p.labels name with
  | none => .err ⟨.UnknownLabel name, p.line⟩
  | some v => .ok v

def Parser.get_abs_label_addr (p : Parser) (name : List Char) : AsmRes Int :=
  match p.try_get_label name with
  | .ok label => .ok (i32wrap (i32_of_u32 label + (CODE_START : Int)))
  | .err e => .err e
  | .panicked => .panicked
  | .outOfFuel => .outOfFuel

def Parser.get_off_label_addr (p : Parser) (name : List Char) : AsmRes Int :=
  match p.try_get_label name with
  | .ok label => .ok (i32wrap ((p.op_size_bytes : Int) - (label : Int)))
  | .err e => .err e
  | .panicked => .panicked
  | .outOfFuel => .outOfFuel

def RawArg.from_arg_type (a : ArgType) (p : Parser) : AsmRes RawArg :=
  match a with
  | .AbsLabelRef l =>
    match p.get_abs_label_addr l with
    | .ok i => .ok (.Num (intToU32 i))
    | .err e => .err e
    | .panicked => .panicked
    | .outOfFuel => .outOfFuel
  | .OffLabelRef l =>
    match p.get_off_label_addr l with
    | .ok i => .ok (.Num (intToU32 i))
    | .err e => .err e
    | .panicked => .panicked
    | .outOfFuel => .outOfFuel
  | .Number n => .ok (.Num (intToU32 n))
  | .Register r => .ok (.Register r)

def RawOp.from_op (o : AsmOp) (p : Parser) : AsmRes RawOp :=
  match o.arg with
  | none => .ok ⟨o.opcode, none⟩
  | some a =>
    match RawArg.from_arg_type a p with
    | .ok ra => .ok ⟨o.opcode, some ra⟩
    | .err e => .err e
    | .panicked => .panicked
    | .outOfFuel => .outOfFuel

def Parser.parse_ops (p : Parser) : List Elem → AsmRes (List RawOp)
  | [] => .ok []
  | .Op o :: t =>
    match RawOp.from_op o p with
    | .ok r =>
      match Parser.parse_ops p t with
      | .ok rs => .ok (r :: rs)
      | .err e => .err e
      | .panicked => .panicked
      | .outOfFuel => .outOfFuel
    | .err e => .err e
    | .panicked => .panicked
    | .outOfFuel => .outOfFuel
  | .Label _ :: t => Parser.parse_ops p t
  | .Const a :: t =>
    match RawArg.from_arg_type a p with
    | .ok ra =>
      match Parser.parse_ops p t with
      | .ok rs => .ok (⟨opcode.Const, some ra⟩ :: rs)
      | .err e => .err e
      | .panicked => .panicked
      | .outOfFuel => .outOfFuel
    | .err e => .err e
    | .panicked => .panicked
    | .outOfFuel => .outOfFuel

def Parser.get_bytecode_info (p : Parser) : BytecodeInfo :=
  { code_size_bytes := u32 p.op_size_bytes
    instruction_count := u32 p.op_count
    code_start_offset := u32 ((lookupLabel p.labels ENTRY_LABEL_NAME).getD 0 + CODE_START) }

def encodeOps (ops : List RawOp) : List Nat := (ops.map RawOp.encode).flatten

def Parser.as_bytecode (p : Parser) (ops : List RawOp) : List Nat :=
  p.get_bytecode_info.to_bytecode ++ encodeOps ops

def Parser.new : Parser := ⟨0, 0, 0, []⟩

/-- Stable insertion used to model `Vec::sort_by` on the label list. -/
def insertByPos (x : List Char × Nat) : List (List Char × Nat) → List (List Char × Nat)
  | [] => [x]
  | y :: t => if x.2 < y.2 then x :: y :: t else y :: insertByPos x t

def sortByPos (l : List (List Char × Nat)) : List (List Char × Nat) :=
  l.foldr insertByPos []

def Parser.parse (code : List Char) : AsmRes ParseResult :=
  let p := Parser.new
  match p.parse_elems code with
  | .err e => .err e
  | .panicked => .panicked
  | .outOfFuel => .outOfFuel
  | .ok (p', elems) =>
    match p'.parse_ops elems with
    | .err e => .err e
    | .panicked => .panicked
    | .outOfFuel => .outOfFuel
    | .ok ops => .ok ⟨p'.as_bytecode ops, sortByPos p'.labels⟩

/-! ## Bytecode decoder (`src/vm/src/parse.rs`) -/

inductive MaybeRawOp where
  | Op (op : RawOp)
  | Unknown (opcode : Nat)
deriving DecidableEq, Repr

/-- Operand width expected by `try_parse_op` for a known opcode byte
(`none` when the byte falls into no match-arm range and decodes as
`Unknown`).  The ranges mirror the source: the register range
`LocalGet..=GlobalTee` includes the unassigned byte `0x0d`, and the no-arg
ranges `Eq..=Return` and `End..=DbgAssert` skip the extend opcodes
`0x2c..=0x2f`. -/
def decodeWidth (b : Nat) : Option Nat :=
  if b = opcode.Nop ∨ b = opcode.Unreachable ∨ b = opcode.Drop ∨ b = opcode.Jmp
      ∨ b = opcode.JmpIf ∨ b = opcode.Branch ∨ b = opcode.BranchIf
      ∨ (opcode.Eq ≤ b ∧ b ≤ opcode.Return)
      ∨ (opcode.End ≤ b ∧ b ≤ opcode.DbgAssert) then some 0
  else if opcode.LocalGet ≤ b ∧ b ≤ opcode.GlobalTee then some 1
  else if b = opcode.Const ∨ (opcode.Store8 ≤ b ∧ b ≤ opcode.Load32u) then some 4
  else none

/-- `try_parse_ops_from_bytecode`: sequential best-effort decode; a reader
hitting end-of-input (also inside an operand) stops the iteration. -/
def decodeOps : List Nat → List MaybeRawOp
  | [] => []
  | b :: rest =>
    match decodeWidth b with
    | none => .Unknown b :: decodeOps rest
    | some 0 => .Op ⟨b, none⟩ :: decodeOps rest
    | some 1 =>
      match rest with
      | [] => []
      | a :: rest' => .Op ⟨b, some (.Register a)⟩ :: decodeOps rest'
    | some _ =>
      match rest with
      | b0 :: b1 :: b2 :: b3 :: rest2 =>
        .Op ⟨b, some (.Num (leVal [b0, b1, b2, b3]))⟩ :: decodeOps rest2
      | _ => []

/-! ## Instruction enumeration (`src/vm/src/op.rs`) -/

namespace op

inductive Op where
  | Nop
  | Unreachable
  | Drop
  | Const (arg : ArgType)
  | Jmp
  | JmpIf
  | Branch
  | BranchIf
  | LocalGet (reg : Nat)
  | LocalSet (reg : Nat)
  | LocalTee (reg : Nat)
  | GlobalGet (reg : Nat)
  | GlobalSet (reg : Nat)
  | GlobalTee (reg : Nat)
  | Eq
  | Eqz
  | Add
  | Sub
  | Divs
  | Divu
  | Mul
  | Neg
  | Gt
  | Lt
  | Ge
  | Le
  | And
  | Or
  | Xor
  | Shiftr
  | Shiftl
  | Call
  | Return
  | Store8 (off : ArgType)
  | Store16 (off : ArgType)
  | Store32 (off : ArgType)
  | Load8u (off : ArgType)
  | Load8s (off : ArgType)
  | Load16s (off : ArgType)
  | Load16u (off : ArgType)
  | Load32s (off : ArgType)
  | Load32u (off : ArgType)
  | Extend8_32s
  | Extend16_32s
  | Extend8_32u
  | Extend16_32u
  | PushArg
  | DbgAssert
  | End
deriving DecidableEq, Repr

def Op.repr : Op → Nat
  | .Nop => 0x01
  | .Unreachable => 0x02
  | .Drop => 0x03
  | .Const _ => 0x04
  | .Jmp => 0x05
  | .JmpIf => 0x06
  | .Branch => 0x07
  | .BranchIf => 0x08
  | .LocalGet _ => 0x09
  | .LocalSet _ => 0x0a
  | .LocalTee _ => 0x0b
  | .GlobalGet _ => 0x0c
  | .GlobalSet _ => 0x0e
  | .GlobalTee _ => 0x0f
  | .Eq => 0x10
  | .Eqz => 0x11
  | .Add => 0x12
  | .Sub => 0x13
  | .Divs => 0x14
  | .Divu => 0x15
  | .Mul => 0x16
  | .Neg => 0x17
  | .Gt => 0x18
  | .Lt => 0x19
  | .Ge => 0x1a
  | .Le => 0x1b
  | .Shiftr => 0x1c
  | .Shiftl => 0x1d
  | .And => 0x1e
  | .Or => 0x1f
  | .Xor => 0x20
  | .Call => 0x21
  | .Return => 0x22
  | .Store8 _ => 0x23
  | .Store16 _ => 0x24
  | .Store32 _ => 0x25
  | .Load8u _ => 0x26
  | .Load8s _ => 0x27
  | .Load16s _ => 0x28
  | .Load16u _ => 0x29
  | .Load32s _ => 0x2a
  | .Load32u _ => 0x2b
  | .Extend8_32s => 0x2c
  | .Extend16_32s => 0x2d
  | .Extend8_32u => 0x2e
  | .Extend16_32u => 0x2f
  | .End => 0x30
  | .PushArg => 0x31
  | .DbgAssert => 0x32

def Op.size_bytes : Op → Nat
  | .LocalGet _ | .LocalSet _ | .LocalTee _
  | .GlobalGet _ | .GlobalSet _ | .GlobalTee _ => 2
  | .Const _ | .Store8 _ | .Store16 _ | .Store32 _
  | .Load8u _ | .Load8s _ | .Load16s _ | .Load16u _
  | .Load32s _ | .Load32u _ => 5
  | _ => 1

end op

/-! ## Interpreter (`src/vm/src/interpreter.rs`) -/

def INITAL_VALUE_STACK_SIZE : Nat := 65536 / 4
def INITAL_RETURN_STACK_SIZE : Nat := 20
def MIN_HEAP_SIZE : Nat := 65536
def MAX_GLOBALS : Nat := 64
def MAX_LOCALS : Nat := 64
def MAX_ARGS : Nat := 12

inductive InterpreterErrorType where
  | IOError
  | InvalidStringData
  | InvalidBytecodeHeader
  | AddrOutOfBounds (addr : Nat)
  | UnexpectedValStackEmpty
  | ReachedUnreachable
  | InvalidJumpAddr (addr : Nat)
  | InvalidLocalId (id : Nat)
  | InvalidGlobalId (id : Nat)
  | ArgStackFull
  | UnexpectedEmptyFrameStack
deriving DecidableEq, Repr

structure Frame where
  locals : List Nat
  return_addr : Nat
deriving DecidableEq, Repr

def Frame.empty : Frame :=
  { locals := List.replicate MAX_LOCALS 0
    return_addr := CODE_START_ADDR_POS }

/-- The interpreter state.  Stacks have their top at the list head; `memory`
is a byte buffer. -/
structure Interpreter where
  value_stack : List Nat
  return_stack : List Frame
  memory : List Nat
  pc : Nat
  globals : List Nat
  args : List Nat
  start_pc_addr : Nat
  bytecode_len : Nat
  running : Bool
  assertion_failed : Bool
deriving DecidableEq, Repr

/-- The `Default` impl. -/
def Interpreter.default : Interpreter :=
  { value_stack := []
    return_stack := []
    memory := []
    pc := 0
    globals := List.replicate MAX_GLOBALS 0
    args := []
    start_pc_addr := 0
    bytecode_len := 0
    running := false
    assertion_failed := false }

/-- The host syscall capability (`trait SyscallHandler`): it may mutate the
interpreter and returns a `u32` status code. -/
def SyscallHandler : Type := Interpreter → Nat → List Nat → Interpreter × Nat

/-- A host handler that ignores every syscall and returns `0` (the
`DummySyscallHandler` of the interpreter's test module). -/
def dummyHandler : SyscallHandler := fun s _ _ => (s, 0)

/-- Result of an interpreter operation on a `&mut self` receiver: the state
is carried through both outcomes, as partial mutations before an early
`return Err(..)` persist in Rust; `panicked` models a Rust panic
(`todo!()` or `unwrap` failure). -/
inductive IntRes (α : Type) where
  | ok (a : α) (s : Interpreter)
  | err (e : InterpreterErrorType) (s : Interpreter)
  | panicked (s : Interpreter)
deriving DecidableEq, Repr

/-- State component of a step result, whatever the outcome. -/
def IntRes.state {α : Type} : IntRes α → Interpreter
  | .ok _ s => s
  | .err _ s => s
  | .panicked s => s

def IntRes.isOk {α : Type} : IntRes α → Bool
  | .ok _ _ => true
  | _ => false

def Interpreter.read_u8 (s : Interpreter) (addr : Nat) : IntRes Nat :=
  match s.memory.get? addr with
  | none => .err (.AddrOutOfBounds addr) s
  | some b => .ok b s

def Interpreter.read_u16 (s : Interpreter) (addr : Nat) : IntRes Nat :=
  match sliceGet s.memory addr 2 with
  | none => .err (.AddrOutOfBounds addr) s
  | some bs => .ok (leVal bs) s

def Interpreter.read_u32 (s : Interpreter) (addr : Nat) : IntRes Nat :=
  match sliceGet s.memory addr 4 with
  | none => .err (.AddrOutOfBounds addr) s
  | some bs => .ok (leVal bs) s

/-- `read_i32`: same four bytes, read as a two's-complement `i32`. -/
def Interpreter.read_i32 (s : Interpreter) (addr : Nat) : IntRes Int :=
  match sliceGet s.memory addr 4 with
  | none => .err (.AddrOutOfBounds addr) s
  | some bs => .ok (i32_of_u32 (leVal bs)) s

def Interpreter.store_u8 (s : Interpreter) (addr : Nat) (value : Nat) : IntRes Unit :=
  match storeBytes s.memory addr [value] with
  | none => .err (.AddrOutOfBounds addr) s
  | some m => .ok () { s with memory := m }

def Interpreter.store_u16 (s : Interpreter) (addr : Nat) (value : Nat) : IntRes Unit :=
  match storeBytes s.memory addr (leBytes 2 value) with
  | none => .err (.AddrOutOfBounds addr) s
  | some m => .ok () { s with memory := m }

def Interpreter.store_u32 (s : Interpreter) (addr : Nat) (value : Nat) : IntRes Unit :=
  match storeBytes s.memory addr (leBytes 4 value) with
  | none => .err (.AddrOutOfBounds addr) s
  | some m => .ok () { s with memory := m }

def Interpreter.push (s : Interpreter) (val : Nat) : Interpreter :=
  { s with value_stack := val :: s.value_stack }

def Interpreter.pop (s : Interpreter) : IntRes Nat :=
  match s.value_stack with
  | [] => .err .UnexpectedValStackEmpty s
  | v :: rest => .ok v { s with value_stack := rest }

def Interpreter.pop_bool (s : Interpreter) : IntRes Bool :=
  match s.pop with
  | .ok 0 s' => .ok false s'
  | .ok _ s' => .ok true s'
  | .err e s' => .err e s'
  | .panicked s' => .panicked s'

def Interpreter.peek (s : Interpreter) : IntRes Nat :=
  match s.value_stack with
  | [] => .err .UnexpectedValStackEmpty s
  | v :: _ => .ok v s

def Interpreter.try_jump_to (s : Interpreter) (addr : Nat) : IntRes Unit :=
  if addr ≥ u32 s.memory.length then .err (.InvalidJumpAddr addr) s
  else .ok () { s with pc := addr }

def Interpreter.exec_jmp (s : Interpreter) : IntRes Unit :=
  match s.pop with
  | .ok addr s' => s'.try_jump_to addr
  | .err e s' => .err e s'
  | .panicked s' => .panicked s'

def Interpreter.exec_branch (s : Interpreter) : IntRes Unit :=
  match s.pop with
  | .ok v s' => s'.try_jump_to (u32 (v + s'.pc))
  | .err e s' => .err e s'
  | .panicked s' => .panicked s'

def Interpreter.read_imm_u8 (s : Interpreter) (offset : Nat) : IntRes Nat :=
  s.read_u8 (u32 (s.pc + offset))

def Interpreter.read_imm_u32 (s : Interpreter) (offset : Nat) : IntRes Nat :=
  s.read_u32 (u32 (s.pc + offset))

def Interpreter.read_store_args (s : Interpreter) : IntRes StoreArgs :=
  match s.read_imm_u32 1 with
  | .err e s1 => .err e s1
  | .panicked s1 => .panicked s1
  | .ok offset s1 =>
    match s1.pop with
    | .err e s2 => .err e s2
    | .panicked s2 => .panicked s2
    | .ok value s2 =>
      match s2.pop with
      | .err e s3 => .err e s3
      | .panicked s3 => .panicked s3
      | .ok b s3 => .ok ⟨u32 (b + offset), value⟩ s3

def Interpreter.read_local (s : Interpreter) (id_arg_offset : Nat) : IntRes Nat :=
  match s.read_imm_u8 id_arg_offset with
  | .err e s1 => .err e s1
  | .panicked s1 => .panicked s1
  | .ok id s1 =>
    match s1.return_stack with
    | [] => .panicked s1
    | f :: _ =>
      match f.locals.get? id with
      | none => .err (.InvalidLocalId id) s1
      | some v => .ok v s1

/-- `read_global` (note the source reports `InvalidLocalId` here). -/
def Interpreter.read_global (s : Interpreter) (id_arg_offset : Nat) : IntRes Nat :=
  match s.read_imm_u8 id_arg_offset with
  | .err e s1 => .err e s1
  | .panicked s1 => .panicked s1
  | .ok id s1 =>
    match s1.globals.get? id with
    | none => .err (.InvalidLocalId id) s1
    | some v => .ok v s1

def Interpreter.set_local (s : Interpreter) (id_arg_offset : Nat) (value : Nat) : IntRes Nat :=
  match s.read_imm_u8 id_arg_offset with
  | .err e s1 => .err e s1
  | .panicked s1 => .panicked s1
  | .ok id s1 =>
    match s1.return_stack with
    | [] => .panicked s1
    | f :: t =>
      if id < f.locals.length then
        .ok value { s1 with return_stack := { f with locals := f.locals.set id value } :: t }
      else .err (.InvalidLocalId id) s1

def Interpreter.set_global (s : Interpreter) (id_arg_offset : Nat) (value : Nat) : IntRes Nat :=
  match s.read_imm_u8 id_arg_offset with
  | .err e s1 => .err e s1
  | .panicked s1 => .panicked s1
  | .ok id s1 =>
    if id < s1.globals.length then
      .ok value { s1 with globals := s1.globals.set id value }
    else .err (.InvalidGlobalId id) s1

def Interpreter.create_frame (s : Interpreter) : IntRes Unit :=
  match writeList (List.replicate MAX_LOCALS 0) s.args with
  | none => .panicked s
  | some locs =>
    .ok () { s with return_stack := ⟨locs, u32 (s.pc + 1)⟩ :: s.return_stack }

def u32sub (a b : Nat) : Nat := intToU32 ((a : Int) - (b : Int))

def boolToU32 (b : Bool) : Nat := if b then 1 else 0

/-- One dispatch step (`Interpreter::exec_next_op`).  Opcodes with no match
arm in the source fall into `todo!()`, modelled as `panicked`. -/
def Interpreter.exec_next_op (h : SyscallHandler) (s : Interpreter) : IntRes Unit :=
  match s.read_u8 s.pc with
  | .err e s0 => .err e s0
  | .panicked s0 => .panicked s0
  | .ok oc s0 =>
    if oc = opcode.Nop then .ok () { s0 with pc := u32 (s0.pc + 1) }
    else if oc = opcode.End then .ok () { s0 with running := false }
    else if oc = opcode.Unreachable then .err .ReachedUnreachable s0
    else if oc = opcode.Drop then
      match s0.pop with
      | .err e s1 => .err e s1
      | .panicked s1 => .panicked s1
      | .ok _ s1 => .ok () { s1 with pc := u32 (s1.pc + 1) }
    else if oc = opcode.Const then
      match s0.read_i32 (u32 (s0.pc + 1)) with
      | .err e s1 => .err e s1
      | .panicked s1 => .panicked s1
      | .ok arg s1 => .ok () { (s1.push (intToU32 arg)) with pc := u32 (s1.pc + 1 + 4) }
    else if oc = opcode.Jmp then
      s0.exec_jmp
    else if oc = opcode.JmpIf then
      match s0.pop with
      | .err e s1 => .err e s1
      | .panicked s1 => .panicked s1
      | .ok addr s1 =>
        match s1.pop_bool with
        | .err e s2 => .err e s2
        | .panicked s2 => .panicked s2
        | .ok cond s2 =>
          if cond then s2.try_jump_to addr
          else .ok () { s2 with pc := u32 (s2.pc + 1) }
    else if oc = opcode.Branch then
      match s0.exec_branch with
      | .ok _ s1 => .ok () s1
      | .err _ s1 => .ok () s1
      | .panicked s1 => .panicked s1
    else if oc = opcode.BranchIf then
      match s0.pop with
      | .err e s1 => .err e s1
      | .panicked s1 => .panicked s1
      | .ok v s1 =>
        let addr := u32 (v + s1.pc)
        match s1.pop_bool with
        | .err e s2 => .err e s2
        | .panicked s2 => .panicked s2
        | .ok cond s2 =>
          if cond then s2.try_jump_to addr
          else .ok () { s2 with pc := u32 (s2.pc + 1) }
    else if oc = opcode.LocalGet then
      match s0.read_local 1 with
      | .err e s1 => .err e s1
      | .panicked s1 => .panicked s1
      | .ok v s1 => .ok () { (s1.push v) with pc := u32 (s1.pc + 2) }
    else if oc = opcode.LocalSet then
      match s0.pop with
      | .err e s1 => .err e s1
      | .panicked s1 => .panicked s1
      | .ok val s1 =>
        match s1.set_local 1 val with
        | .err e s2 => .err e s2
        | .panicked s2 => .panicked s2
        | .ok _ s2 => .ok () { s2 with pc := u32 (s2.pc + 2) }
    else if oc = opcode.LocalTee then
      match s0.peek with
      | .err e s1 => .err e s1
      | .panicked s1 => .panicked s1
      | .ok val s1 =>
        match s1.set_local 1 val with
        | .err e s2 => .err e s2
        | .panicked s2 => .panicked s2
        | .ok _ s2 => .ok () { s2 with pc := u32 (s2.pc + 2) }
    else if oc = opcode.GlobalGet then
      match s0.read_global 1 with
      | .err e s1 => .err e s1
      | .panicked s1 => .panicked s1
      | .ok v s1 => .ok () { (s1.push v) with pc := u32 (s1.pc + 2) }
    else if oc = opcode.GlobalSet then
      match s0.pop with
      | .err e s1 => .err e s1
      | .panicked s1 => .panicked s1
      | .ok val s1 =>
        match s1.set_global 1 val with
        | .err e s2 => .err e s2
        | .panicked s2 => .panicked s2
        | .ok _ s2 => .ok () { s2 with pc := u32 (s2.pc + 2) }
    else if oc = opcode.GlobalTee then
      match s0.peek with
      | .err e s1 => .err e s1
      | .panicked s1 => .panicked s1
      | .ok val s1 =>
        match s1.set_global 1 val with
        | .err e s2 => .err e s2
        | .panicked s2 => .panicked s2
        | .ok _ s2 => .ok () { s2 with pc := u32 (s2.pc + 2) }
    else if oc = opcode.Add then
      match s0.pop with
      | .err e s1 => .err e s1
      | .panicked s1 => .panicked s1
      | .ok b s1 =>
        match s1.pop with
        | .err e s2 => .err e s2
        | .panicked s2 => .panicked s2
        | .ok a s2 => .ok () { (s2.push (u32 (a + b))) with pc := u32 (s2.pc + 1) }
    else if oc = opcode.Sub then
      match s0.pop with
      | .err e s1 => .err e s1
      | .panicked s1 => .panicked s1
      | .ok b s1 =>
        match s1.pop with
        | .err e s2 => .err e s2
        | .panicked s2 => .panicked s2
        | .ok a s2 => .ok () { (s2.push (u32sub a b)) with pc := u32 (s2.pc + 1) }
    else if oc = opcode.Mul then
      match s0.pop with
      | .err e s1 => .err e s1
      | .panicked s1 => .panicked s1
      | .ok b s1 =>
        match s1.pop with
        | .err e s2 => .err e s2
        | .panicked s2 => .panicked s2
        | .ok a s2 => .ok () { (s2.push (u32 (a * b))) with pc := u32 (s2.pc + 1) }
    else if oc = opcode.Divu then
      match s0.pop with
      | .err e s1 => .err e s1
      | .panicked s1 => .panicked s1
      | .ok b s1 =>
        match s1.pop with
        | .err e s2 => .err e s2
        | .panicked s2 => .panicked s2
        | .ok a s2 =>
          if b = 0 then .panicked s2
          else .ok () { (s2.push (a / b)) with pc := u32 (s2.pc + 1) }
    else if oc = opcode.Divs then
      match s0.pop with
      | .err e s1 => .err e s1
      | .panicked s1 => .panicked s1
      | .ok b s1 =>
        match s1.pop with
        | .err e s2 => .err e s2
        | .panicked s2 => .panicked s2
        | .ok a s2 =>
          let ia := i32_of_u32 a
          let ib := i32_of_u32 b
          if ib = 0 ∨ (ia = -2147483648 ∧ ib = -1) then .panicked s2
          else .ok () { (s2.push (intToU32 (Int.tdiv ia ib))) with pc := u32 (s2.pc + 1) }
    else if oc = opcode.Lt then
      match s0.pop with
      | .err e s1 => .err e s1
      | .panicked s1 => .panicked s1
      | .ok b s1 =>
        match s1.pop with
        | .err e s2 => .err e s2
        | .panicked s2 => .panicked s2
        | .ok a s2 => .ok () { (s2.push (boolToU32 (a < b))) with pc := u32 (s2.pc + 1) }
    else if oc = opcode.Gt then
      match s0.pop with
      | .err e s1 => .err e s1
      | .panicked s1 => .panicked s1
      | .ok b s1 =>
        match s1.pop with
        | .err e s2 => .err e s2
        | .panicked s2 => .panicked s2
        | .ok a s2 => .ok () { (s2.push (boolToU32 (a > b))) with pc := u32 (s2.pc + 1) }
    else if oc = opcode.Ge then
      match s0.pop with
      | .err e s1 => .err e s1
      | .panicked s1 => .panicked s1
      | .ok b s1 =>
        match s1.pop with
        | .err e s2 => .err e s2
        | .panicked s2 => .panicked s2
        | .ok a s2 => .ok () { (s2.push (boolToU32 (a ≥ b))) with pc := u32 (s2.pc + 1) }
    else if oc = opcode.Le then
      match s0.pop with
      | .err e s1 => .err e s1
      | .panicked s1 => .panicked s1
      | .ok b s1 =>
        match s1.pop with
        | .err e s2 => .err e s2
        | .panicked s2 => .panicked s2
        | .ok a s2 => .ok () { (s2.push (boolToU32 (a ≤ b))) with pc := u32 (s2.pc + 1) }
    else if oc = opcode.And then
      match s0.pop with
      | .err e s1 => .err e s1
      | .panicked s1 => .panicked s1
      | .ok b s1 =>
        match s1.pop with
        | .err e s2 => .err e s2
        | .panicked s2 => .panicked s2
        | .ok a s2 => .ok () { (s2.push (a &&& b)) with pc := u32 (s2.pc + 1) }
    else if oc = opcode.Or then
      match s0.pop with
      | .err e s1 => .err e s1
      | .panicked s1 => .panicked s1
      | .ok b s1 =>
        match s1.pop with
        | .err e s2 => .err e s2
        | .panicked s2 => .panicked s2
        | .ok a s2 => .ok () { (s2.push (a ||| b)) with pc := u32 (s2.pc + 1) }
    else if oc = opcode.Xor then
      match s0.pop with
      | .err e s1 => .err e s1
      | .panicked s1 => .panicked s1
      | .ok b s1 =>
        match s1.pop with
        | .err e s2 => .err e s2
        | .panicked s2 => .panicked s2
        | .ok a s2 => .ok () { (s2.push (a ^^^ b)) with pc := u32 (s2.pc + 1) }
    else if oc = opcode.Shiftl then
      match s0.pop with
      | .err e s1 => .err e s1
      | .panicked s1 => .panicked s1
      | .ok b s1 =>
        match s1.pop with
        | .err e s2 => .err e s2
        | .panicked s2 => .panicked s2
        | .ok a s2 => .ok () { (s2.push (u32 (a <<< (b % 32)))) with pc := u32 (s2.pc + 1) }
    else if oc = opcode.Shiftr then
      match s0.pop with
      | .err e s1 => .err e s1
      | .panicked s1 => .panicked s1
      | .ok b s1 =>
        match s1.pop with
        | .err e s2 => .err e s2
        | .panicked s2 => .panicked s2
        | .ok a s2 => .ok () { (s2.push (a >>> (b % 32))) with pc := u32 (s2.pc + 1) }
    else if oc = opcode.Store8 then
      match s0.read_store_args with
      | .err e s1 => .err e s1
      | .panicked s1 => .panicked s1
      | .ok args s1 =>
        match s1.store_u8 args.addr (args.value % 256) with
        | .err e s2 => .err e s2
        | .panicked s2 => .panicked s2
        | .ok _ s2 => .ok () { s2 with pc := u32 (s2.pc + 5) }
    else if oc = opcode.Store16 then
      match s0.read_store_args with
      | .err e s1 => .err e s1
      | .panicked s1 => .panicked s1
      | .ok args s1 =>
        match s1.store_u16 args.addr (args.value % 65536) with
        | .err e s2 => .err e s2
        | .panicked s2 => .panicked s2
        | .ok _ s2 => .ok () { s2 with pc := u32 (s2.pc + 5) }
    else if oc = opcode.Store32 then
      match s0.read_store_args with
      | .err e s1 => .err e s1
      | .panicked s1 => .panicked s1
      | .ok args s1 =>
        match s1.store_u32 args.addr (u32 args.value) with
        | .err e s2 => .err e s2
        | .panicked s2 => .panicked s2
        | .ok _ s2 => .ok () { s2 with pc := u32 (s2.pc + 5) }
    else if oc = opcode.Load8u then
      match s0.read_imm_u32 1 with
      | .err e s1 => .err e s1
      | .panicked s1 => .panicked s1
      | .ok offset s1 =>
        match s1.pop with
        | .err e s2 => .err e s2
        | .panicked s2 => .panicked s2
        | .ok v s2 =>
          match s2.read_u8 (u32 (offset + v)) with
          | .err e s3 => .err e s3
          | .panicked s3 => .panicked s3
          | .ok b s3 => .ok () { (s3.push b) with pc := u32 (s3.pc + 5) }
    else if oc = opcode.Load16u then
      match s0.read_imm_u32 1 with
      | .err e s1 => .err e s1
      | .panicked s1 => .panicked s1
      | .ok offset s1 =>
        match s1.pop with
        | .err e s2 => .err e s2
        | .panicked s2 => .panicked s2
        | .ok v s2 =>
          match s2.read_u16 (u32 (offset + v)) with
          | .err e s3 => .err e s3
          | .panicked s3 => .panicked s3
          | .ok b s3 => .ok () { (s3.push b) with pc := u32 (s3.pc + 5) }
    else if oc = opcode.Load32u then
      match s0.read_imm_u32 1 with
      | .err e s1 => .err e s1
      | .panicked s1 => .panicked s1
      | .ok offset s1 =>
        match s1.pop with
        | .err e s2 => .err e s2
        | .panicked s2 => .panicked s2
        | .ok v s2 =>
          match s2.read_u32 (u32 (offset + v)) with
          | .err e s3 => .err e s3
          | .panicked s3 => .panicked s3
          | .ok b s3 => .ok () { (s3.push b) with pc := u32 (s3.pc + 5) }
    else if oc = opcode.PushArg then
      if s0.args.length ≥ MAX_ARGS then .err .ArgStackFull s0
      else
        match s0.pop with
        | .err e s1 => .err e s1
        | .panicked s1 => .panicked s1
        | .ok arg s1 =>
          .ok () { s1 with args := s1.args ++ [arg], pc := u32 (s1.pc + 1) }
    else if oc = opcode.Call then
      match s0.pop with
      | .err e s1 => .err e s1
      | .panicked s1 => .panicked s1
      | .ok addr s1 =>
        if addr ≥ u32 s1.memory.length then .err (.InvalidJumpAddr addr) s1
        else
          match s1.create_frame with
          | .err e s2 => .err e s2
          | .panicked s2 => .panicked s2
          | .ok _ s2 => .ok () { s2 with pc := addr, args := [] }
    else if oc = opcode.Return then
      match s0.return_stack with
      | [] => .err .UnexpectedEmptyFrameStack s0
      | last_frame :: t =>
        if last_frame.return_addr = 0 then
          .ok () { s0 with return_stack := t, running := false }
        else
          .ok () { s0 with return_stack := t, pc := last_frame.return_addr }
    else if oc = opcode.DbgAssert then
      match s0.pop_bool with
      | .err e s1 => .err e s1
      | .panicked s1 => .panicked s1
      | .ok true s1 => .ok () { s1 with pc := u32 (s1.pc + 1) }
      | .ok false s1 => .ok () { s1 with running := false, assertion_failed := true }
    else if oc = opcode.Syscall then
      match s0.pop with
      | .err e s1 => .err e s1
      | .panicked s1 => .panicked s1
      | .ok id s1 =>
        let args := s1.args
        let hr := h s1 id args
        .ok () ((({ hr.1 with args := [] } : Interpreter).push) hr.2)
    else .panicked s0

/-- Result of constructing / resetting an interpreter from module bytes. -/
inductive LoadRes where
  | ok (s : Interpreter)
  | err (e : InterpreterErrorType)
  | panicked
deriving DecidableEq, Repr

def LoadRes.isOk : LoadRes → Bool
  | .ok _ => true
  | _ => false

def LoadRes.state : LoadRes → Interpreter
  | .ok s => s
  | _ => Interpreter.default

/-- `is_bytecode_header_valid` (`bytecode[0..4]` panics when fewer than four
bytes are present). -/
def is_bytecode_header_valid (bytecode : List Nat) : LoadRes :=
  match takeExact 4 bytecode with
  | none => .panicked
  | some magic =>
    if magic = BYTECODE_HEADER then .ok Interpreter.default
    else .err .InvalidBytecodeHeader

/-- `init_memory`: copy `bytecode[4..]` over the front of `memory`
(a length mismatch panics in Rust). -/
def Interpreter.init_memory (s : Interpreter) (bytecode : List Nat) : Option Interpreter :=
  (writeList s.memory (bytecode.drop 4)).map fun m => { s with memory := m }

def Interpreter.from_bytecode (bytecode : List Nat) : LoadRes :=
  match is_bytecode_header_valid bytecode with
  | .err e => .err e
  | .panicked => .panicked
  | .ok _ =>
    let i0 := { Interpreter.default with
                  memory := List.replicate (MIN_HEAP_SIZE + bytecode.length) 0 }
    match i0.init_memory bytecode with
    | none => .panicked
    | some i1 =>
      let i2 := { i1 with return_stack := [Frame.empty] }
      match i2.read_u32 CODE_START_ADDR_POS with
      | .err e _ => .err e
      | .panicked _ => .panicked
      | .ok start_code_addr i3 =>
        .ok { i3 with start_pc_addr := start_code_addr
                      bytecode_len := bytecode.length
                      pc := start_code_addr }

def Interpreter.reset_all (s : Interpreter) (bytecode : List Nat) : LoadRes :=
  match is_bytecode_header_valid bytecode with
  | .err e => .err e
  | .panicked => .panicked
  | .ok _ =>
    let s0 := { s with value_stack := []
                       return_stack := []
                       memory := List.replicate s.memory.length 0
                       globals := List.replicate s.globals.length 0
                       running := false
                       args := []
                       assertion_failed := false }
    match s0.init_memory bytecode with
    | none => .panicked
    | some s1 =>
      let s2 := { s1 with return_stack := [Frame.empty] }
      match s2.read_u32 CODE_START_ADDR_POS with
      | .err e _ => .err e
      | .panicked _ => .panicked
      | .ok start_code_addr s3 =>
        .ok { s3 with pc := start_code_addr
                      start_pc_addr := start_code_addr
                      bytecode_len := bytecode.length }

def Interpreter.inital_bytecode (s : Interpreter) : Option (List Nat) :=
  sliceGet s.memory DATA_START s.bytecode_len

def Interpreter.reset_pc (s : Interpreter) : Interpreter :=
  { s with pc := s.start_pc_addr }

/-! ## Module-level helpers for the claims -/

def AsmRes.isOk {α : Type} : AsmRes α → Bool
  | .ok _ => true
  | _ => false

/-- The code bytes produced by `Parser::parse`, or `[]` on failure. -/
def parsedCode (src : String) : List Nat :=
  match Parser.parse src.toList with
  | .ok r => r.code
  | _ => []

/-- The 4-byte little-endian module field at a given byte offset. -/
def moduleField (bs : List Nat) (off : Nat) : Nat :=
  leVal ((bs.drop off).take 4)

/-! ## C1: bottom frame sentinel -/

def c1Module : List Nat := parsedCode "return;"

def c1Loaded : Interpreter :=
  { (Interpreter.from_bytecode c1Module).state with running := true }

def c1Step : IntRes Unit := c1Loaded.exec_next_op dummyHandler

/-- C1: the claim says the bottom frame of a loaded interpreter has
`return_addr = 0` and that `return` popping it sets `running` to `false`.
In the code `Frame::empty` sets `return_addr = CODE_START_ADDR_POS = 8`, so
on the module assembled from `"return;"` the `return` opcode pops the bottom
frame, finds `return_addr ≠ 0`, jumps to address `8` and leaves `running`
as `true`: the 0-sentinel termination arm never fires. -/
theorem c1_bottom_frame_return_code_bug :
    Frame.empty.return_addr = CODE_START_ADDR_POS ∧
    CODE_START_ADDR_POS = 8 ∧
    (Interpreter.from_bytecode c1Module).isOk = true ∧
    (Interpreter.from_bytecode c1Module).state.return_stack = [Frame.empty] ∧
    c1Loaded.memory.get? c1Loaded.pc = some opcode.Return ∧
    c1Step.isOk = true ∧
    c1Step.state.running = true ∧
    c1Step.state.pc = 8 ∧
    c1Step.state.return_stack = [] := by
  decide

/-! ## C2: header field layout -/

def c2Module : List Nat := parsedCode "nop; nop;"

/-- C2 counterexample: on the module assembled from `"nop; nop;"` the 4-byte
field at offset `0x08` is the instruction count `2` while the interpreter
reads its entry pc from offset `0x0C` (where `12` is stored); the two fields
differ, so offset `0x08` does not hold the entry address as claimed. -/
theorem c2_counterexample :
    (Parser.parse ("nop; nop;".toList)).isOk = true ∧
    moduleField c2Module 8 = 2 ∧
    moduleField c2Module 12 = 12 ∧
    (Interpreter.from_bytecode c2Module).isOk = true ∧
    (Interpreter.from_bytecode c2Module).state.pc = moduleField c2Module 12 ∧
    moduleField c2Module 8 ≠ moduleField c2Module 12 := by
  decide

/-- The entry address `get_bytecode_info` stores in the header:
`label(__ENTRY__)` (or 0) plus `CODE_START`. -/
def entryAddr (p : Parser) : Nat :=
  u32 ((lookupLabel p.labels ENTRY_LABEL_NAME).getD 0 + CODE_START)

/-- C2 (amended): in every module written by `as_bytecode`, the 4-byte
little-endian field at offset `0x08` is `instruction_count`, the field at
offset `0x0C` is `entry_pc_addr` (the two are swapped relative to the
claim), and the code section begins at offset `0x10`. -/
theorem c2_amended_header_layout (p : Parser) (ops : List RawOp) :
    p.as_bytecode ops =
      BYTECODE_HEADER ++ leBytes 4 (u32 p.op_size_bytes) ++ leBytes 4 (u32 p.op_count)
        ++ leBytes 4 (entryAddr p) ++ encodeOps ops ∧
    moduleField (p.as_bytecode ops) 4 = u32 p.op_size_bytes ∧
    moduleField (p.as_bytecode ops) 8 = u32 p.op_count ∧
    moduleField (p.as_bytecode ops) 12 = entryAddr p ∧
    (p.as_bytecode ops).drop 16 = encodeOps ops := by
  refine ⟨rfl, ?_, ?_, ?_, ?_⟩ <;>
    simp [Parser.as_bytecode, BytecodeInfo.to_bytecode, Parser.get_bytecode_info,
      moduleField, entryAddr, BYTECODE_HEADER, leBytes, leVal, u32, List.drop_append] <;>
    omega

/-! ## C4: assembler/decoder round trip -/

def c4Module : List Nat := parsedCode "extend_8_32_u;"

/-- C4 counterexample: `"extend_8_32_u;"` is a valid source whose module has
`instruction_count = 1`, but decoding its code section yields
`Unknown 0x2e` — not an `Op(_)` — because the decoder's no-argument match
ranges skip the extend opcodes. -/
theorem c4_counterexample :
    (Parser.parse ("extend_8_32_u;".toList)).isOk = true ∧
    moduleField c4Module 8 = 1 ∧
    decodeOps (c4Module.drop 16) = [.Unknown 0x2e] := by
  decide

/-! ## C5: syscall semantics -/

def c5State : Interpreter :=
  { Interpreter.default with memory := [opcode.Syscall, opcode.End]
                             pc := 0
                             running := true
                             value_stack := [7]
                             args := [5, 6] }

/-- A host handler that returns the syscall id plus the sum of the argument
snapshot, so its return code witnesses what it was passed. -/
def c5Handler : SyscallHandler := fun s id args => (s, id + args.foldl (· + ·) 0)

def c5Step : IntRes Unit := c5State.exec_next_op c5Handler

/-- C5: on a state whose `pc` points at the `syscall` opcode with `7` on the
value stack and args buffer `[5, 6]`, the step pops the id, hands
`(id, args)` to the handler (the pushed return code is `7 + 5 + 6 = 18`),
clears the args buffer — but leaves `pc` unchanged at `0` instead of
advancing it by 1 as the claim (and the spec) require. -/
theorem c5_syscall_pc_code_bug :
    c5State.memory.get? c5State.pc = some opcode.Syscall ∧
    c5Step.isOk = true ∧
    c5Step.state.value_stack = [18] ∧
    c5Step.state.args = [] ∧
    c5Step.state.pc = c5State.pc ∧
    c5State.pc = 0 := by
  decide

/-! ## C6: pc advance by instruction size -/

def c6State : Interpreter :=
  { Interpreter.default with memory := [opcode.End], pc := 0, running := true }

def c6Step : IntRes Unit := c6State.exec_next_op dummyHandler

/-- C6 counterexample: `end` is not one of the control transfers excluded by
the claim, its `size_bytes` is 1, and its execution succeeds — yet `pc`
stays at `0` instead of advancing to `1`. -/
theorem c6_counterexample :
    op.Op.End ∉ ([.Jmp, .JmpIf, .Branch, .BranchIf, .Call, .Return] : List op.Op) ∧
    c6State.memory.get? c6State.pc = some (op.Op.End).repr ∧
    (op.Op.End).size_bytes = 1 ∧
    c6Step.isOk = true ∧
    c6Step.state.pc = 0 ∧
    c6State.pc = 0 := by
  decide

/-! ## C8: register operand range -/

/-- C8 counterexample: the claim says every integer `0 ≤ n ≤ 255` is
accepted as a register operand, but the parser's `0..255` range pattern is
exclusive, so `local_get 255;` is rejected with `UnexpectedRegisterId 255`. -/
theorem c8_counterexample :
    Parser.new.parse_op ("local_get 255;".toList)
      = .err ⟨.UnexpectedRegisterId 255, 0⟩ := by
  decide

/-! ## C9: parser termination -/

/-- C9 counterexample: on an input whose next statement begins with `'*'`,
one iteration of the `parse_elems` loop neither consumes input nor exits —
it hands back exactly the same parser state and remaining input — and the
(fuel-bounded model of the) unbounded Rust loop never finishes. -/
theorem c9_counterexample :
    parseElemsStep Parser.new [] (some ['*']) = .continu Parser.new [] (some ['*']) ∧
    Parser.parse ['*'] = .outOfFuel := by
  decide

attribute [simp] opcode.Nop opcode.Unreachable opcode.Drop opcode.Const opcode.Jmp
  opcode.JmpIf opcode.Branch opcode.BranchIf opcode.LocalGet opcode.LocalSet
  opcode.LocalTee opcode.GlobalGet opcode.GlobalSet opcode.GlobalTee opcode.Eq
  opcode.Eqz opcode.Add opcode.Sub opcode.Divs opcode.Divu opcode.Mul opcode.Neg
  opcode.Gt opcode.Lt opcode.Ge opcode.Le opcode.Shiftr opcode.Shiftl opcode.And
  opcode.Or opcode.Xor opcode.Call opcode.Return opcode.Store8 opcode.Store16
  opcode.Store32 opcode.Load8u opcode.Load8s opcode.Load16s opcode.Load16u
  opcode.Load32s opcode.Load32u opcode.Extend8_32s opcode.Extend16_32s
  opcode.Extend8_32u opcode.Extend16_32u opcode.End opcode.PushArg
  opcode.DbgAssert opcode.Syscall

/-! ## C7: jmp_if semantics -/

/-- C7: executing `jmp_if` pops `addr` first and `cond` second; with
`cond ≠ 0` it jumps to `addr` when `addr < memory.length` and fails with
`InvalidJumpAddr addr` otherwise; with `cond = 0` it advances `pc` by
exactly 1.  In every case the two popped values are gone from the value
stack. -/
theorem c7_jmp_if_semantics (s : Interpreter) (h : SyscallHandler)
    (addr cond : Nat) (rest : List Nat)
    (hmem : s.memory.get? s.pc = some opcode.JmpIf)
    (hstack : s.value_stack = addr :: cond :: rest)
    (hlen : s.memory.length < 4294967296) :
    (cond ≠ 0 → addr < s.memory.length →
      s.exec_next_op h = .ok () { s with value_stack := rest, pc := addr }) ∧
    (cond ≠ 0 → s.memory.length ≤ addr →
      s.exec_next_op h = .err (.InvalidJumpAddr addr) { s with value_stack := rest }) ∧
    (cond = 0 →
      s.exec_next_op h = .ok () { s with value_stack := rest, pc := u32 (s.pc + 1) }) := by
  have hu : u32 s.memory.length = s.memory.length := Nat.mod_eq_of_lt hlen
  rw [List.get?_eq_getElem?] at hmem
  refine ⟨?_, ?_, ?_⟩
  · intro hc ha
    obtain ⟨c', rfl⟩ : ∃ c', cond = c' + 1 := ⟨cond - 1, by omega⟩
    simp [Interpreter.exec_next_op, Interpreter.read_u8, hmem, Interpreter.pop,
      Interpreter.pop_bool, Interpreter.try_jump_to, hstack, hu, Nat.not_le.mpr ha]
  · intro hc ha
    obtain ⟨c', rfl⟩ : ∃ c', cond = c' + 1 := ⟨cond - 1, by omega⟩
    simp [Interpreter.exec_next_op, Interpreter.read_u8, hmem, Interpreter.pop,
      Interpreter.pop_bool, Interpreter.try_jump_to, hstack, hu, ha]
  · intro hc
    subst hc
    simp [Interpreter.exec_next_op, Interpreter.read_u8, hmem, Interpreter.pop,
      Interpreter.pop_bool, Interpreter.try_jump_to, hstack]

/-- Witness for C7 at a concrete state: `jmp_if` with `addr = 5` out of
range of a 2-byte memory fails with `InvalidJumpAddr 5`. -/
theorem c7_jmp_if_semantics_witness :
    Interpreter.exec_next_op dummyHandler
        { Interpreter.default with memory := [opcode.JmpIf, opcode.End]
                                   pc := 0
                                   running := true
                                   value_stack := [5, 1] }
      = .err (.InvalidJumpAddr 5)
          { Interpreter.default with memory := [opcode.JmpIf, opcode.End]
                                     pc := 0
                                     running := true
                                     value_stack := [] } :=
  ((c7_jmp_if_semantics _ dummyHandler 5 1 [] (by decide) (by decide)
      (by decide)).2.1 (by decide) (by decide))

/-! ## C10: globals bounds and error kinds -/

/-- C10: the globals array has exactly `MAX_GLOBALS = 64` slots; with a
register operand `id ≥ 64`, `global_get` fails with `InvalidLocalId id`
(the source's `read_global` reuses the local error kind) while `global_set`
and `global_tee` fail with `InvalidGlobalId id`; in all three cases the
error state's globals array is the unchanged `s.globals` (for `global_set`
only the popped value is gone from the value stack). -/
theorem c10_globals_errors (s : Interpreter) (h : SyscallHandler)
    (id v : Nat) (rest : List Nat)
    (hglen : s.globals.length = 64)
    (hid : 64 ≤ id)
    (him : s.memory.get? (u32 (s.pc + 1)) = some id) :
    MAX_GLOBALS = 64 ∧
    Interpreter.default.globals.length = 64 ∧
    (s.memory.get? s.pc = some opcode.GlobalGet →
      s.exec_next_op h = .err (.InvalidLocalId id) s) ∧
    (s.memory.get? s.pc = some opcode.GlobalSet → s.value_stack = v :: rest →
      s.exec_next_op h = .err (.InvalidGlobalId id) { s with value_stack := rest }) ∧
    (s.memory.get? s.pc = some opcode.GlobalTee → s.value_stack = v :: rest →
      s.exec_next_op h = .err (.InvalidGlobalId id) s) := by
  rw [List.get?_eq_getElem?] at him
  have hnone : s.globals[id]? = none := List.getElem?_eq_none (by omega)
  have hnlt : ¬ (id < s.globals.length) := by omega
  refine ⟨rfl, rfl, ?_, ?_, ?_⟩
  · intro hmem
    rw [List.get?_eq_getElem?] at hmem
    simp [Interpreter.exec_next_op, Interpreter.read_u8, Interpreter.read_global,
      Interpreter.read_imm_u8, hmem, him, hnone]
  · intro hmem hstack
    rw [List.get?_eq_getElem?] at hmem
    simp [Interpreter.exec_next_op, Interpreter.read_u8, Interpreter.set_global,
      Interpreter.read_imm_u8, Interpreter.pop, hmem, him, hstack, hnlt]
  · intro hmem hstack
    rw [List.get?_eq_getElem?] at hmem
    simp [Interpreter.exec_next_op, Interpreter.read_u8, Interpreter.set_global,
      Interpreter.read_imm_u8, Interpreter.peek, hmem, him, hstack, hnlt]

/-- Witness for C10 at a concrete state: `global_get 64` fails with
`InvalidLocalId 64` and leaves the state untouched. -/
theorem c10_globals_errors_witness :
    Interpreter.exec_next_op dummyHandler
        { Interpreter.default with memory := [opcode.GlobalGet, 64], pc := 0, running := true }
      = .err (.InvalidLocalId 64)
        { Interpreter.default with memory := [opcode.GlobalGet, 64], pc := 0, running := true } :=
  (c10_globals_errors _ dummyHandler 64 0 [] (by decide) (by decide)
      (by decide)).2.2.1 (by decide)

/-- C8 (amended): for a register-operand position, an integer argument `n`
is accepted exactly when `0 ≤ n ≤ 254` (the source's `0..255` range pattern
is exclusive, so `255` is rejected); any other integer yields
`UnexpectedRegisterId n` and a label reference yields
`UnexpectedImmArgSize`.  `arg_register` is the argument reader shared by
`local_get/local_set/local_tee/global_get/global_set/global_tee`. -/
theorem c8_amended_register_range :
    (∀ (p : Parser) (s : List Char) (rest : List (List Char)) (n : Int),
      p.parse_arg s = .ok (.Number n) →
        (0 ≤ n ∧ n ≤ 254 →
          p.arg_register (s :: rest) = .ok (.Register n.toNat, rest)) ∧
        (n < 0 ∨ 255 ≤ n →
          p.arg_register (s :: rest) = .err ⟨.UnexpectedRegisterId n, p.line⟩)) ∧
    (∀ (p : Parser) (s : List Char) (rest : List (List Char)) (l : List Char),
      (p.parse_arg s = .ok (.AbsLabelRef l) ∨ p.parse_arg s = .ok (.OffLabelRef l)) →
      p.arg_register (s :: rest) = .err ⟨.UnexpectedImmArgSize, p.line⟩) := by
  constructor
  · intro p s rest n hpa
    constructor
    · intro hr
      have hc : 0 ≤ n ∧ n < 255 := by omega
      simp [Parser.arg_register, hpa, hc]
    · intro hr
      have hc : ¬ (0 ≤ n ∧ n < 255) := by omega
      simp [Parser.arg_register, hpa, hc]
  · intro p s rest l hpa
    rcases hpa with hpa | hpa <;> simp [Parser.arg_register, hpa]

/-- Witness for C8 at concrete arguments: `"7"` parses as `Number 7` and is
accepted as register 7; `"255"` parses as `Number 255` and is rejected. -/
theorem c8_amended_register_range_witness :
    Parser.new.arg_register (["7".toList]) = .ok (.Register 7, []) ∧
    Parser.new.arg_register (["255".toList])
      = .err ⟨.UnexpectedRegisterId 255, 0⟩ :=
  ⟨(c8_amended_register_range.1 Parser.new ("7".toList) [] 7 (by decide)).1 (by decide),
   (c8_amended_register_range.1 Parser.new ("255".toList) [] 255 (by decide)).2 (by decide)⟩

/-! ## C9: loop progress in parse_elems -/

theorem splitAtDelim_length (d : Char) (l w r : List Char)
    (h : splitAtDelim d l = some (w, r)) : r.length < l.length := by
  induction l generalizing w r with
  | nil => simp [splitAtDelim] at h
  | cons c t ih =>
    by_cases hc : c = d
    · simp only [splitAtDelim, if_pos hc, Option.some.injEq, Prod.mk.injEq] at h
      simp [← h.2]
    · simp only [splitAtDelim, if_neg hc, Option.map_eq_some'] at h
      obtain ⟨⟨w', r'⟩, hw', heq⟩ := h
      cases heq
      exact Nat.lt_succ_of_lt (ih _ _ hw')

theorem skip_whitespace_length (p : Parser) (l l' : List Char)
    (h : (p.skip_whitespace l).2 = some l') : l'.length ≤ l.length := by
  induction l generalizing p with
  | nil => simp [Parser.skip_whitespace] at h
  | cons c t ih =>
    by_cases h1 : c = '\r' ∨ c = ' '
    · rw [show p.skip_whitespace (c :: t) = p.skip_whitespace t from by
        simp [Parser.skip_whitespace, h1]] at h
      exact Nat.le_succ_of_le (ih p h)
    · by_cases h2 : c = '\n'
      · rw [show p.skip_whitespace (c :: t)
            = Parser.skip_whitespace { p with line := p.line + 1 } t from by
          simp [Parser.skip_whitespace, h1, h2]] at h
        exact Nat.le_succ_of_le (ih _ h)
      · rw [show p.skip_whitespace (c :: t) = (p, some (c :: t)) from by
          simp [Parser.skip_whitespace, h1, h2]] at h
        simp_all

theorem skip_whitespace_length_strict (p : Parser) (c : Char) (t l' : List Char)
    (hc : c = '\n' ∨ c = '\r' ∨ c = ' ')
    (h : (p.skip_whitespace (c :: t)).2 = some l') : l'.length ≤ t.length := by
  rcases hc with hc | hc | hc <;> subst hc <;>
    simp only [Parser.skip_whitespace, reduceIte] at h <;>
    exact skip_whitespace_length _ _ _ h

theorem parse_op_rest_len (p : Parser) (s : List Char) (o : AsmOp)
    (orest : Option (List Char)) (h : p.parse_op s = .ok (o, orest)) :
    ∃ r', orest = some r' ∧ r'.length < s.length := by
  unfold Parser.parse_op Parser.slice_until at h
  rcases hsp : splitAtDelim STATEMENT_SEP s with _ | ⟨w, r0⟩ <;> simp only [hsp] at h
  · exact absurd h (by simp)
  · rcases hw : iter_op_args w with _ | ⟨name, args⟩ <;> simp only [hw] at h
    · exact absurd h (by simp)
    · rcases hm : p.mnemonic name args with ⟨oc, arg, remaining⟩ | e | _ | _ <;>
        simp only [hm] at h
      · rcases remaining with _ | ⟨x, xs⟩
        · simp only [AsmRes.ok.injEq, Prod.mk.injEq] at h
          exact ⟨r0, h.2.symm, splitAtDelim_length _ _ _ _ hsp⟩
        · exact absurd h (by simp)
      · exact absurd h (by simp)
      · exact absurd h (by simp)
      · exact absurd h (by simp)

theorem parse_label_rest_len (p : Parser) (s : List Char) (lab : LabelDef)
    (orest : Option (List Char)) (h : p.parse_label s = .ok (lab, orest)) :
    ∃ r', orest = some r' ∧ r'.length < s.length := by
  unfold Parser.parse_label Parser.slice_until at h
  rcases hsp : splitAtDelim ':' s with _ | ⟨w, r0⟩ <;> simp only [hsp] at h
  · exact absurd h (by simp)
  · simp only [AsmRes.ok.injEq, Prod.mk.injEq] at h
    exact ⟨r0, h.2.symm, splitAtDelim_length _ _ _ _ hsp⟩

/-- Size of the remaining input driving the `parse_elems` loop. -/
def restMeasure : Option (List Char) → Nat
  | none => 0
  | some l => l.length + 1

/-- C9 (amended): an iteration of the `parse_elems` scan loop whose
remaining input does not begin with `'*'` either exits the loop (break,
error or panic) or strictly shrinks the remaining input; when the remaining
input begins with `'*'`, the iteration returns the very same state and
input unchanged, so the loop never terminates on such inputs. -/
theorem c9_amended_parse_elems_progress (p : Parser) (elems : List Elem)
    (r : List Char) :
    (r.head? ≠ some '*' →
      ∀ (p' : Parser) (elems' : List Elem) (rest' : Option (List Char)),
        parseElemsStep p elems (some r) = .continu p' elems' rest' →
        restMeasure rest' < r.length + 1) ∧
    (r.head? = some '*' →
      parseElemsStep p elems (some r) = .continu p elems (some r)) := by
  constructor
  · intro hstar p' elems' rest' hstep
    rcases r with _ | ⟨c, t⟩
    · simp [parseElemsStep] at hstep
    · simp only [List.head?_cons, ne_eq, Option.some.injEq] at hstar
      by_cases h1 : c = '\n' ∨ c = '\r' ∨ c = ' '
      · rw [show parseElemsStep p elems (some (c :: t))
            = .continu (p.skip_whitespace (c :: t)).1 elems (p.skip_whitespace (c :: t)).2
            from by simp [parseElemsStep, h1]] at hstep
        cases hstep
        rcases ho : (p.skip_whitespace (c :: t)).2 with _ | l'
        · simp [restMeasure, ho]
        · have hle := skip_whitespace_length_strict p c t l' h1 ho
          simp only [restMeasure, ho, List.length_cons]
          omega
      · push_neg at h1
        obtain ⟨hn1, hn2, hn3⟩ := h1
        by_cases h2 : c = '#'
        · subst h2
          rw [show parseElemsStep p elems (some ('#' :: t))
              = (match p.slice_until t STATEMENT_SEP with
                 | .err e => .failed e
                 | .panicked => .panicked
                 | .outOfFuel => .panicked
                 | .ok (word, statement_rest) =>
                   match p.parse_arg word with
                   | .err e => .failed e
                   | .panicked => .panicked
                   | .outOfFuel => .panicked
                   | .ok arg =>
                     .continu { p with op_size_bytes := p.op_size_bytes + 5,
                                       op_count := p.op_count + 1 }
                       (elems ++ [.Const arg]) statement_rest)
              from by simp [parseElemsStep]] at hstep
          unfold Parser.slice_until at hstep
          rcases hsp : splitAtDelim STATEMENT_SEP t with _ | ⟨w, r0⟩ <;>
            simp only [hsp] at hstep
          · exact absurd hstep (by simp)
          · have hr0 := splitAtDelim_length _ _ _ _ hsp
            rcases hpa : p.parse_arg w with a | e | _ | _ <;> simp only [hpa] at hstep
            · cases hstep
              simp only [restMeasure, List.length_cons]
              omega
            · exact absurd hstep (by simp)
            · exact absurd hstep (by simp)
            · exact absurd hstep (by simp)
        · by_cases h3 : c = ':'
          · subst h3
            rw [show parseElemsStep p elems (some (':' :: t))
                = (match p.parse_label t with
                   | .err e => .failed e
                   | .panicked => .panicked
                   | .outOfFuel => .panicked
                   | .ok (label, label_rest) =>
                     match p.try_push_label label.name (u32 label.position) with
                     | .err e => .failed e
                     | .panicked => .panicked
                     | .outOfFuel => .panicked
                     | .ok (p2, id) => .continu p2 (elems ++ [.Label id]) label_rest)
                from by simp [parseElemsStep]] at hstep
            rcases hpl : p.parse_label t with ⟨lab, orest⟩ | e | _ | _ <;>
              simp only [hpl] at hstep
            · obtain ⟨r', hr', hlen⟩ := parse_label_rest_len _ _ _ _ hpl
              rcases hpu : p.try_push_label lab.name (u32 lab.position)
                  with ⟨p2, id⟩ | e | _ | _ <;> simp only [hpu] at hstep
              · cases hstep
                subst hr'
                simp only [restMeasure, List.length_cons]
                omega
              · exact absurd hstep (by simp)
              · exact absurd hstep (by simp)
              · exact absurd hstep (by simp)
            · exact absurd hstep (by simp)
            · exact absurd hstep (by simp)
            · exact absurd hstep (by simp)
          · rw [show parseElemsStep p elems (some (c :: t))
                = (match p.parse_op (c :: t) with
                   | .err e => .failed e
                   | .panicked => .panicked
                   | .outOfFuel => .panicked
                   | .ok (op, op_rest) =>
                     .continu { p with op_size_bytes := p.op_size_bytes + op.size_bytes,
                                       op_count := p.op_count + 1 }
                       (elems ++ [.Op op]) op_rest)
                from by simp [parseElemsStep, hn1, hn2, hn3, h2, h3, hstar]] at hstep
            rcases hpo : p.parse_op (c :: t) with ⟨o, orest⟩ | e | _ | _ <;>
              simp only [hpo] at hstep
            · obtain ⟨r', hr', hlen⟩ := parse_op_rest_len _ _ _ _ hpo
              cases hstep
              subst hr'
              simp only [restMeasure, List.length_cons]
              simp only [List.length_cons] at hlen
              omega
            · exact absurd hstep (by simp)
            · exact absurd hstep (by simp)
            · exact absurd hstep (by simp)
  · intro hstar
    rcases r with _ | ⟨c, t⟩
    · simp at hstar
    · simp only [List.head?_cons, Option.some.injEq] at hstar
      subst hstar
      simp [parseElemsStep]

/-- Witness for C9 at a concrete input: the iteration on `"nop;"` consumes
the whole statement, leaving remaining input of measure 1 < 5. -/
theorem c9_amended_parse_elems_progress_witness :
    restMeasure (some []) < ("nop;".toList).length + 1 :=
  (c9_amended_parse_elems_progress Parser.new [] ("nop;".toList)).1 (by decide)
    ⟨1, 1, 0, []⟩ [Elem.Op ⟨opcode.Nop, none⟩] (some []) (by decide)

/-! ## C6: pc advance by instruction size (amended, general) -/

/-- C6 (amended): for every instruction of the `Op` catalog other than the
control transfers `jmp`, `jmp_if`, `branch`, `branch_if`, `call` and
`return`, and other than `end` and `dbg_assert` (the counterexample forces
their exclusion: `end` halts without advancing `pc`, and `dbg_assert`
advances only on a nonzero condition; the `syscall` opcode is not part of
the `Op` catalog at all), a successful `exec_next_op` advances `pc` by
exactly `size_bytes(op)` (modulo `2^32`); `dbg_assert` with a nonzero
popped condition advances `pc` by exactly 1. -/
theorem c6_amended_pc_advance (s : Interpreter) (h : SyscallHandler)
    (o : op.Op) (s' : Interpreter)
    (hmem : s.memory.get? s.pc = some o.repr) :
    (o ∉ ([.Jmp, .JmpIf, .Branch, .BranchIf, .Call, .Return, .End,
           .DbgAssert] : List op.Op) →
      s.exec_next_op h = .ok () s' → s'.pc = u32 (s.pc + o.size_bytes)) ∧
    (o = .DbgAssert → ∀ (c : Nat) (rest : List Nat), s.value_stack = c :: rest →
      c ≠ 0 → s.exec_next_op h = .ok () s' → s'.pc = u32 (s.pc + 1)) := by
  rw [List.get?_eq_getElem?] at hmem
  constructor
  · intro hno hexec
    cases o with
    | Nop =>
      simp only [op.Op.repr] at hmem
      simp only [Interpreter.exec_next_op, Interpreter.read_u8,
          List.get?_eq_getElem?, hmem,
          opcode.Nop, opcode.Unreachable, opcode.Drop, opcode.Const, opcode.Jmp,
          opcode.JmpIf, opcode.Branch, opcode.BranchIf, opcode.LocalGet, opcode.LocalSet,
          opcode.LocalTee, opcode.GlobalGet, opcode.GlobalSet, opcode.GlobalTee, opcode.Eq,
          opcode.Eqz, opcode.Add, opcode.Sub, opcode.Divs, opcode.Divu, opcode.Mul,
          opcode.Neg, opcode.Gt, opcode.Lt, opcode.Ge, opcode.Le, opcode.Shiftr,
          opcode.Shiftl, opcode.And, opcode.Or, opcode.Xor, opcode.Call, opcode.Return,
          opcode.Store8, opcode.Store16, opcode.Store32, opcode.Load8u, opcode.Load8s,
          opcode.Load16s, opcode.Load16u, opcode.Load32s, opcode.Load32u,
          opcode.Extend8_32s, opcode.Extend16_32s, opcode.Extend8_32u,
          opcode.Extend16_32u, opcode.End, opcode.PushArg, opcode.DbgAssert,
          opcode.Syscall,
          reduceIte, Nat.reduceEqDiff] at hexec
      cases hexec
      simp [Interpreter.push, op.Op.size_bytes]
    | Unreachable =>
      simp only [op.Op.repr] at hmem
      simp only [Interpreter.exec_next_op, Interpreter.read_u8,
          List.get?_eq_getElem?, hmem,
          opcode.Nop, opcode.Unreachable, opcode.Drop, opcode.Const, opcode.Jmp,
          opcode.JmpIf, opcode.Branch, opcode.BranchIf, opcode.LocalGet, opcode.LocalSet,
          opcode.LocalTee, opcode.GlobalGet, opcode.GlobalSet, opcode.GlobalTee, opcode.Eq,
          opcode.Eqz, opcode.Add, opcode.Sub, opcode.Divs, opcode.Divu, opcode.Mul,
          opcode.Neg, opcode.Gt, opcode.Lt, opcode.Ge, opcode.Le, opcode.Shiftr,
          opcode.Shiftl, opcode.And, opcode.Or, opcode.Xor, opcode.Call, opcode.Return,
          opcode.Store8, opcode.Store16, opcode.Store32, opcode.Load8u, opcode.Load8s,
          opcode.Load16s, opcode.Load16u, opcode.Load32s, opcode.Load32u,
          opcode.Extend8_32s, opcode.Extend16_32s, opcode.Extend8_32u,
          opcode.Extend16_32u, opcode.End, opcode.PushArg, opcode.DbgAssert,
          opcode.Syscall,
          reduceIte, Nat.reduceEqDiff] at hexec
      exact absurd hexec (by simp)
    | Drop =>
      simp only [op.Op.repr] at hmem
      simp only [Interpreter.exec_next_op, Interpreter.read_u8,
          List.get?_eq_getElem?, hmem,
          opcode.Nop, opcode.Unreachable, opcode.Drop, opcode.Const, opcode.Jmp,
          opcode.JmpIf, opcode.Branch, opcode.BranchIf, opcode.LocalGet, opcode.LocalSet,
          opcode.LocalTee, opcode.GlobalGet, opcode.GlobalSet, opcode.GlobalTee, opcode.Eq,
          opcode.Eqz, opcode.Add, opcode.Sub, opcode.Divs, opcode.Divu, opcode.Mul,
          opcode.Neg, opcode.Gt, opcode.Lt, opcode.Ge, opcode.Le, opcode.Shiftr,
          opcode.Shiftl, opcode.And, opcode.Or, opcode.Xor, opcode.Call, opcode.Return,
          opcode.Store8, opcode.Store16, opcode.Store32, opcode.Load8u, opcode.Load8s,
          opcode.Load16s, opcode.Load16u, opcode.Load32s, opcode.Load32u,
          opcode.Extend8_32s, opcode.Extend16_32s, opcode.Extend8_32u,
          opcode.Extend16_32u, opcode.End, opcode.PushArg, opcode.DbgAssert,
          opcode.Syscall,
          reduceIte, Nat.reduceEqDiff] at hexec
      rcases hv1 : s.value_stack with _ | ⟨b1, t1⟩
      · simp [Interpreter.pop, hv1] at hexec
      · simp only [Interpreter.pop, hv1] at hexec
        cases hexec
        simp [Interpreter.push, op.Op.size_bytes]
    | Const =>
      simp only [op.Op.repr] at hmem
      simp only [Interpreter.exec_next_op, Interpreter.read_u8,
          List.get?_eq_getElem?, hmem,
          opcode.Nop, opcode.Unreachable, opcode.Drop, opcode.Const, opcode.Jmp,
          opcode.JmpIf, opcode.Branch, opcode.BranchIf, opcode.LocalGet, opcode.LocalSet,
          opcode.LocalTee, opcode.GlobalGet, opcode.GlobalSet, opcode.GlobalTee, opcode.Eq,
          opcode.Eqz, opcode.Add, opcode.Sub, opcode.Divs, opcode.Divu, opcode.Mul,
          opcode.Neg, opcode.Gt, opcode.Lt, opcode.Ge, opcode.Le, opcode.Shiftr,
          opcode.Shiftl, opcode.And, opcode.Or, opcode.Xor, opcode.Call, opcode.Return,
          opcode.Store8, opcode.Store16, opcode.Store32, opcode.Load8u, opcode.Load8s,
          opcode.Load16s, opcode.Load16u, opcode.Load32s, opcode.Load32u,
          opcode.Extend8_32s, opcode.Extend16_32s, opcode.Extend8_32u,
          opcode.Extend16_32u, opcode.End, opcode.PushArg, opcode.DbgAssert,
          opcode.Syscall,
          reduceIte, Nat.reduceEqDiff] at hexec
      rcases hsg : sliceGet s.memory (u32 (s.pc + 1)) 4 with _ | bs
      · simp [Interpreter.read_i32, hsg] at hexec
      · simp only [Interpreter.read_i32, hsg] at hexec
        cases hexec
        simp [Interpreter.push, op.Op.size_bytes]
    | Jmp =>
      exact absurd (by simp) hno
    | JmpIf =>
      exact absurd (by simp) hno
    | Branch =>
      exact absurd (by simp) hno
    | BranchIf =>
      exact absurd (by simp) hno
    | LocalGet =>
      simp only [op.Op.repr] at hmem
      simp only [Interpreter.exec_next_op, Interpreter.read_u8,
          List.get?_eq_getElem?, hmem,
          opcode.Nop, opcode.Unreachable, opcode.Drop, opcode.Const, opcode.Jmp,
          opcode.JmpIf, opcode.Branch, opcode.BranchIf, opcode.LocalGet, opcode.LocalSet,
          opcode.LocalTee, opcode.GlobalGet, opcode.GlobalSet, opcode.GlobalTee, opcode.Eq,
          opcode.Eqz, opcode.Add, opcode.Sub, opcode.Divs, opcode.Divu, opcode.Mul,
          opcode.Neg, opcode.Gt, opcode.Lt, opcode.Ge, opcode.Le, opcode.Shiftr,
          opcode.Shiftl, opcode.And, opcode.Or, opcode.Xor, opcode.Call, opcode.Return,
          opcode.Store8, opcode.Store16, opcode.Store32, opcode.Load8u, opcode.Load8s,
          opcode.Load16s, opcode.Load16u, opcode.Load32s, opcode.Load32u,
          opcode.Extend8_32s, opcode.Extend16_32s, opcode.Extend8_32u,
          opcode.Extend16_32u, opcode.End, opcode.PushArg, opcode.DbgAssert,
          opcode.Syscall,
          reduceIte, Nat.reduceEqDiff] at hexec
      rcases hm1 : s.memory[u32 (s.pc + 1)]? with _ | id
      · simp [Interpreter.read_local, Interpreter.read_imm_u8, Interpreter.read_u8,
          List.get?_eq_getElem?, hm1] at hexec
      · simp only [Interpreter.read_local, Interpreter.read_imm_u8, Interpreter.read_u8,
          List.get?_eq_getElem?, hm1] at hexec
        rcases hrs : s.return_stack with _ | ⟨f, rs⟩
        · simp [hrs] at hexec
        · simp only [hrs] at hexec
          rcases hl : f.locals[id]? with _ | v
          · simp [hl] at hexec
          · simp only [hl] at hexec
            cases hexec
            simp [Interpreter.push, op.Op.size_bytes]
    | LocalSet =>
      simp only [op.Op.repr] at hmem
      simp only [Interpreter.exec_next_op, Interpreter.read_u8,
          List.get?_eq_getElem?, hmem,
          opcode.Nop, opcode.Unreachable, opcode.Drop, opcode.Const, opcode.Jmp,
          opcode.JmpIf, opcode.Branch, opcode.BranchIf, opcode.LocalGet, opcode.LocalSet,
          opcode.LocalTee, opcode.GlobalGet, opcode.GlobalSet, opcode.GlobalTee, opcode.Eq,
          opcode.Eqz, opcode.Add, opcode.Sub, opcode.Divs, opcode.Divu, opcode.Mul,
          opcode.Neg, opcode.Gt, opcode.Lt, opcode.Ge, opcode.Le, opcode.Shiftr,
          opcode.Shiftl, opcode.And, opcode.Or, opcode.Xor, opcode.Call, opcode.Return,
          opcode.Store8, opcode.Store16, opcode.Store32, opcode.Load8u, opcode.Load8s,
          opcode.Load16s, opcode.Load16u, opcode.Load32s, opcode.Load32u,
          opcode.Extend8_32s, opcode.Extend16_32s, opcode.Extend8_32u,
          opcode.Extend16_32u, opcode.End, opcode.PushArg, opcode.DbgAssert,
          opcode.Syscall,
          reduceIte, Nat.reduceEqDiff] at hexec
      rcases hv1 : s.value_stack with _ | ⟨b1, t1⟩
      · simp [Interpreter.pop, hv1] at hexec
      · simp only [Interpreter.pop, hv1] at hexec
        rcases hm1 : s.memory[u32 (s.pc + 1)]? with _ | id
        · simp [Interpreter.set_local, Interpreter.read_imm_u8, Interpreter.read_u8,
            List.get?_eq_getElem?, hm1] at hexec
        · simp only [Interpreter.set_local, Interpreter.read_imm_u8, Interpreter.read_u8,
            List.get?_eq_getElem?, hm1] at hexec
          rcases hrs : s.return_stack with _ | ⟨f, rs⟩
          · simp [hrs] at hexec
          · simp only [hrs] at hexec
            by_cases hid : id < f.locals.length
            · rw [if_pos hid] at hexec
              cases hexec
              simp [Interpreter.push, op.Op.size_bytes]
            · rw [if_neg hid] at hexec
              simp at hexec
    | LocalTee =>
      simp only [op.Op.repr] at hmem
      simp only [Interpreter.exec_next_op, Interpreter.read_u8,
          List.get?_eq_getElem?, hmem,
          opcode.Nop, opcode.Unreachable, opcode.Drop, opcode.Const, opcode.Jmp,
          opcode.JmpIf, opcode.Branch, opcode.BranchIf, opcode.LocalGet, opcode.LocalSet,
          opcode.LocalTee, opcode.GlobalGet, opcode.GlobalSet, opcode.GlobalTee, opcode.Eq,
          opcode.Eqz, opcode.Add, opcode.Sub, opcode.Divs, opcode.Divu, opcode.Mul,
          opcode.Neg, opcode.Gt, opcode.Lt, opcode.Ge, opcode.Le, opcode.Shiftr,
          opcode.Shiftl, opcode.And, opcode.Or, opcode.Xor, opcode.Call, opcode.Return,
          opcode.Store8, opcode.Store16, opcode.Store32, opcode.Load8u, opcode.Load8s,
          opcode.Load16s, opcode.Load16u, opcode.Load32s, opcode.Load32u,
          opcode.Extend8_32s, opcode.Extend16_32s, opcode.Extend8_32u,
          opcode.Extend16_32u, opcode.End, opcode.PushArg, opcode.DbgAssert,
          opcode.Syscall,
          reduceIte, Nat.reduceEqDiff] at hexec
      rcases hv1 : s.value_stack with _ | ⟨b1, t1⟩
      · simp [Interpreter.peek, hv1] at hexec
      · simp only [Interpreter.peek, hv1] at hexec
        rcases hm1 : s.memory[u32 (s.pc + 1)]? with _ | id
        · simp [Interpreter.set_local, Interpreter.read_imm_u8, Interpreter.read_u8,
            List.get?_eq_getElem?, hm1] at hexec
        · simp only [Interpreter.set_local, Interpreter.read_imm_u8, Interpreter.read_u8,
            List.get?_eq_getElem?, hm1] at hexec
          rcases hrs : s.return_stack with _ | ⟨f, rs⟩
          · simp [hrs] at hexec
          · simp only [hrs] at hexec
            by_cases hid : id < f.locals.length
            · rw [if_pos hid] at hexec
              cases hexec
              simp [Interpreter.push, op.Op.size_bytes]
            · rw [if_neg hid] at hexec
              simp at hexec
    | GlobalGet =>
      simp only [op.Op.repr] at hmem
      simp only [Interpreter.exec_next_op, Interpreter.read_u8,
          List.get?_eq_getElem?, hmem,
          opcode.Nop, opcode.Unreachable, opcode.Drop, opcode.Const, opcode.Jmp,
          opcode.JmpIf, opcode.Branch, opcode.BranchIf, opcode.LocalGet, opcode.LocalSet,
          opcode.LocalTee, opcode.GlobalGet, opcode.GlobalSet, opcode.GlobalTee, opcode.Eq,
          opcode.Eqz, opcode.Add, opcode.Sub, opcode.Divs, opcode.Divu, opcode.Mul,
          opcode.Neg, opcode.Gt, opcode.Lt, opcode.Ge, opcode.Le, opcode.Shiftr,
          opcode.Shiftl, opcode.And, opcode.Or, opcode.Xor, opcode.Call, opcode.Return,
          opcode.Store8, opcode.Store16, opcode.Store32, opcode.Load8u, opcode.Load8s,
          opcode.Load16s, opcode.Load16u, opcode.Load32s, opcode.Load32u,
          opcode.Extend8_32s, opcode.Extend16_32s, opcode.Extend8_32u,
          opcode.Extend16_32u, opcode.End, opcode.PushArg, opcode.DbgAssert,
          opcode.Syscall,
          reduceIte, Nat.reduceEqDiff] at hexec
      rcases hm1 : s.memory[u32 (s.pc + 1)]? with _ | id
      · simp [Interpreter.read_global, Interpreter.read_imm_u8, Interpreter.read_u8,
          List.get?_eq_getElem?, hm1] at hexec
      · simp only [Interpreter.read_global, Interpreter.read_imm_u8, Interpreter.read_u8,
          List.get?_eq_getElem?, hm1] at hexec
        rcases hg : s.globals[id]? with _ | v
        · simp [hg] at hexec
        · simp only [hg] at hexec
          cases hexec
          simp [Interpreter.push, op.Op.size_bytes]
    | GlobalSet =>
      simp only [op.Op.repr] at hmem
      simp only [Interpreter.exec_next_op, Interpreter.read_u8,
          List.get?_eq_getElem?, hmem,
          opcode.Nop, opcode.Unreachable, opcode.Drop, opcode.Const, opcode.Jmp,
          opcode.JmpIf, opcode.Branch, opcode.BranchIf, opcode.LocalGet, opcode.LocalSet,
          opcode.LocalTee, opcode.GlobalGet, opcode.GlobalSet, opcode.GlobalTee, opcode.Eq,
          opcode.Eqz, opcode.Add, opcode.Sub, opcode.Divs, opcode.Divu, opcode.Mul,
          opcode.Neg, opcode.Gt, opcode.Lt, opcode.Ge, opcode.Le, opcode.Shiftr,
          opcode.Shiftl, opcode.And, opcode.Or, opcode.Xor, opcode.Call, opcode.Return,
          opcode.Store8, opcode.Store16, opcode.Store32, opcode.Load8u, opcode.Load8s,
          opcode.Load16s, opcode.Load16u, opcode.Load32s, opcode.Load32u,
          opcode.Extend8_32s, opcode.Extend16_32s, opcode.Extend8_32u,
          opcode.Extend16_32u, opcode.End, opcode.PushArg, opcode.DbgAssert,
          opcode.Syscall,
          reduceIte, Nat.reduceEqDiff] at hexec
      rcases hv1 : s.value_stack with _ | ⟨b1, t1⟩
      · simp [Interpreter.pop, hv1] at hexec
      · simp only [Interpreter.pop, hv1] at hexec
        rcases hm1 : s.memory[u32 (s.pc + 1)]? with _ | id
        · simp [Interpreter.set_global, Interpreter.read_imm_u8, Interpreter.read_u8,
            List.get?_eq_getElem?, hm1] at hexec
        · simp only [Interpreter.set_global, Interpreter.read_imm_u8, Interpreter.read_u8,
            List.get?_eq_getElem?, hm1] at hexec
          by_cases hid : id < s.globals.length
          · rw [if_pos hid] at hexec
            cases hexec
            simp [Interpreter.push, op.Op.size_bytes]
          · rw [if_neg hid] at hexec
            simp at hexec
    | GlobalTee =>
      simp only [op.Op.repr] at hmem
      simp only [Interpreter.exec_next_op, Interpreter.read_u8,
          List.get?_eq_getElem?, hmem,
          opcode.Nop, opcode.Unreachable, opcode.Drop, opcode.Const, opcode.Jmp,
          opcode.JmpIf, opcode.Branch, opcode.BranchIf, opcode.LocalGet, opcode.LocalSet,
          opcode.LocalTee, opcode.GlobalGet, opcode.GlobalSet, opcode.GlobalTee, opcode.Eq,
          opcode.Eqz, opcode.Add, opcode.Sub, opcode.Divs, opcode.Divu, opcode.Mul,
          opcode.Neg, opcode.Gt, opcode.Lt, opcode.Ge, opcode.Le, opcode.Shiftr,
          opcode.Shiftl, opcode.And, opcode.Or, opcode.Xor, opcode.Call, opcode.Return,
          opcode.Store8, opcode.Store16, opcode.Store32, opcode.Load8u, opcode.Load8s,
          opcode.Load16s, opcode.Load16u, opcode.Load32s, opcode.Load32u,
          opcode.Extend8_32s, opcode.Extend16_32s, opcode.Extend8_32u,
          opcode.Extend16_32u, opcode.End, opcode.PushArg, opcode.DbgAssert,
          opcode.Syscall,
          reduceIte, Nat.reduceEqDiff] at hexec
      rcases hv1 : s.value_stack with _ | ⟨b1, t1⟩
      · simp [Interpreter.peek, hv1] at hexec
      · simp only [Interpreter.peek, hv1] at hexec
        rcases hm1 : s.memory[u32 (s.pc + 1)]? with _ | id
        · simp [Interpreter.set_global, Interpreter.read_imm_u8, Interpreter.read_u8,
            List.get?_eq_getElem?, hm1] at hexec
        · simp only [Interpreter.set_global, Interpreter.read_imm_u8, Interpreter.read_u8,
            List.get?_eq_getElem?, hm1] at hexec
          by_cases hid : id < s.globals.length
          · rw [if_pos hid] at hexec
            cases hexec
            simp [Interpreter.push, op.Op.size_bytes]
          · rw [if_neg hid] at hexec
            simp at hexec
    | Eq =>
      simp only [op.Op.repr] at hmem
      simp only [Interpreter.exec_next_op, Interpreter.read_u8,
          List.get?_eq_getElem?, hmem,
          opcode.Nop, opcode.Unreachable, opcode.Drop, opcode.Const, opcode.Jmp,
          opcode.JmpIf, opcode.Branch, opcode.BranchIf, opcode.LocalGet, opcode.LocalSet,
          opcode.LocalTee, opcode.GlobalGet, opcode.GlobalSet, opcode.GlobalTee, opcode.Eq,
          opcode.Eqz, opcode.Add, opcode.Sub, opcode.Divs, opcode.Divu, opcode.Mul,
          opcode.Neg, opcode.Gt, opcode.Lt, opcode.Ge, opcode.Le, opcode.Shiftr,
          opcode.Shiftl, opcode.And, opcode.Or, opcode.Xor, opcode.Call, opcode.Return,
          opcode.Store8, opcode.Store16, opcode.Store32, opcode.Load8u, opcode.Load8s,
          opcode.Load16s, opcode.Load16u, opcode.Load32s, opcode.Load32u,
          opcode.Extend8_32s, opcode.Extend16_32s, opcode.Extend8_32u,
          opcode.Extend16_32u, opcode.End, opcode.PushArg, opcode.DbgAssert,
          opcode.Syscall,
          reduceIte, Nat.reduceEqDiff] at hexec
      exact absurd hexec (by simp)
    | Eqz =>
      simp only [op.Op.repr] at hmem
      simp only [Interpreter.exec_next_op, Interpreter.read_u8,
          List.get?_eq_getElem?, hmem,
          opcode.Nop, opcode.Unreachable, opcode.Drop, opcode.Const, opcode.Jmp,
          opcode.JmpIf, opcode.Branch, opcode.BranchIf, opcode.LocalGet, opcode.LocalSet,
          opcode.LocalTee, opcode.GlobalGet, opcode.GlobalSet, opcode.GlobalTee, opcode.Eq,
          opcode.Eqz, opcode.Add, opcode.Sub, opcode.Divs, opcode.Divu, opcode.Mul,
          opcode.Neg, opcode.Gt, opcode.Lt, opcode.Ge, opcode.Le, opcode.Shiftr,
          opcode.Shiftl, opcode.And, opcode.Or, opcode.Xor, opcode.Call, opcode.Return,
          opcode.Store8, opcode.Store16, opcode.Store32, opcode.Load8u, opcode.Load8s,
          opcode.Load16s, opcode.Load16u, opcode.Load32s, opcode.Load32u,
          opcode.Extend8_32s, opcode.Extend16_32s, opcode.Extend8_32u,
          opcode.Extend16_32u, opcode.End, opcode.PushArg, opcode.DbgAssert,
          opcode.Syscall,
          reduceIte, Nat.reduceEqDiff] at hexec
      exact absurd hexec (by simp)
    | Add =>
      simp only [op.Op.repr] at hmem
      simp only [Interpreter.exec_next_op, Interpreter.read_u8,
          List.get?_eq_getElem?, hmem,
          opcode.Nop, opcode.Unreachable, opcode.Drop, opcode.Const, opcode.Jmp,
          opcode.JmpIf, opcode.Branch, opcode.BranchIf, opcode.LocalGet, opcode.LocalSet,
          opcode.LocalTee, opcode.GlobalGet, opcode.GlobalSet, opcode.GlobalTee, opcode.Eq,
          opcode.Eqz, opcode.Add, opcode.Sub, opcode.Divs, opcode.Divu, opcode.Mul,
          opcode.Neg, opcode.Gt, opcode.Lt, opcode.Ge, opcode.Le, opcode.Shiftr,
          opcode.Shiftl, opcode.And, opcode.Or, opcode.Xor, opcode.Call, opcode.Return,
          opcode.Store8, opcode.Store16, opcode.Store32, opcode.Load8u, opcode.Load8s,
          opcode.Load16s, opcode.Load16u, opcode.Load32s, opcode.Load32u,
          opcode.Extend8_32s, opcode.Extend16_32s, opcode.Extend8_32u,
          opcode.Extend16_32u, opcode.End, opcode.PushArg, opcode.DbgAssert,
          opcode.Syscall,
          reduceIte, Nat.reduceEqDiff] at hexec
      rcases hv1 : s.value_stack with _ | ⟨b1, t1⟩
      · simp [Interpreter.pop, hv1] at hexec
      · simp only [Interpreter.pop, hv1] at hexec
        rcases ht1 : t1 with _ | ⟨a1, t2⟩
        · simp [ht1] at hexec
        · simp only [ht1] at hexec
          cases hexec
          simp [Interpreter.push, op.Op.size_bytes]
    | Sub =>
      simp only [op.Op.repr] at hmem
      simp only [Interpreter.exec_next_op, Interpreter.read_u8,
          List.get?_eq_getElem?, hmem,
          opcode.Nop, opcode.Unreachable, opcode.Drop, opcode.Const, opcode.Jmp,
          opcode.JmpIf, opcode.Branch, opcode.BranchIf, opcode.LocalGet, opcode.LocalSet,
          opcode.LocalTee, opcode.GlobalGet, opcode.GlobalSet, opcode.GlobalTee, opcode.Eq,
          opcode.Eqz, opcode.Add, opcode.Sub, opcode.Divs, opcode.Divu, opcode.Mul,
          opcode.Neg, opcode.Gt, opcode.Lt, opcode.Ge, opcode.Le, opcode.Shiftr,
          opcode.Shiftl, opcode.And, opcode.Or, opcode.Xor, opcode.Call, opcode.Return,
          opcode.Store8, opcode.Store16, opcode.Store32, opcode.Load8u, opcode.Load8s,
          opcode.Load16s, opcode.Load16u, opcode.Load32s, opcode.Load32u,
          opcode.Extend8_32s, opcode.Extend16_32s, opcode.Extend8_32u,
          opcode.Extend16_32u, opcode.End, opcode.PushArg, opcode.DbgAssert,
          opcode.Syscall,
          reduceIte, Nat.reduceEqDiff] at hexec
      rcases hv1 : s.value_stack with _ | ⟨b1, t1⟩
      · simp [Interpreter.pop, hv1] at hexec
      · simp only [Interpreter.pop, hv1] at hexec
        rcases ht1 : t1 with _ | ⟨a1, t2⟩
        · simp [ht1] at hexec
        · simp only [ht1] at hexec
          cases hexec
          simp [Interpreter.push, op.Op.size_bytes]
    | Divs =>
      simp only [op.Op.repr] at hmem
      simp only [Interpreter.exec_next_op, Interpreter.read_u8,
          List.get?_eq_getElem?, hmem,
          opcode.Nop, opcode.Unreachable, opcode.Drop, opcode.Const, opcode.Jmp,
          opcode.JmpIf, opcode.Branch, opcode.BranchIf, opcode.LocalGet, opcode.LocalSet,
          opcode.LocalTee, opcode.GlobalGet, opcode.GlobalSet, opcode.GlobalTee, opcode.Eq,
          opcode.Eqz, opcode.Add, opcode.Sub, opcode.Divs, opcode.Divu, opcode.Mul,
          opcode.Neg, opcode.Gt, opcode.Lt, opcode.Ge, opcode.Le, opcode.Shiftr,
          opcode.Shiftl, opcode.And, opcode.Or, opcode.Xor, opcode.Call, opcode.Return,
          opcode.Store8, opcode.Store16, opcode.Store32, opcode.Load8u, opcode.Load8s,
          opcode.Load16s, opcode.Load16u, opcode.Load32s, opcode.Load32u,
          opcode.Extend8_32s, opcode.Extend16_32s, opcode.Extend8_32u,
          opcode.Extend16_32u, opcode.End, opcode.PushArg, opcode.DbgAssert,
          opcode.Syscall,
          reduceIte, Nat.reduceEqDiff] at hexec
      rcases hv1 : s.value_stack with _ | ⟨b1, t1⟩
      · simp [Interpreter.pop, hv1] at hexec
      · simp only [Interpreter.pop, hv1] at hexec
        rcases ht1 : t1 with _ | ⟨a1, t2⟩
        · simp [ht1] at hexec
        · simp only [ht1] at hexec
          by_cases hb : i32_of_u32 b1 = 0 ∨ (i32_of_u32 a1 = -2147483648 ∧ i32_of_u32 b1 = -1)
          · rw [if_pos hb] at hexec
            exact absurd hexec (by simp)
          · rw [if_neg hb] at hexec
            cases hexec
            simp [Interpreter.push, op.Op.size_bytes]
    | Divu =>
      simp only [op.Op.repr] at hmem
      simp only [Interpreter.exec_next_op, Interpreter.read_u8,
          List.get?_eq_getElem?, hmem,
          opcode.Nop, opcode.Unreachable, opcode.Drop, opcode.Const, opcode.Jmp,
          opcode.JmpIf, opcode.Branch, opcode.BranchIf, opcode.LocalGet, opcode.LocalSet,
          opcode.LocalTee, opcode.GlobalGet, opcode.GlobalSet, opcode.GlobalTee, opcode.Eq,
          opcode.Eqz, opcode.Add, opcode.Sub, opcode.Divs, opcode.Divu, opcode.Mul,
          opcode.Neg, opcode.Gt, opcode.Lt, opcode.Ge, opcode.Le, opcode.Shiftr,
          opcode.Shiftl, opcode.And, opcode.Or, opcode.Xor, opcode.Call, opcode.Return,
          opcode.Store8, opcode.Store16, opcode.Store32, opcode.Load8u, opcode.Load8s,
          opcode.Load16s, opcode.Load16u, opcode.Load32s, opcode.Load32u,
          opcode.Extend8_32s, opcode.Extend16_32s, opcode.Extend8_32u,
          opcode.Extend16_32u, opcode.End, opcode.PushArg, opcode.DbgAssert,
          opcode.Syscall,
          reduceIte, Nat.reduceEqDiff] at hexec
      rcases hv1 : s.value_stack with _ | ⟨b1, t1⟩
      · simp [Interpreter.pop, hv1] at hexec
      · simp only [Interpreter.pop, hv1] at hexec
        rcases ht1 : t1 with _ | ⟨a1, t2⟩
        · simp [ht1] at hexec
        · simp only [ht1] at hexec
          by_cases hb : b1 = 0
          · rw [if_pos hb] at hexec
            exact absurd hexec (by simp)
          · rw [if_neg hb] at hexec
            cases hexec
            simp [Interpreter.push, op.Op.size_bytes]
    | Mul =>
      simp only [op.Op.repr] at hmem
      simp only [Interpreter.exec_next_op, Interpreter.read_u8,
          List.get?_eq_getElem?, hmem,
          opcode.Nop, opcode.Unreachable, opcode.Drop, opcode.Const, opcode.Jmp,
          opcode.JmpIf, opcode.Branch, opcode.BranchIf, opcode.LocalGet, opcode.LocalSet,
          opcode.LocalTee, opcode.GlobalGet, opcode.GlobalSet, opcode.GlobalTee, opcode.Eq,
          opcode.Eqz, opcode.Add, opcode.Sub, opcode.Divs, opcode.Divu, opcode.Mul,
          opcode.Neg, opcode.Gt, opcode.Lt, opcode.Ge, opcode.Le, opcode.Shiftr,
          opcode.Shiftl, opcode.And, opcode.Or, opcode.Xor, opcode.Call, opcode.Return,
          opcode.Store8, opcode.Store16, opcode.Store32, opcode.Load8u, opcode.Load8s,
          opcode.Load16s, opcode.Load16u, opcode.Load32s, opcode.Load32u,
          opcode.Extend8_32s, opcode.Extend16_32s, opcode.Extend8_32u,
          opcode.Extend16_32u, opcode.End, opcode.PushArg, opcode.DbgAssert,
          opcode.Syscall,
          reduceIte, Nat.reduceEqDiff] at hexec
      rcases hv1 : s.value_stack with _ | ⟨b1, t1⟩
      · simp [Interpreter.pop, hv1] at hexec
      · simp only [Interpreter.pop, hv1] at hexec
        rcases ht1 : t1 with _ | ⟨a1, t2⟩
        · simp [ht1] at hexec
        · simp only [ht1] at hexec
          cases hexec
          simp [Interpreter.push, op.Op.size_bytes]
    | Neg =>
      simp only [op.Op.repr] at hmem
      simp only [Interpreter.exec_next_op, Interpreter.read_u8,
          List.get?_eq_getElem?, hmem,
          opcode.Nop, opcode.Unreachable, opcode.Drop, opcode.Const, opcode.Jmp,
          opcode.JmpIf, opcode.Branch, opcode.BranchIf, opcode.LocalGet, opcode.LocalSet,
          opcode.LocalTee, opcode.GlobalGet, opcode.GlobalSet, opcode.GlobalTee, opcode.Eq,
          opcode.Eqz, opcode.Add, opcode.Sub, opcode.Divs, opcode.Divu, opcode.Mul,
          opcode.Neg, opcode.Gt, opcode.Lt, opcode.Ge, opcode.Le, opcode.Shiftr,
          opcode.Shiftl, opcode.And, opcode.Or, opcode.Xor, opcode.Call, opcode.Return,
          opcode.Store8, opcode.Store16, opcode.Store32, opcode.Load8u, opcode.Load8s,
          opcode.Load16s, opcode.Load16u, opcode.Load32s, opcode.Load32u,
          opcode.Extend8_32s, opcode.Extend16_32s, opcode.Extend8_32u,
          opcode.Extend16_32u, opcode.End, opcode.PushArg, opcode.DbgAssert,
          opcode.Syscall,
          reduceIte, Nat.reduceEqDiff] at hexec
      exact absurd hexec (by simp)
    | Gt =>
      simp only [op.Op.repr] at hmem
      simp only [Interpreter.exec_next_op, Interpreter.read_u8,
          List.get?_eq_getElem?, hmem,
          opcode.Nop, opcode.Unreachable, opcode.Drop, opcode.Const, opcode.Jmp,
          opcode.JmpIf, opcode.Branch, opcode.BranchIf, opcode.LocalGet, opcode.LocalSet,
          opcode.LocalTee, opcode.GlobalGet, opcode.GlobalSet, opcode.GlobalTee, opcode.Eq,
          opcode.Eqz, opcode.Add, opcode.Sub, opcode.Divs, opcode.Divu, opcode.Mul,
          opcode.Neg, opcode.Gt, opcode.Lt, opcode.Ge, opcode.Le, opcode.Shiftr,
          opcode.Shiftl, opcode.And, opcode.Or, opcode.Xor, opcode.Call, opcode.Return,
          opcode.Store8, opcode.Store16, opcode.Store32, opcode.Load8u, opcode.Load8s,
          opcode.Load16s, opcode.Load16u, opcode.Load32s, opcode.Load32u,
          opcode.Extend8_32s, opcode.Extend16_32s, opcode.Extend8_32u,
          opcode.Extend16_32u, opcode.End, opcode.PushArg, opcode.DbgAssert,
          opcode.Syscall,
          reduceIte, Nat.reduceEqDiff] at hexec
      rcases hv1 : s.value_stack with _ | ⟨b1, t1⟩
      · simp [Interpreter.pop, hv1] at hexec
      · simp only [Interpreter.pop, hv1] at hexec
        rcases ht1 : t1 with _ | ⟨a1, t2⟩
        · simp [ht1] at hexec
        · simp only [ht1] at hexec
          cases hexec
          simp [Interpreter.push, op.Op.size_bytes]
    | Lt =>
      simp only [op.Op.repr] at hmem
      simp only [Interpreter.exec_next_op, Interpreter.read_u8,
          List.get?_eq_getElem?, hmem,
          opcode.Nop, opcode.Unreachable, opcode.Drop, opcode.Const, opcode.Jmp,
          opcode.JmpIf, opcode.Branch, opcode.BranchIf, opcode.LocalGet, opcode.LocalSet,
          opcode.LocalTee, opcode.GlobalGet, opcode.GlobalSet, opcode.GlobalTee, opcode.Eq,
          opcode.Eqz, opcode.Add, opcode.Sub, opcode.Divs, opcode.Divu, opcode.Mul,
          opcode.Neg, opcode.Gt, opcode.Lt, opcode.Ge, opcode.Le, opcode.Shiftr,
          opcode.Shiftl, opcode.And, opcode.Or, opcode.Xor, opcode.Call, opcode.Return,
          opcode.Store8, opcode.Store16, opcode.Store32, opcode.Load8u, opcode.Load8s,
          opcode.Load16s, opcode.Load16u, opcode.Load32s, opcode.Load32u,
          opcode.Extend8_32s, opcode.Extend16_32s, opcode.Extend8_32u,
          opcode.Extend16_32u, opcode.End, opcode.PushArg, opcode.DbgAssert,
          opcode.Syscall,
          reduceIte, Nat.reduceEqDiff] at hexec
      rcases hv1 : s.value_stack with _ | ⟨b1, t1⟩
      · simp [Interpreter.pop, hv1] at hexec
      · simp only [Interpreter.pop, hv1] at hexec
        rcases ht1 : t1 with _ | ⟨a1, t2⟩
        · simp [ht1] at hexec
        · simp only [ht1] at hexec
          cases hexec
          simp [Interpreter.push, op.Op.size_bytes]
    | Ge =>
      simp only [op.Op.repr] at hmem
      simp only [Interpreter.exec_next_op, Interpreter.read_u8,
          List.get?_eq_getElem?, hmem,
          opcode.Nop, opcode.Unreachable, opcode.Drop, opcode.Const, opcode.Jmp,
          opcode.JmpIf, opcode.Branch, opcode.BranchIf, opcode.LocalGet, opcode.LocalSet,
          opcode.LocalTee, opcode.GlobalGet, opcode.GlobalSet, opcode.GlobalTee, opcode.Eq,
          opcode.Eqz, opcode.Add, opcode.Sub, opcode.Divs, opcode.Divu, opcode.Mul,
          opcode.Neg, opcode.Gt, opcode.Lt, opcode.Ge, opcode.Le, opcode.Shiftr,
          opcode.Shiftl, opcode.And, opcode.Or, opcode.Xor, opcode.Call, opcode.Return,
          opcode.Store8, opcode.Store16, opcode.Store32, opcode.Load8u, opcode.Load8s,
          opcode.Load16s, opcode.Load16u, opcode.Load32s, opcode.Load32u,
          opcode.Extend8_32s, opcode.Extend16_32s, opcode.Extend8_32u,
          opcode.Extend16_32u, opcode.End, opcode.PushArg, opcode.DbgAssert,
          opcode.Syscall,
          reduceIte, Nat.reduceEqDiff] at hexec
      rcases hv1 : s.value_stack with _ | ⟨b1, t1⟩
      · simp [Interpreter.pop, hv1] at hexec
      · simp only [Interpreter.pop, hv1] at hexec
        rcases ht1 : t1 with _ | ⟨a1, t2⟩
        · simp [ht1] at hexec
        · simp only [ht1] at hexec
          cases hexec
          simp [Interpreter.push, op.Op.size_bytes]
    | Le =>
      simp only [op.Op.repr] at hmem
      simp only [Interpreter.exec_next_op, Interpreter.read_u8,
          List.get?_eq_getElem?, hmem,
          opcode.Nop, opcode.Unreachable, opcode.Drop, opcode.Const, opcode.Jmp,
          opcode.JmpIf, opcode.Branch, opcode.BranchIf, opcode.LocalGet, opcode.LocalSet,
          opcode.LocalTee, opcode.GlobalGet, opcode.GlobalSet, opcode.GlobalTee, opcode.Eq,
          opcode.Eqz, opcode.Add, opcode.Sub, opcode.Divs, opcode.Divu, opcode.Mul,
          opcode.Neg, opcode.Gt, opcode.Lt, opcode.Ge, opcode.Le, opcode.Shiftr,
          opcode.Shiftl, opcode.And, opcode.Or, opcode.Xor, opcode.Call, opcode.Return,
          opcode.Store8, opcode.Store16, opcode.Store32, opcode.Load8u, opcode.Load8s,
          opcode.Load16s, opcode.Load16u, opcode.Load32s, opcode.Load32u,
          opcode.Extend8_32s, opcode.Extend16_32s, opcode.Extend8_32u,
          opcode.Extend16_32u, opcode.End, opcode.PushArg, opcode.DbgAssert,
          opcode.Syscall,
          reduceIte, Nat.reduceEqDiff] at hexec
      rcases hv1 : s.value_stack with _ | ⟨b1, t1⟩
      · simp [Interpreter.pop, hv1] at hexec
      · simp only [Interpreter.pop, hv1] at hexec
        rcases ht1 : t1 with _ | ⟨a1, t2⟩
        · simp [ht1] at hexec
        · simp only [ht1] at hexec
          cases hexec
          simp [Interpreter.push, op.Op.size_bytes]
    | And =>
      simp only [op.Op.repr] at hmem
      simp only [Interpreter.exec_next_op, Interpreter.read_u8,
          List.get?_eq_getElem?, hmem,
          opcode.Nop, opcode.Unreachable, opcode.Drop, opcode.Const, opcode.Jmp,
          opcode.JmpIf, opcode.Branch, opcode.BranchIf, opcode.LocalGet, opcode.LocalSet,
          opcode.LocalTee, opcode.GlobalGet, opcode.GlobalSet, opcode.GlobalTee, opcode.Eq,
          opcode.Eqz, opcode.Add, opcode.Sub, opcode.Divs, opcode.Divu, opcode.Mul,
          opcode.Neg, opcode.Gt, opcode.Lt, opcode.Ge, opcode.Le, opcode.Shiftr,
          opcode.Shiftl, opcode.And, opcode.Or, opcode.Xor, opcode.Call, opcode.Return,
          opcode.Store8, opcode.Store16, opcode.Store32, opcode.Load8u, opcode.Load8s,
          opcode.Load16s, opcode.Load16u, opcode.Load32s, opcode.Load32u,
          opcode.Extend8_32s, opcode.Extend16_32s, opcode.Extend8_32u,
          opcode.Extend16_32u, opcode.End, opcode.PushArg, opcode.DbgAssert,
          opcode.Syscall,
          reduceIte, Nat.reduceEqDiff] at hexec
      rcases hv1 : s.value_stack with _ | ⟨b1, t1⟩
      · simp [Interpreter.pop, hv1] at hexec
      · simp only [Interpreter.pop, hv1] at hexec
        rcases ht1 : t1 with _ | ⟨a1, t2⟩
        · simp [ht1] at hexec
        · simp only [ht1] at hexec
          cases hexec
          simp [Interpreter.push, op.Op.size_bytes]
    | Or =>
      simp only [op.Op.repr] at hmem
      simp only [Interpreter.exec_next_op, Interpreter.read_u8,
          List.get?_eq_getElem?, hmem,
          opcode.Nop, opcode.Unreachable, opcode.Drop, opcode.Const, opcode.Jmp,
          opcode.JmpIf, opcode.Branch, opcode.BranchIf, opcode.LocalGet, opcode.LocalSet,
          opcode.LocalTee, opcode.GlobalGet, opcode.GlobalSet, opcode.GlobalTee, opcode.Eq,
          opcode.Eqz, opcode.Add, opcode.Sub, opcode.Divs, opcode.Divu, opcode.Mul,
          opcode.Neg, opcode.Gt, opcode.Lt, opcode.Ge, opcode.Le, opcode.Shiftr,
          opcode.Shiftl, opcode.And, opcode.Or, opcode.Xor, opcode.Call, opcode.Return,
          opcode.Store8, opcode.Store16, opcode.Store32, opcode.Load8u, opcode.Load8s,
          opcode.Load16s, opcode.Load16u, opcode.Load32s, opcode.Load32u,
          opcode.Extend8_32s, opcode.Extend16_32s, opcode.Extend8_32u,
          opcode.Extend16_32u, opcode.End, opcode.PushArg, opcode.DbgAssert,
          opcode.Syscall,
          reduceIte, Nat.reduceEqDiff] at hexec
      rcases hv1 : s.value_stack with _ | ⟨b1, t1⟩
      · simp [Interpreter.pop, hv1] at hexec
      · simp only [Interpreter.pop, hv1] at hexec
        rcases ht1 : t1 with _ | ⟨a1, t2⟩
        · simp [ht1] at hexec
        · simp only [ht1] at hexec
          cases hexec
          simp [Interpreter.push, op.Op.size_bytes]
    | Xor =>
      simp only [op.Op.repr] at hmem
      simp only [Interpreter.exec_next_op, Interpreter.read_u8,
          List.get?_eq_getElem?, hmem,
          opcode.Nop, opcode.Unreachable, opcode.Drop, opcode.Const, opcode.Jmp,
          opcode.JmpIf, opcode.Branch, opcode.BranchIf, opcode.LocalGet, opcode.LocalSet,
          opcode.LocalTee, opcode.GlobalGet, opcode.GlobalSet, opcode.GlobalTee, opcode.Eq,
          opcode.Eqz, opcode.Add, opcode.Sub, opcode.Divs, opcode.Divu, opcode.Mul,
          opcode.Neg, opcode.Gt, opcode.Lt, opcode.Ge, opcode.Le, opcode.Shiftr,
          opcode.Shiftl, opcode.And, opcode.Or, opcode.Xor, opcode.Call, opcode.Return,
          opcode.Store8, opcode.Store16, opcode.Store32, opcode.Load8u, opcode.Load8s,
          opcode.Load16s, opcode.Load16u, opcode.Load32s, opcode.Load32u,
          opcode.Extend8_32s, opcode.Extend16_32s, opcode.Extend8_32u,
          opcode.Extend16_32u, opcode.End, opcode.PushArg, opcode.DbgAssert,
          opcode.Syscall,
          reduceIte, Nat.reduceEqDiff] at hexec
      rcases hv1 : s.value_stack with _ | ⟨b1, t1⟩
      · simp [Interpreter.pop, hv1] at hexec
      · simp only [Interpreter.pop, hv1] at hexec
        rcases ht1 : t1 with _ | ⟨a1, t2⟩
        · simp [ht1] at hexec
        · simp only [ht1] at hexec
          cases hexec
          simp [Interpreter.push, op.Op.size_bytes]
    | Shiftr =>
      simp only [op.Op.repr] at hmem
      simp only [Interpreter.exec_next_op, Interpreter.read_u8,
          List.get?_eq_getElem?, hmem,
          opcode.Nop, opcode.Unreachable, opcode.Drop, opcode.Const, opcode.Jmp,
          opcode.JmpIf, opcode.Branch, opcode.BranchIf, opcode.LocalGet, opcode.LocalSet,
          opcode.LocalTee, opcode.GlobalGet, opcode.GlobalSet, opcode.GlobalTee, opcode.Eq,
          opcode.Eqz, opcode.Add, opcode.Sub, opcode.Divs, opcode.Divu, opcode.Mul,
          opcode.Neg, opcode.Gt, opcode.Lt, opcode.Ge, opcode.Le, opcode.Shiftr,
          opcode.Shiftl, opcode.And, opcode.Or, opcode.Xor, opcode.Call, opcode.Return,
          opcode.Store8, opcode.Store16, opcode.Store32, opcode.Load8u, opcode.Load8s,
          opcode.Load16s, opcode.Load16u, opcode.Load32s, opcode.Load32u,
          opcode.Extend8_32s, opcode.Extend16_32s, opcode.Extend8_32u,
          opcode.Extend16_32u, opcode.End, opcode.PushArg, opcode.DbgAssert,
          opcode.Syscall,
          reduceIte, Nat.reduceEqDiff] at hexec
      rcases hv1 : s.value_stack with _ | ⟨b1, t1⟩
      · simp [Interpreter.pop, hv1] at hexec
      · simp only [Interpreter.pop, hv1] at hexec
        rcases ht1 : t1 with _ | ⟨a1, t2⟩
        · simp [ht1] at hexec
        · simp only [ht1] at hexec
          cases hexec
          simp [Interpreter.push, op.Op.size_bytes]
    | Shiftl =>
      simp only [op.Op.repr] at hmem
      simp only [Interpreter.exec_next_op, Interpreter.read_u8,
          List.get?_eq_getElem?, hmem,
          opcode.Nop, opcode.Unreachable, opcode.Drop, opcode.Const, opcode.Jmp,
          opcode.JmpIf, opcode.Branch, opcode.BranchIf, opcode.LocalGet, opcode.LocalSet,
          opcode.LocalTee, opcode.GlobalGet, opcode.GlobalSet, opcode.GlobalTee, opcode.Eq,
          opcode.Eqz, opcode.Add, opcode.Sub, opcode.Divs, opcode.Divu, opcode.Mul,
          opcode.Neg, opcode.Gt, opcode.Lt, opcode.Ge, opcode.Le, opcode.Shiftr,
          opcode.Shiftl, opcode.And, opcode.Or, opcode.Xor, opcode.Call, opcode.Return,
          opcode.Store8, opcode.Store16, opcode.Store32, opcode.Load8u, opcode.Load8s,
          opcode.Load16s, opcode.Load16u, opcode.Load32s, opcode.Load32u,
          opcode.Extend8_32s, opcode.Extend16_32s, opcode.Extend8_32u,
          opcode.Extend16_32u, opcode.End, opcode.PushArg, opcode.DbgAssert,
          opcode.Syscall,
          reduceIte, Nat.reduceEqDiff] at hexec
      rcases hv1 : s.value_stack with _ | ⟨b1, t1⟩
      · simp [Interpreter.pop, hv1] at hexec
      · simp only [Interpreter.pop, hv1] at hexec
        rcases ht1 : t1 with _ | ⟨a1, t2⟩
        · simp [ht1] at hexec
        · simp only [ht1] at hexec
          cases hexec
          simp [Interpreter.push, op.Op.size_bytes]
    | Call =>
      exact absurd (by simp) hno
    | Return =>
      exact absurd (by simp) hno
    | Store8 =>
      simp only [op.Op.repr] at hmem
      simp only [Interpreter.exec_next_op, Interpreter.read_u8,
          List.get?_eq_getElem?, hmem,
          opcode.Nop, opcode.Unreachable, opcode.Drop, opcode.Const, opcode.Jmp,
          opcode.JmpIf, opcode.Branch, opcode.BranchIf, opcode.LocalGet, opcode.LocalSet,
          opcode.LocalTee, opcode.GlobalGet, opcode.GlobalSet, opcode.GlobalTee, opcode.Eq,
          opcode.Eqz, opcode.Add, opcode.Sub, opcode.Divs, opcode.Divu, opcode.Mul,
          opcode.Neg, opcode.Gt, opcode.Lt, opcode.Ge, opcode.Le, opcode.Shiftr,
          opcode.Shiftl, opcode.And, opcode.Or, opcode.Xor, opcode.Call, opcode.Return,
          opcode.Store8, opcode.Store16, opcode.Store32, opcode.Load8u, opcode.Load8s,
          opcode.Load16s, opcode.Load16u, opcode.Load32s, opcode.Load32u,
          opcode.Extend8_32s, opcode.Extend16_32s, opcode.Extend8_32u,
          opcode.Extend16_32u, opcode.End, opcode.PushArg, opcode.DbgAssert,
          opcode.Syscall,
          reduceIte, Nat.reduceEqDiff] at hexec
      rcases hsg : sliceGet s.memory (u32 (s.pc + 1)) 4 with _ | bs
      · simp [Interpreter.read_store_args, Interpreter.read_imm_u32, Interpreter.read_u32,
          hsg] at hexec
      · simp only [Interpreter.read_store_args, Interpreter.read_imm_u32, Interpreter.read_u32,
          hsg] at hexec
        rcases hv1 : s.value_stack with _ | ⟨b1, t1⟩
        · simp [Interpreter.pop, hv1] at hexec
        · simp only [Interpreter.pop, hv1] at hexec
          rcases ht1 : t1 with _ | ⟨a1, t2⟩
          · simp [ht1] at hexec
          · simp only [ht1] at hexec
            rcases hsb : storeBytes s.memory (u32 (a1 + leVal bs)) [b1 % 256] with _ | m2
            · simp [Interpreter.store_u8, hsb] at hexec
            · simp only [Interpreter.store_u8, hsb] at hexec
              cases hexec
              simp [Interpreter.push, op.Op.size_bytes]
    | Store16 =>
      simp only [op.Op.repr] at hmem
      simp only [Interpreter.exec_next_op, Interpreter.read_u8,
          List.get?_eq_getElem?, hmem,
          opcode.Nop, opcode.Unreachable, opcode.Drop, opcode.Const, opcode.Jmp,
          opcode.JmpIf, opcode.Branch, opcode.BranchIf, opcode.LocalGet, opcode.LocalSet,
          opcode.LocalTee, opcode.GlobalGet, opcode.GlobalSet, opcode.GlobalTee, opcode.Eq,
          opcode.Eqz, opcode.Add, opcode.Sub, opcode.Divs, opcode.Divu, opcode.Mul,
          opcode.Neg, opcode.Gt, opcode.Lt, opcode.Ge, opcode.Le, opcode.Shiftr,
          opcode.Shiftl, opcode.And, opcode.Or, opcode.Xor, opcode.Call, opcode.Return,
          opcode.Store8, opcode.Store16, opcode.Store32, opcode.Load8u, opcode.Load8s,
          opcode.Load16s, opcode.Load16u, opcode.Load32s, opcode.Load32u,
          opcode.Extend8_32s, opcode.Extend16_32s, opcode.Extend8_32u,
          opcode.Extend16_32u, opcode.End, opcode.PushArg, opcode.DbgAssert,
          opcode.Syscall,
          reduceIte, Nat.reduceEqDiff] at hexec
      rcases hsg : sliceGet s.memory (u32 (s.pc + 1)) 4 with _ | bs
      · simp [Interpreter.read_store_args, Interpreter.read_imm_u32, Interpreter.read_u32,
          hsg] at hexec
      · simp only [Interpreter.read_store_args, Interpreter.read_imm_u32, Interpreter.read_u32,
          hsg] at hexec
        rcases hv1 : s.value_stack with _ | ⟨b1, t1⟩
        · simp [Interpreter.pop, hv1] at hexec
        · simp only [Interpreter.pop, hv1] at hexec
          rcases ht1 : t1 with _ | ⟨a1, t2⟩
          · simp [ht1] at hexec
          · simp only [ht1] at hexec
            rcases hsb : storeBytes s.memory (u32 (a1 + leVal bs)) (leBytes 2 (b1 % 65536)) with _ | m2
            · simp [Interpreter.store_u16, hsb] at hexec
            · simp only [Interpreter.store_u16, hsb] at hexec
              cases hexec
              simp [Interpreter.push, op.Op.size_bytes]
    | Store32 =>
      simp only [op.Op.repr] at hmem
      simp only [Interpreter.exec_next_op, Interpreter.read_u8,
          List.get?_eq_getElem?, hmem,
          opcode.Nop, opcode.Unreachable, opcode.Drop, opcode.Const, opcode.Jmp,
          opcode.JmpIf, opcode.Branch, opcode.BranchIf, opcode.LocalGet, opcode.LocalSet,
          opcode.LocalTee, opcode.GlobalGet, opcode.GlobalSet, opcode.GlobalTee, opcode.Eq,
          opcode.Eqz, opcode.Add, opcode.Sub, opcode.Divs, opcode.Divu, opcode.Mul,
          opcode.Neg, opcode.Gt, opcode.Lt, opcode.Ge, opcode.Le, opcode.Shiftr,
          opcode.Shiftl, opcode.And, opcode.Or, opcode.Xor, opcode.Call, opcode.Return,
          opcode.Store8, opcode.Store16, opcode.Store32, opcode.Load8u, opcode.Load8s,
          opcode.Load16s, opcode.Load16u, opcode.Load32s, opcode.Load32u,
          opcode.Extend8_32s, opcode.Extend16_32s, opcode.Extend8_32u,
          opcode.Extend16_32u, opcode.End, opcode.PushArg, opcode.DbgAssert,
          opcode.Syscall,
          reduceIte, Nat.reduceEqDiff] at hexec
      rcases hsg : sliceGet s.memory (u32 (s.pc + 1)) 4 with _ | bs
      · simp [Interpreter.read_store_args, Interpreter.read_imm_u32, Interpreter.read_u32,
          hsg] at hexec
      · simp only [Interpreter.read_store_args, Interpreter.read_imm_u32, Interpreter.read_u32,
          hsg] at hexec
        rcases hv1 : s.value_stack with _ | ⟨b1, t1⟩
        · simp [Interpreter.pop, hv1] at hexec
        · simp only [Interpreter.pop, hv1] at hexec
          rcases ht1 : t1 with _ | ⟨a1, t2⟩
          · simp [ht1] at hexec
          · simp only [ht1] at hexec
            rcases hsb : storeBytes s.memory (u32 (a1 + leVal bs)) (leBytes 4 (u32 b1)) with _ | m2
            · simp [Interpreter.store_u32, hsb] at hexec
            · simp only [Interpreter.store_u32, hsb] at hexec
              cases hexec
              simp [Interpreter.push, op.Op.size_bytes]
    | Load8u =>
      simp only [op.Op.repr] at hmem
      simp only [Interpreter.exec_next_op, Interpreter.read_u8,
          List.get?_eq_getElem?, hmem,
          opcode.Nop, opcode.Unreachable, opcode.Drop, opcode.Const, opcode.Jmp,
          opcode.JmpIf, opcode.Branch, opcode.BranchIf, opcode.LocalGet, opcode.LocalSet,
          opcode.LocalTee, opcode.GlobalGet, opcode.GlobalSet, opcode.GlobalTee, opcode.Eq,
          opcode.Eqz, opcode.Add, opcode.Sub, opcode.Divs, opcode.Divu, opcode.Mul,
          opcode.Neg, opcode.Gt, opcode.Lt, opcode.Ge, opcode.Le, opcode.Shiftr,
          opcode.Shiftl, opcode.And, opcode.Or, opcode.Xor, opcode.Call, opcode.Return,
          opcode.Store8, opcode.Store16, opcode.Store32, opcode.Load8u, opcode.Load8s,
          opcode.Load16s, opcode.Load16u, opcode.Load32s, opcode.Load32u,
          opcode.Extend8_32s, opcode.Extend16_32s, opcode.Extend8_32u,
          opcode.Extend16_32u, opcode.End, opcode.PushArg, opcode.DbgAssert,
          opcode.Syscall,
          reduceIte, Nat.reduceEqDiff] at hexec
      rcases hsg : sliceGet s.memory (u32 (s.pc + 1)) 4 with _ | bs
      · simp [Interpreter.read_imm_u32, Interpreter.read_u32, hsg] at hexec
      · simp only [Interpreter.read_imm_u32, Interpreter.read_u32, hsg] at hexec
        rcases hv1 : s.value_stack with _ | ⟨b1, t1⟩
        · simp [Interpreter.pop, hv1] at hexec
        · simp only [Interpreter.pop, hv1] at hexec
          rcases hm1 : s.memory[u32 (leVal bs + b1)]? with _ | v
          · simp [Interpreter.read_u8, List.get?_eq_getElem?, hm1] at hexec
          · simp only [Interpreter.read_u8, List.get?_eq_getElem?, hm1] at hexec
            cases hexec
            simp [Interpreter.push, op.Op.size_bytes]
    | Load8s =>
      simp only [op.Op.repr] at hmem
      simp only [Interpreter.exec_next_op, Interpreter.read_u8,
          List.get?_eq_getElem?, hmem,
          opcode.Nop, opcode.Unreachable, opcode.Drop, opcode.Const, opcode.Jmp,
          opcode.JmpIf, opcode.Branch, opcode.BranchIf, opcode.LocalGet, opcode.LocalSet,
          opcode.LocalTee, opcode.GlobalGet, opcode.GlobalSet, opcode.GlobalTee, opcode.Eq,
          opcode.Eqz, opcode.Add, opcode.Sub, opcode.Divs, opcode.Divu, opcode.Mul,
          opcode.Neg, opcode.Gt, opcode.Lt, opcode.Ge, opcode.Le, opcode.Shiftr,
          opcode.Shiftl, opcode.And, opcode.Or, opcode.Xor, opcode.Call, opcode.Return,
          opcode.Store8, opcode.Store16, opcode.Store32, opcode.Load8u, opcode.Load8s,
          opcode.Load16s, opcode.Load16u, opcode.Load32s, opcode.Load32u,
          opcode.Extend8_32s, opcode.Extend16_32s, opcode.Extend8_32u,
          opcode.Extend16_32u, opcode.End, opcode.PushArg, opcode.DbgAssert,
          opcode.Syscall,
          reduceIte, Nat.reduceEqDiff] at hexec
      exact absurd hexec (by simp)
    | Load16s =>
      simp only [op.Op.repr] at hmem
      simp only [Interpreter.exec_next_op, Interpreter.read_u8,
          List.get?_eq_getElem?, hmem,
          opcode.Nop, opcode.Unreachable, opcode.Drop, opcode.Const, opcode.Jmp,
          opcode.JmpIf, opcode.Branch, opcode.BranchIf, opcode.LocalGet, opcode.LocalSet,
          opcode.LocalTee, opcode.GlobalGet, opcode.GlobalSet, opcode.GlobalTee, opcode.Eq,
          opcode.Eqz, opcode.Add, opcode.Sub, opcode.Divs, opcode.Divu, opcode.Mul,
          opcode.Neg, opcode.Gt, opcode.Lt, opcode.Ge, opcode.Le, opcode.Shiftr,
          opcode.Shiftl, opcode.And, opcode.Or, opcode.Xor, opcode.Call, opcode.Return,
          opcode.Store8, opcode.Store16, opcode.Store32, opcode.Load8u, opcode.Load8s,
          opcode.Load16s, opcode.Load16u, opcode.Load32s, opcode.Load32u,
          opcode.Extend8_32s, opcode.Extend16_32s, opcode.Extend8_32u,
          opcode.Extend16_32u, opcode.End, opcode.PushArg, opcode.DbgAssert,
          opcode.Syscall,
          reduceIte, Nat.reduceEqDiff] at hexec
      exact absurd hexec (by simp)
    | Load16u =>
      simp only [op.Op.repr] at hmem
      simp only [Interpreter.exec_next_op, Interpreter.read_u8,
          List.get?_eq_getElem?, hmem,
          opcode.Nop, opcode.Unreachable, opcode.Drop, opcode.Const, opcode.Jmp,
          opcode.JmpIf, opcode.Branch, opcode.BranchIf, opcode.LocalGet, opcode.LocalSet,
          opcode.LocalTee, opcode.GlobalGet, opcode.GlobalSet, opcode.GlobalTee, opcode.Eq,
          opcode.Eqz, opcode.Add, opcode.Sub, opcode.Divs, opcode.Divu, opcode.Mul,
          opcode.Neg, opcode.Gt, opcode.Lt, opcode.Ge, opcode.Le, opcode.Shiftr,
          opcode.Shiftl, opcode.And, opcode.Or, opcode.Xor, opcode.Call, opcode.Return,
          opcode.Store8, opcode.Store16, opcode.Store32, opcode.Load8u, opcode.Load8s,
          opcode.Load16s, opcode.Load16u, opcode.Load32s, opcode.Load32u,
          opcode.Extend8_32s, opcode.Extend16_32s, opcode.Extend8_32u,
          opcode.Extend16_32u, opcode.End, opcode.PushArg, opcode.DbgAssert,
          opcode.Syscall,
          reduceIte, Nat.reduceEqDiff] at hexec
      rcases hsg : sliceGet s.memory (u32 (s.pc + 1)) 4 with _ | bs
      · simp [Interpreter.read_imm_u32, Interpreter.read_u32, hsg] at hexec
      · simp only [Interpreter.read_imm_u32, Interpreter.read_u32, hsg] at hexec
        rcases hv1 : s.value_stack with _ | ⟨b1, t1⟩
        · simp [Interpreter.pop, hv1] at hexec
        · simp only [Interpreter.pop, hv1] at hexec
          rcases hsg2 : sliceGet s.memory (u32 (leVal bs + b1)) 2 with _ | bs2
          · simp [Interpreter.read_u16, hsg2] at hexec
          · simp only [Interpreter.read_u16, hsg2] at hexec
            cases hexec
            simp [Interpreter.push, op.Op.size_bytes]
    | Load32s =>
      simp only [op.Op.repr] at hmem
      simp only [Interpreter.exec_next_op, Interpreter.read_u8,
          List.get?_eq_getElem?, hmem,
          opcode.Nop, opcode.Unreachable, opcode.Drop, opcode.Const, opcode.Jmp,
          opcode.JmpIf, opcode.Branch, opcode.BranchIf, opcode.LocalGet, opcode.LocalSet,
          opcode.LocalTee, opcode.GlobalGet, opcode.GlobalSet, opcode.GlobalTee, opcode.Eq,
          opcode.Eqz, opcode.Add, opcode.Sub, opcode.Divs, opcode.Divu, opcode.Mul,
          opcode.Neg, opcode.Gt, opcode.Lt, opcode.Ge, opcode.Le, opcode.Shiftr,
          opcode.Shiftl, opcode.And, opcode.Or, opcode.Xor, opcode.Call, opcode.Return,
          opcode.Store8, opcode.Store16, opcode.Store32, opcode.Load8u, opcode.Load8s,
          opcode.Load16s, opcode.Load16u, opcode.Load32s, opcode.Load32u,
          opcode.Extend8_32s, opcode.Extend16_32s, opcode.Extend8_32u,
          opcode.Extend16_32u, opcode.End, opcode.PushArg, opcode.DbgAssert,
          opcode.Syscall,
          reduceIte, Nat.reduceEqDiff] at hexec
      exact absurd hexec (by simp)
    | Load32u =>
      simp only [op.Op.repr] at hmem
      simp only [Interpreter.exec_next_op, Interpreter.read_u8,
          List.get?_eq_getElem?, hmem,
          opcode.Nop, opcode.Unreachable, opcode.Drop, opcode.Const, opcode.Jmp,
          opcode.JmpIf, opcode.Branch, opcode.BranchIf, opcode.LocalGet, opcode.LocalSet,
          opcode.LocalTee, opcode.GlobalGet, opcode.GlobalSet, opcode.GlobalTee, opcode.Eq,
          opcode.Eqz, opcode.Add, opcode.Sub, opcode.Divs, opcode.Divu, opcode.Mul,
          opcode.Neg, opcode.Gt, opcode.Lt, opcode.Ge, opcode.Le, opcode.Shiftr,
          opcode.Shiftl, opcode.And, opcode.Or, opcode.Xor, opcode.Call, opcode.Return,
          opcode.Store8, opcode.Store16, opcode.Store32, opcode.Load8u, opcode.Load8s,
          opcode.Load16s, opcode.Load16u, opcode.Load32s, opcode.Load32u,
          opcode.Extend8_32s, opcode.Extend16_32s, opcode.Extend8_32u,
          opcode.Extend16_32u, opcode.End, opcode.PushArg, opcode.DbgAssert,
          opcode.Syscall,
          reduceIte, Nat.reduceEqDiff] at hexec
      rcases hsg : sliceGet s.memory (u32 (s.pc + 1)) 4 with _ | bs
      · simp [Interpreter.read_imm_u32, Interpreter.read_u32, hsg] at hexec
      · simp only [Interpreter.read_imm_u32, Interpreter.read_u32, hsg] at hexec
        rcases hv1 : s.value_stack with _ | ⟨b1, t1⟩
        · simp [Interpreter.pop, hv1] at hexec
        · simp only [Interpreter.pop, hv1] at hexec
          rcases hsg2 : sliceGet s.memory (u32 (leVal bs + b1)) 4 with _ | bs2
          · simp [Interpreter.read_u32, hsg2] at hexec
          · simp only [Interpreter.read_u32, hsg2] at hexec
            cases hexec
            simp [Interpreter.push, op.Op.size_bytes]
    | Extend8_32s =>
      simp only [op.Op.repr] at hmem
      simp only [Interpreter.exec_next_op, Interpreter.read_u8,
          List.get?_eq_getElem?, hmem,
          opcode.Nop, opcode.Unreachable, opcode.Drop, opcode.Const, opcode.Jmp,
          opcode.JmpIf, opcode.Branch, opcode.BranchIf, opcode.LocalGet, opcode.LocalSet,
          opcode.LocalTee, opcode.GlobalGet, opcode.GlobalSet, opcode.GlobalTee, opcode.Eq,
          opcode.Eqz, opcode.Add, opcode.Sub, opcode.Divs, opcode.Divu, opcode.Mul,
          opcode.Neg, opcode.Gt, opcode.Lt, opcode.Ge, opcode.Le, opcode.Shiftr,
          opcode.Shiftl, opcode.And, opcode.Or, opcode.Xor, opcode.Call, opcode.Return,
          opcode.Store8, opcode.Store16, opcode.Store32, opcode.Load8u, opcode.Load8s,
          opcode.Load16s, opcode.Load16u, opcode.Load32s, opcode.Load32u,
          opcode.Extend8_32s, opcode.Extend16_32s, opcode.Extend8_32u,
          opcode.Extend16_32u, opcode.End, opcode.PushArg, opcode.DbgAssert,
          opcode.Syscall,
          reduceIte, Nat.reduceEqDiff] at hexec
      exact absurd hexec (by simp)
    | Extend16_32s =>
      simp only [op.Op.repr] at hmem
      simp only [Interpreter.exec_next_op, Interpreter.read_u8,
          List.get?_eq_getElem?, hmem,
          opcode.Nop, opcode.Unreachable, opcode.Drop, opcode.Const, opcode.Jmp,
          opcode.JmpIf, opcode.Branch, opcode.BranchIf, opcode.LocalGet, opcode.LocalSet,
          opcode.LocalTee, opcode.GlobalGet, opcode.GlobalSet, opcode.GlobalTee, opcode.Eq,
          opcode.Eqz, opcode.Add, opcode.Sub, opcode.Divs, opcode.Divu, opcode.Mul,
          opcode.Neg, opcode.Gt, opcode.Lt, opcode.Ge, opcode.Le, opcode.Shiftr,
          opcode.Shiftl, opcode.And, opcode.Or, opcode.Xor, opcode.Call, opcode.Return,
          opcode.Store8, opcode.Store16, opcode.Store32, opcode.Load8u, opcode.Load8s,
          opcode.Load16s, opcode.Load16u, opcode.Load32s, opcode.Load32u,
          opcode.Extend8_32s, opcode.Extend16_32s, opcode.Extend8_32u,
          opcode.Extend16_32u, opcode.End, opcode.PushArg, opcode.DbgAssert,
          opcode.Syscall,
          reduceIte, Nat.reduceEqDiff] at hexec
      exact absurd hexec (by simp)
    | Extend8_32u =>
      simp only [op.Op.repr] at hmem
      simp only [Interpreter.exec_next_op, Interpreter.read_u8,
          List.get?_eq_getElem?, hmem,
          opcode.Nop, opcode.Unreachable, opcode.Drop, opcode.Const, opcode.Jmp,
          opcode.JmpIf, opcode.Branch, opcode.BranchIf, opcode.LocalGet, opcode.LocalSet,
          opcode.LocalTee, opcode.GlobalGet, opcode.GlobalSet, opcode.GlobalTee, opcode.Eq,
          opcode.Eqz, opcode.Add, opcode.Sub, opcode.Divs, opcode.Divu, opcode.Mul,
          opcode.Neg, opcode.Gt, opcode.Lt, opcode.Ge, opcode.Le, opcode.Shiftr,
          opcode.Shiftl, opcode.And, opcode.Or, opcode.Xor, opcode.Call, opcode.Return,
          opcode.Store8, opcode.Store16, opcode.Store32, opcode.Load8u, opcode.Load8s,
          opcode.Load16s, opcode.Load16u, opcode.Load32s, opcode.Load32u,
          opcode.Extend8_32s, opcode.Extend16_32s, opcode.Extend8_32u,
          opcode.Extend16_32u, opcode.End, opcode.PushArg, opcode.DbgAssert,
          opcode.Syscall,
          reduceIte, Nat.reduceEqDiff] at hexec
      exact absurd hexec (by simp)
    | Extend16_32u =>
      simp only [op.Op.repr] at hmem
      simp only [Interpreter.exec_next_op, Interpreter.read_u8,
          List.get?_eq_getElem?, hmem,
          opcode.Nop, opcode.Unreachable, opcode.Drop, opcode.Const, opcode.Jmp,
          opcode.JmpIf, opcode.Branch, opcode.BranchIf, opcode.LocalGet, opcode.LocalSet,
          opcode.LocalTee, opcode.GlobalGet, opcode.GlobalSet, opcode.GlobalTee, opcode.Eq,
          opcode.Eqz, opcode.Add, opcode.Sub, opcode.Divs, opcode.Divu, opcode.Mul,
          opcode.Neg, opcode.Gt, opcode.Lt, opcode.Ge, opcode.Le, opcode.Shiftr,
          opcode.Shiftl, opcode.And, opcode.Or, opcode.Xor, opcode.Call, opcode.Return,
          opcode.Store8, opcode.Store16, opcode.Store32, opcode.Load8u, opcode.Load8s,
          opcode.Load16s, opcode.Load16u, opcode.Load32s, opcode.Load32u,
          opcode.Extend8_32s, opcode.Extend16_32s, opcode.Extend8_32u,
          opcode.Extend16_32u, opcode.End, opcode.PushArg, opcode.DbgAssert,
          opcode.Syscall,
          reduceIte, Nat.reduceEqDiff] at hexec
      exact absurd hexec (by simp)
    | PushArg =>
      simp only [op.Op.repr] at hmem
      simp only [Interpreter.exec_next_op, Interpreter.read_u8,
          List.get?_eq_getElem?, hmem,
          opcode.Nop, opcode.Unreachable, opcode.Drop, opcode.Const, opcode.Jmp,
          opcode.JmpIf, opcode.Branch, opcode.BranchIf, opcode.LocalGet, opcode.LocalSet,
          opcode.LocalTee, opcode.GlobalGet, opcode.GlobalSet, opcode.GlobalTee, opcode.Eq,
          opcode.Eqz, opcode.Add, opcode.Sub, opcode.Divs, opcode.Divu, opcode.Mul,
          opcode.Neg, opcode.Gt, opcode.Lt, opcode.Ge, opcode.Le, opcode.Shiftr,
          opcode.Shiftl, opcode.And, opcode.Or, opcode.Xor, opcode.Call, opcode.Return,
          opcode.Store8, opcode.Store16, opcode.Store32, opcode.Load8u, opcode.Load8s,
          opcode.Load16s, opcode.Load16u, opcode.Load32s, opcode.Load32u,
          opcode.Extend8_32s, opcode.Extend16_32s, opcode.Extend8_32u,
          opcode.Extend16_32u, opcode.End, opcode.PushArg, opcode.DbgAssert,
          opcode.Syscall,
          reduceIte, Nat.reduceEqDiff] at hexec
      by_cases ha : s.args.length ≥ MAX_ARGS
      · rw [if_pos ha] at hexec
        exact absurd hexec (by simp)
      · rw [if_neg ha] at hexec
        rcases hv1 : s.value_stack with _ | ⟨b1, t1⟩
        · simp [Interpreter.pop, hv1] at hexec
        · simp only [Interpreter.pop, hv1] at hexec
          cases hexec
          simp [Interpreter.push, op.Op.size_bytes]
    | DbgAssert =>
      exact absurd (by simp) hno
    | End =>
      exact absurd (by simp) hno
  · rintro rfl c rest hstack hc hexec
    simp only [op.Op.repr] at hmem
    simp only [Interpreter.exec_next_op, Interpreter.read_u8,
        List.get?_eq_getElem?, hmem,
        opcode.Nop, opcode.Unreachable, opcode.Drop, opcode.Const, opcode.Jmp,
        opcode.JmpIf, opcode.Branch, opcode.BranchIf, opcode.LocalGet, opcode.LocalSet,
        opcode.LocalTee, opcode.GlobalGet, opcode.GlobalSet, opcode.GlobalTee, opcode.Eq,
        opcode.Eqz, opcode.Add, opcode.Sub, opcode.Divs, opcode.Divu, opcode.Mul,
        opcode.Neg, opcode.Gt, opcode.Lt, opcode.Ge, opcode.Le, opcode.Shiftr,
        opcode.Shiftl, opcode.And, opcode.Or, opcode.Xor, opcode.Call, opcode.Return,
        opcode.Store8, opcode.Store16, opcode.Store32, opcode.Load8u, opcode.Load8s,
        opcode.Load16s, opcode.Load16u, opcode.Load32s, opcode.Load32u,
        opcode.Extend8_32s, opcode.Extend16_32s, opcode.Extend8_32u,
        opcode.Extend16_32u, opcode.End, opcode.PushArg, opcode.DbgAssert,
        opcode.Syscall,
        reduceIte, Nat.reduceEqDiff] at hexec
    obtain ⟨c2, rfl⟩ : ∃ c2, c = c2 + 1 := ⟨c - 1, by omega⟩
    simp only [Interpreter.pop_bool, Interpreter.pop, hstack] at hexec
    cases hexec
    simp

def c6wState : Interpreter :=
  { Interpreter.default with memory := [opcode.Nop], running := true }

/-- Witness for C6 at a concrete state: a `nop` step advances `pc` from 0
to `0 + size_bytes(nop) = 1`. -/
theorem c6_amended_pc_advance_witness :
    ({ c6wState with pc := 1 } : Interpreter).pc
      = u32 (c6wState.pc + (op.Op.Nop).size_bytes) :=
  (c6_amended_pc_advance c6wState dummyHandler .Nop { c6wState with pc := 1 }
      (by decide)).1 (by decide) (by decide)

/-! ## C3: bounds-checked memory access -/

theorem try_jump_to_memLen (s : Interpreter) (addr : Nat) :
    ((s.try_jump_to addr).state).memory.length = s.memory.length := by
  unfold Interpreter.try_jump_to
  by_cases hj : addr ≥ u32 s.memory.length
  · rw [if_pos hj]
    rfl
  · rw [if_neg hj]
    rfl

theorem exec_jmp_memLen (s : Interpreter) :
    ((s.exec_jmp).state).memory.length = s.memory.length := by
  unfold Interpreter.exec_jmp
  rcases hv1 : s.value_stack with _ | ⟨b1, t1⟩
  · simp [Interpreter.pop, hv1, IntRes.state]
  · simp only [Interpreter.pop, hv1]
    simp [try_jump_to_memLen]

theorem exec_branch_memLen (s : Interpreter) :
    ((s.exec_branch).state).memory.length = s.memory.length := by
  unfold Interpreter.exec_branch
  rcases hv1 : s.value_stack with _ | ⟨b1, t1⟩
  · simp [Interpreter.pop, hv1, IntRes.state]
  · simp only [Interpreter.pop, hv1]
    simp [try_jump_to_memLen]

/-- A host handler that never changes the length of the linear memory. -/
def HandlerPreservesMemLen (h : SyscallHandler) : Prop :=
  ∀ (s : Interpreter) (id : Nat) (args : List Nat),
    ((h s id args).1).memory.length = s.memory.length

theorem exec_next_op_memLen (h : SyscallHandler) (s : Interpreter)
    (hh : HandlerPreservesMemLen h) :
    ((s.exec_next_op h).state).memory.length = s.memory.length := by
  unfold Interpreter.exec_next_op
  rcases hb : s.memory.get? s.pc with _ | oc <;>
    rw [List.get?_eq_getElem?] at hb <;>
    simp only [Interpreter.read_u8, List.get?_eq_getElem?, hb]
  · simp [IntRes.state]
  by_cases e1 : oc = opcode.Nop
  · rw [if_pos e1]
    simp [IntRes.state]
  rw [if_neg e1]
  by_cases e2 : oc = opcode.End
  · rw [if_pos e2]
    simp [IntRes.state]
  rw [if_neg e2]
  by_cases e3 : oc = opcode.Unreachable
  · rw [if_pos e3]
    simp [IntRes.state]
  rw [if_neg e3]
  by_cases e4 : oc = opcode.Drop
  · rw [if_pos e4]
    rcases hv1 : s.value_stack with _ | ⟨b1, t1⟩
    · simp [Interpreter.pop, hv1, IntRes.state]
    · simp only [Interpreter.pop, hv1]
      simp [IntRes.state]
  rw [if_neg e4]
  by_cases e5 : oc = opcode.Const
  · rw [if_pos e5]
    rcases hsg : sliceGet s.memory (u32 (s.pc + 1)) 4 with _ | bs
    · simp [Interpreter.read_i32, hsg, IntRes.state]
    · simp only [Interpreter.read_i32, hsg]
      simp [Interpreter.push, IntRes.state]
  rw [if_neg e5]
  by_cases e6 : oc = opcode.Jmp
  · rw [if_pos e6]
    exact exec_jmp_memLen _
  rw [if_neg e6]
  by_cases e7 : oc = opcode.JmpIf
  · rw [if_pos e7]
    rcases hv1 : s.value_stack with _ | ⟨b1, t1⟩
    · simp [Interpreter.pop, hv1, IntRes.state]
    · simp only [Interpreter.pop, hv1]
      rcases ht1 : t1 with _ | ⟨c1, t2⟩
      · simp [Interpreter.pop_bool, Interpreter.pop, ht1, IntRes.state]
      · simp only [Interpreter.pop_bool, Interpreter.pop, ht1]
        rcases c1 with _ | c2
        · simp [IntRes.state]
        · simp [try_jump_to_memLen]
  rw [if_neg e7]
  by_cases e8 : oc = opcode.Branch
  · rw [if_pos e8]
    have h1 := exec_branch_memLen s
    rcases hbm : s.exec_branch with ⟨u, s1⟩ | ⟨e, s1⟩ | s1 <;>
      rw [hbm] at h1 <;> simp only [IntRes.state] at h1 <;>
      simp only [hbm] <;> simp [IntRes.state, h1]
  rw [if_neg e8]
  by_cases e9 : oc = opcode.BranchIf
  · rw [if_pos e9]
    rcases hv1 : s.value_stack with _ | ⟨b1, t1⟩
    · simp [Interpreter.pop, hv1, IntRes.state]
    · simp only [Interpreter.pop, hv1]
      rcases ht1 : t1 with _ | ⟨c1, t2⟩
      · simp [Interpreter.pop_bool, Interpreter.pop, ht1, IntRes.state]
      · simp only [Interpreter.pop_bool, Interpreter.pop, ht1]
        rcases c1 with _ | c2
        · simp [IntRes.state]
        · simp [try_jump_to_memLen]
  rw [if_neg e9]
  by_cases e10 : oc = opcode.LocalGet
  · rw [if_pos e10]
    rcases hm1 : s.memory[u32 (s.pc + 1)]? with _ | id
    · simp [Interpreter.read_local, Interpreter.read_imm_u8, Interpreter.read_u8,
        List.get?_eq_getElem?, hm1, IntRes.state]
    · simp only [Interpreter.read_local, Interpreter.read_imm_u8, Interpreter.read_u8,
        List.get?_eq_getElem?, hm1]
      rcases hrs : s.return_stack with _ | ⟨f, rs⟩
      · simp [hrs, IntRes.state]
      · simp only [hrs]
        rcases hl : f.locals[id]? with _ | v <;> simp [hl, Interpreter.push, IntRes.state]
  rw [if_neg e10]
  by_cases e11 : oc = opcode.LocalSet
  · rw [if_pos e11]
    rcases hv1 : s.value_stack with _ | ⟨b1, t1⟩
    · simp [Interpreter.pop, hv1, IntRes.state]
    · simp only [Interpreter.pop, hv1]
      rcases hm1 : s.memory[u32 (s.pc + 1)]? with _ | id
      · simp [Interpreter.set_local, Interpreter.read_imm_u8, Interpreter.read_u8,
          List.get?_eq_getElem?, hm1, IntRes.state]
      · simp only [Interpreter.set_local, Interpreter.read_imm_u8, Interpreter.read_u8,
          List.get?_eq_getElem?, hm1]
        rcases hrs : s.return_stack with _ | ⟨f, rs⟩
        · simp [hrs, IntRes.state]
        · simp only [hrs]
          by_cases hid : id < f.locals.length
          · rw [if_pos hid]
            simp [IntRes.state]
          · rw [if_neg hid]
            simp [IntRes.state]
  rw [if_neg e11]
  by_cases e12 : oc = opcode.LocalTee
  · rw [if_pos e12]
    rcases hv1 : s.value_stack with _ | ⟨b1, t1⟩
    · simp [Interpreter.peek, hv1, IntRes.state]
    · simp only [Interpreter.peek, hv1]
      rcases hm1 : s.memory[u32 (s.pc + 1)]? with _ | id
      · simp [Interpreter.set_local, Interpreter.read_imm_u8, Interpreter.read_u8,
          List.get?_eq_getElem?, hm1, IntRes.state]
      · simp only [Interpreter.set_local, Interpreter.read_imm_u8, Interpreter.read_u8,
          List.get?_eq_getElem?, hm1]
        rcases hrs : s.return_stack with _ | ⟨f, rs⟩
        · simp [hrs, IntRes.state]
        · simp only [hrs]
          by_cases hid : id < f.locals.length
          · rw [if_pos hid]
            simp [IntRes.state]
          · rw [if_neg hid]
            simp [IntRes.state]
  rw [if_neg e12]
  by_cases e13 : oc = opcode.GlobalGet
  · rw [if_pos e13]
    rcases hm1 : s.memory[u32 (s.pc + 1)]? with _ | id
    · simp [Interpreter.read_global, Interpreter.read_imm_u8, Interpreter.read_u8,
        List.get?_eq_getElem?, hm1, IntRes.state]
    · simp only [Interpreter.read_global, Interpreter.read_imm_u8, Interpreter.read_u8,
        List.get?_eq_getElem?, hm1]
      rcases hg : s.globals[id]? with _ | v <;> simp [hg, Interpreter.push, IntRes.state]
  rw [if_neg e13]
  by_cases e14 : oc = opcode.GlobalSet
  · rw [if_pos e14]
    rcases hv1 : s.value_stack with _ | ⟨b1, t1⟩
    · simp [Interpreter.pop, hv1, IntRes.state]
    · simp only [Interpreter.pop, hv1]
      rcases hm1 : s.memory[u32 (s.pc + 1)]? with _ | id
      · simp [Interpreter.set_global, Interpreter.read_imm_u8, Interpreter.read_u8,
          List.get?_eq_getElem?, hm1, IntRes.state]
      · simp only [Interpreter.set_global, Interpreter.read_imm_u8, Interpreter.read_u8,
          List.get?_eq_getElem?, hm1]
        by_cases hid : id < s.globals.length
        · rw [if_pos hid]
          simp [IntRes.state]
        · rw [if_neg hid]
          simp [IntRes.state]
  rw [if_neg e14]
  by_cases e15 : oc = opcode.GlobalTee
  · rw [if_pos e15]
    rcases hv1 : s.value_stack with _ | ⟨b1, t1⟩
    · simp [Interpreter.peek, hv1, IntRes.state]
    · simp only [Interpreter.peek, hv1]
      rcases hm1 : s.memory[u32 (s.pc + 1)]? with _ | id
      · simp [Interpreter.set_global, Interpreter.read_imm_u8, Interpreter.read_u8,
          List.get?_eq_getElem?, hm1, IntRes.state]
      · simp only [Interpreter.set_global, Interpreter.read_imm_u8, Interpreter.read_u8,
          List.get?_eq_getElem?, hm1]
        by_cases hid : id < s.globals.length
        · rw [if_pos hid]
          simp [IntRes.state]
        · rw [if_neg hid]
          simp [IntRes.state]
  rw [if_neg e15]
  by_cases e16 : oc = opcode.Add
  · rw [if_pos e16]
    rcases hv1 : s.value_stack with _ | ⟨b1, t1⟩
    · simp [Interpreter.pop, hv1, IntRes.state]
    · simp only [Interpreter.pop, hv1]
      rcases ht1 : t1 with _ | ⟨a1, t2⟩
      · simp [ht1, IntRes.state]
      · simp only [ht1]
        simp [Interpreter.push, IntRes.state]
  rw [if_neg e16]
  by_cases e17 : oc = opcode.Sub
  · rw [if_pos e17]
    rcases hv1 : s.value_stack with _ | ⟨b1, t1⟩
    · simp [Interpreter.pop, hv1, IntRes.state]
    · simp only [Interpreter.pop, hv1]
      rcases ht1 : t1 with _ | ⟨a1, t2⟩
      · simp [ht1, IntRes.state]
      · simp only [ht1]
        simp [Interpreter.push, IntRes.state]
  rw [if_neg e17]
  by_cases e18 : oc = opcode.Mul
  · rw [if_pos e18]
    rcases hv1 : s.value_stack with _ | ⟨b1, t1⟩
    · simp [Interpreter.pop, hv1, IntRes.state]
    · simp only [Interpreter.pop, hv1]
      rcases ht1 : t1 with _ | ⟨a1, t2⟩
      · simp [ht1, IntRes.state]
      · simp only [ht1]
        simp [Interpreter.push, IntRes.state]
  rw [if_neg e18]
  by_cases e19 : oc = opcode.Divu
  · rw [if_pos e19]
    rcases hv1 : s.value_stack with _ | ⟨b1, t1⟩
    · simp [Interpreter.pop, hv1, IntRes.state]
    · simp only [Interpreter.pop, hv1]
      rcases ht1 : t1 with _ | ⟨a1, t2⟩
      · simp [ht1, IntRes.state]
      · simp only [ht1]
        by_cases hb0 : b1 = 0
        · rw [if_pos hb0]
          simp [IntRes.state]
        · rw [if_neg hb0]
          simp [Interpreter.push, IntRes.state]
  rw [if_neg e19]
  by_cases e20 : oc = opcode.Divs
  · rw [if_pos e20]
    rcases hv1 : s.value_stack with _ | ⟨b1, t1⟩
    · simp [Interpreter.pop, hv1, IntRes.state]
    · simp only [Interpreter.pop, hv1]
      rcases ht1 : t1 with _ | ⟨a1, t2⟩
      · simp [ht1, IntRes.state]
      · simp only [ht1]
        by_cases hb0 : i32_of_u32 b1 = 0 ∨ (i32_of_u32 a1 = -2147483648 ∧ i32_of_u32 b1 = -1)
        · rw [if_pos hb0]
          simp [IntRes.state]
        · rw [if_neg hb0]
          simp [Interpreter.push, IntRes.state]
  rw [if_neg e20]
  by_cases e21 : oc = opcode.Lt
  · rw [if_pos e21]
    rcases hv1 : s.value_stack with _ | ⟨b1, t1⟩
    · simp [Interpreter.pop, hv1, IntRes.state]
    · simp only [Interpreter.pop, hv1]
      rcases ht1 : t1 with _ | ⟨a1, t2⟩
      · simp [ht1, IntRes.state]
      · simp only [ht1]
        simp [Interpreter.push, IntRes.state]
  rw [if_neg e21]
  by_cases e22 : oc = opcode.Gt
  · rw [if_pos e22]
    rcases hv1 : s.value_stack with _ | ⟨b1, t1⟩
    · simp [Interpreter.pop, hv1, IntRes.state]
    · simp only [Interpreter.pop, hv1]
      rcases ht1 : t1 with _ | ⟨a1, t2⟩
      · simp [ht1, IntRes.state]
      · simp only [ht1]
        simp [Interpreter.push, IntRes.state]
  rw [if_neg e22]
  by_cases e23 : oc = opcode.Ge
  · rw [if_pos e23]
    rcases hv1 : s.value_stack with _ | ⟨b1, t1⟩
    · simp [Interpreter.pop, hv1, IntRes.state]
    · simp only [Interpreter.pop, hv1]
      rcases ht1 : t1 with _ | ⟨a1, t2⟩
      · simp [ht1, IntRes.state]
      · simp only [ht1]
        simp [Interpreter.push, IntRes.state]
  rw [if_neg e23]
  by_cases e24 : oc = opcode.Le
  · rw [if_pos e24]
    rcases hv1 : s.value_stack with _ | ⟨b1, t1⟩
    · simp [Interpreter.pop, hv1, IntRes.state]
    · simp only [Interpreter.pop, hv1]
      rcases ht1 : t1 with _ | ⟨a1, t2⟩
      · simp [ht1, IntRes.state]
      · simp only [ht1]
        simp [Interpreter.push, IntRes.state]
  rw [if_neg e24]
  by_cases e25 : oc = opcode.And
  · rw [if_pos e25]
    rcases hv1 : s.value_stack with _ | ⟨b1, t1⟩
    · simp [Interpreter.pop, hv1, IntRes.state]
    · simp only [Interpreter.pop, hv1]
      rcases ht1 : t1 with _ | ⟨a1, t2⟩
      · simp [ht1, IntRes.state]
      · simp only [ht1]
        simp [Interpreter.push, IntRes.state]
  rw [if_neg e25]
  by_cases e26 : oc = opcode.Or
  · rw [if_pos e26]
    rcases hv1 : s.value_stack with _ | ⟨b1, t1⟩
    · simp [Interpreter.pop, hv1, IntRes.state]
    · simp only [Interpreter.pop, hv1]
      rcases ht1 : t1 with _ | ⟨a1, t2⟩
      · simp [ht1, IntRes.state]
      · simp only [ht1]
        simp [Interpreter.push, IntRes.state]
  rw [if_neg e26]
  by_cases e27 : oc = opcode.Xor
  · rw [if_pos e27]
    rcases hv1 : s.value_stack with _ | ⟨b1, t1⟩
    · simp [Interpreter.pop, hv1, IntRes.state]
    · simp only [Interpreter.pop, hv1]
      rcases ht1 : t1 with _ | ⟨a1, t2⟩
      · simp [ht1, IntRes.state]
      · simp only [ht1]
        simp [Interpreter.push, IntRes.state]
  rw [if_neg e27]
  by_cases e28 : oc = opcode.Shiftl
  · rw [if_pos e28]
    rcases hv1 : s.value_stack with _ | ⟨b1, t1⟩
    · simp [Interpreter.pop, hv1, IntRes.state]
    · simp only [Interpreter.pop, hv1]
      rcases ht1 : t1 with _ | ⟨a1, t2⟩
      · simp [ht1, IntRes.state]
      · simp only [ht1]
        simp [Interpreter.push, IntRes.state]
  rw [if_neg e28]
  by_cases e29 : oc = opcode.Shiftr
  · rw [if_pos e29]
    rcases hv1 : s.value_stack with _ | ⟨b1, t1⟩
    · simp [Interpreter.pop, hv1, IntRes.state]
    · simp only [Interpreter.pop, hv1]
      rcases ht1 : t1 with _ | ⟨a1, t2⟩
      · simp [ht1, IntRes.state]
      · simp only [ht1]
        simp [Interpreter.push, IntRes.state]
  rw [if_neg e29]
  by_cases e30 : oc = opcode.Store8
  · rw [if_pos e30]
    rcases hsg : sliceGet s.memory (u32 (s.pc + 1)) 4 with _ | bs
    · simp [Interpreter.read_store_args, Interpreter.read_imm_u32, Interpreter.read_u32,
        hsg, IntRes.state]
    · simp only [Interpreter.read_store_args, Interpreter.read_imm_u32, Interpreter.read_u32,
        hsg]
      rcases hv1 : s.value_stack with _ | ⟨b1, t1⟩
      · simp [Interpreter.pop, hv1, IntRes.state]
      · simp only [Interpreter.pop, hv1]
        rcases ht1 : t1 with _ | ⟨a1, t2⟩
        · simp [ht1, IntRes.state]
        · simp only [ht1]
          rcases hsb : storeBytes s.memory (u32 (a1 + leVal bs)) [b1 % 256] with _ | m2
          · simp [Interpreter.store_u8, hsb, IntRes.state]
          · simp only [Interpreter.store_u8, hsb]
            simpa [IntRes.state] using storeBytes_length _ _ _ _ hsb
  rw [if_neg e30]
  by_cases e31 : oc = opcode.Store16
  · rw [if_pos e31]
    rcases hsg : sliceGet s.memory (u32 (s.pc + 1)) 4 with _ | bs
    · simp [Interpreter.read_store_args, Interpreter.read_imm_u32, Interpreter.read_u32,
        hsg, IntRes.state]
    · simp only [Interpreter.read_store_args, Interpreter.read_imm_u32, Interpreter.read_u32,
        hsg]
      rcases hv1 : s.value_stack with _ | ⟨b1, t1⟩
      · simp [Interpreter.pop, hv1, IntRes.state]
      · simp only [Interpreter.pop, hv1]
        rcases ht1 : t1 with _ | ⟨a1, t2⟩
        · simp [ht1, IntRes.state]
        · simp only [ht1]
          rcases hsb : storeBytes s.memory (u32 (a1 + leVal bs)) (leBytes 2 (b1 % 65536)) with _ | m2
          · simp [Interpreter.store_u16, hsb, IntRes.state]
          · simp only [Interpreter.store_u16, hsb]
            simpa [IntRes.state] using storeBytes_length _ _ _ _ hsb
  rw [if_neg e31]
  by_cases e32 : oc = opcode.Store32
  · rw [if_pos e32]
    rcases hsg : sliceGet s.memory (u32 (s.pc + 1)) 4 with _ | bs
    · simp [Interpreter.read_store_args, Interpreter.read_imm_u32, Interpreter.read_u32,
        hsg, IntRes.state]
    · simp only [Interpreter.read_store_args, Interpreter.read_imm_u32, Interpreter.read_u32,
        hsg]
      rcases hv1 : s.value_stack with _ | ⟨b1, t1⟩
      · simp [Interpreter.pop, hv1, IntRes.state]
      · simp only [Interpreter.pop, hv1]
        rcases ht1 : t1 with _ | ⟨a1, t2⟩
        · simp [ht1, IntRes.state]
        · simp only [ht1]
          rcases hsb : storeBytes s.memory (u32 (a1 + leVal bs)) (leBytes 4 (u32 b1)) with _ | m2
          · simp [Interpreter.store_u32, hsb, IntRes.state]
          · simp only [Interpreter.store_u32, hsb]
            simpa [IntRes.state] using storeBytes_length _ _ _ _ hsb
  rw [if_neg e32]
  by_cases e33 : oc = opcode.Load8u
  · rw [if_pos e33]
    rcases hsg : sliceGet s.memory (u32 (s.pc + 1)) 4 with _ | bs
    · simp [Interpreter.read_imm_u32, Interpreter.read_u32, hsg, IntRes.state]
    · simp only [Interpreter.read_imm_u32, Interpreter.read_u32, hsg]
      rcases hv1 : s.value_stack with _ | ⟨b1, t1⟩
      · simp [Interpreter.pop, hv1, IntRes.state]
      · simp only [Interpreter.pop, hv1]
        rcases hm1 : s.memory[u32 (leVal bs + b1)]? with _ | v <;>
          simp [Interpreter.read_u8, List.get?_eq_getElem?, hm1, Interpreter.push, IntRes.state]
  rw [if_neg e33]
  by_cases e34 : oc = opcode.Load16u
  · rw [if_pos e34]
    rcases hsg : sliceGet s.memory (u32 (s.pc + 1)) 4 with _ | bs
    · simp [Interpreter.read_imm_u32, Interpreter.read_u32, hsg, IntRes.state]
    · simp only [Interpreter.read_imm_u32, Interpreter.read_u32, hsg]
      rcases hv1 : s.value_stack with _ | ⟨b1, t1⟩
      · simp [Interpreter.pop, hv1, IntRes.state]
      · simp only [Interpreter.pop, hv1]
        rcases hsg2 : sliceGet s.memory (u32 (leVal bs + b1)) 2 with _ | bs2 <;>
          simp [Interpreter.read_u16, hsg2, Interpreter.push, IntRes.state]
  rw [if_neg e34]
  by_cases e35 : oc = opcode.Load32u
  · rw [if_pos e35]
    rcases hsg : sliceGet s.memory (u32 (s.pc + 1)) 4 with _ | bs
    · simp [Interpreter.read_imm_u32, Interpreter.read_u32, hsg, IntRes.state]
    · simp only [Interpreter.read_imm_u32, Interpreter.read_u32, hsg]
      rcases hv1 : s.value_stack with _ | ⟨b1, t1⟩
      · simp [Interpreter.pop, hv1, IntRes.state]
      · simp only [Interpreter.pop, hv1]
        rcases hsg2 : sliceGet s.memory (u32 (leVal bs + b1)) 4 with _ | bs2 <;>
          simp [Interpreter.read_u32, hsg2, Interpreter.push, IntRes.state]
  rw [if_neg e35]
  by_cases e36 : oc = opcode.PushArg
  · rw [if_pos e36]
    by_cases ha : s.args.length ≥ MAX_ARGS
    · rw [if_pos ha]
      simp [IntRes.state]
    · rw [if_neg ha]
      rcases hv1 : s.value_stack with _ | ⟨b1, t1⟩
      · simp [Interpreter.pop, hv1, IntRes.state]
      · simp only [Interpreter.pop, hv1]
        simp [IntRes.state]
  rw [if_neg e36]
  by_cases e37 : oc = opcode.Call
  · rw [if_pos e37]
    rcases hv1 : s.value_stack with _ | ⟨b1, t1⟩
    · simp [Interpreter.pop, hv1, IntRes.state]
    · simp only [Interpreter.pop, hv1]
      by_cases hj : b1 ≥ u32 s.memory.length
      · rw [if_pos hj]
        simp [IntRes.state]
      · rw [if_neg hj]
        rcases hw : writeList (List.replicate MAX_LOCALS 0) s.args with _ | locs
        · simp [Interpreter.create_frame, hw, IntRes.state]
        · simp only [Interpreter.create_frame, hw]
          simp [IntRes.state]
  rw [if_neg e37]
  by_cases e38 : oc = opcode.Return
  · rw [if_pos e38]
    rcases hrs : s.return_stack with _ | ⟨f, rs⟩
    · simp [hrs, IntRes.state]
    · simp only [hrs]
      by_cases hz : f.return_addr = 0
      · rw [if_pos hz]
        simp [IntRes.state]
      · rw [if_neg hz]
        simp [IntRes.state]
  rw [if_neg e38]
  by_cases e39 : oc = opcode.DbgAssert
  · rw [if_pos e39]
    rcases hv1 : s.value_stack with _ | ⟨c1, t1⟩
    · simp [Interpreter.pop_bool, Interpreter.pop, hv1, IntRes.state]
    · simp only [Interpreter.pop_bool, Interpreter.pop, hv1]
      rcases c1 with _ | c2 <;> simp [IntRes.state]
  rw [if_neg e39]
  by_cases e40 : oc = opcode.Syscall
  · rw [if_pos e40]
    rcases hv1 : s.value_stack with _ | ⟨b1, t1⟩
    · simp [Interpreter.pop, hv1, IntRes.state]
    · simp only [Interpreter.pop, hv1]
      simp only [IntRes.state, Interpreter.push]
      exact (hh _ b1 s.args).trans rfl
  rw [if_neg e40]
  simp [IntRes.state]

theorem read_u8_bounds (s : Interpreter) (addr : Nat) :
    ((s.read_u8 addr).isOk = true ↔ addr + 1 ≤ s.memory.length) ∧
    (¬ (addr + 1 ≤ s.memory.length) →
      s.read_u8 addr = .err (.AddrOutOfBounds addr) s) := by
  rcases hg : s.memory.get? addr with _ | b
  · have h1 : s.memory.length ≤ addr := List.get?_eq_none.mp hg
    rw [List.get?_eq_getElem?] at hg
    refine ⟨?_, fun _ => ?_⟩
    · simp [Interpreter.read_u8, List.get?_eq_getElem?, hg, IntRes.isOk]
      omega
    · simp [Interpreter.read_u8, List.get?_eq_getElem?, hg]
  · have h2 : addr < s.memory.length := by
      by_contra hc
      rw [List.get?_eq_none.mpr (by omega)] at hg
      simp at hg
    rw [List.get?_eq_getElem?] at hg
    refine ⟨?_, fun hcon => absurd h2 (by omega)⟩
    simp [Interpreter.read_u8, List.get?_eq_getElem?, hg, IntRes.isOk]
    omega

theorem read_u16_bounds (s : Interpreter) (addr : Nat) :
    ((s.read_u16 addr).isOk = true ↔ addr + 2 ≤ s.memory.length) ∧
    (¬ (addr + 2 ≤ s.memory.length) →
      s.read_u16 addr = .err (.AddrOutOfBounds addr) s) := by
  have hiff := sliceGet_isSome s.memory addr 2
  rcases hsg : sliceGet s.memory addr 2 with _ | bs <;> rw [hsg] at hiff
  · have h1 : ¬ (addr + 2 ≤ s.memory.length) := by simpa using hiff
    refine ⟨?_, fun _ => ?_⟩
    · simp [Interpreter.read_u16, hsg, IntRes.isOk, h1]
    · simp [Interpreter.read_u16, hsg]
  · have h2 : addr + 2 ≤ s.memory.length := by simpa using hiff
    refine ⟨?_, fun hcon => absurd h2 hcon⟩
    simp [Interpreter.read_u16, hsg, IntRes.isOk, h2]

theorem read_u32_bounds (s : Interpreter) (addr : Nat) :
    ((s.read_u32 addr).isOk = true ↔ addr + 4 ≤ s.memory.length) ∧
    (¬ (addr + 4 ≤ s.memory.length) →
      s.read_u32 addr = .err (.AddrOutOfBounds addr) s) := by
  have hiff := sliceGet_isSome s.memory addr 4
  rcases hsg : sliceGet s.memory addr 4 with _ | bs <;> rw [hsg] at hiff
  · have h1 : ¬ (addr + 4 ≤ s.memory.length) := by simpa using hiff
    refine ⟨?_, fun _ => ?_⟩
    · simp [Interpreter.read_u32, hsg, IntRes.isOk, h1]
    · simp [Interpreter.read_u32, hsg]
  · have h2 : addr + 4 ≤ s.memory.length := by simpa using hiff
    refine ⟨?_, fun hcon => absurd h2 hcon⟩
    simp [Interpreter.read_u32, hsg, IntRes.isOk, h2]

theorem store_u8_bounds (s : Interpreter) (addr v : Nat) :
    ((s.store_u8 addr v).isOk = true ↔ addr + 1 ≤ s.memory.length) ∧
    (¬ (addr + 1 ≤ s.memory.length) →
      s.store_u8 addr v = .err (.AddrOutOfBounds addr) s) ∧
    ((s.store_u8 addr v).state.memory.length = s.memory.length) := by
  have hiff := storeBytes_isSome s.memory addr [v]
  rcases hsb : storeBytes s.memory addr [v] with _ | m2 <;> rw [hsb] at hiff
  · have h1 : ¬ (addr + 1 ≤ s.memory.length) := by simpa using hiff
    refine ⟨?_, fun _ => ?_, ?_⟩
    · simp [Interpreter.store_u8, hsb, IntRes.isOk, h1]
    · simp [Interpreter.store_u8, hsb]
    · simp [Interpreter.store_u8, hsb, IntRes.state]
  · have h2 : addr + 1 ≤ s.memory.length := by simpa using hiff
    refine ⟨?_, fun hcon => absurd h2 hcon, ?_⟩
    · simp [Interpreter.store_u8, hsb, IntRes.isOk, h2]
    · simp only [Interpreter.store_u8, hsb]
      simpa [IntRes.state] using storeBytes_length _ _ _ _ hsb

theorem store_u16_bounds (s : Interpreter) (addr v : Nat) :
    ((s.store_u16 addr v).isOk = true ↔ addr + 2 ≤ s.memory.length) ∧
    (¬ (addr + 2 ≤ s.memory.length) →
      s.store_u16 addr v = .err (.AddrOutOfBounds addr) s) ∧
    ((s.store_u16 addr v).state.memory.length = s.memory.length) := by
  have hiff := storeBytes_isSome s.memory addr (leBytes 2 v)
  rcases hsb : storeBytes s.memory addr (leBytes 2 v) with _ | m2 <;> rw [hsb] at hiff
  · have h1 : ¬ (addr + 2 ≤ s.memory.length) := by
      simpa [leBytes_length] using hiff
    refine ⟨?_, fun _ => ?_, ?_⟩
    · simp [Interpreter.store_u16, hsb, IntRes.isOk, h1]
    · simp [Interpreter.store_u16, hsb]
    · simp [Interpreter.store_u16, hsb, IntRes.state]
  · have h2 : addr + 2 ≤ s.memory.length := by
      simpa [leBytes_length] using hiff
    refine ⟨?_, fun hcon => absurd h2 hcon, ?_⟩
    · simp [Interpreter.store_u16, hsb, IntRes.isOk, h2]
    · simp only [Interpreter.store_u16, hsb]
      simpa [IntRes.state] using storeBytes_length _ _ _ _ hsb

theorem store_u32_bounds (s : Interpreter) (addr v : Nat) :
    ((s.store_u32 addr v).isOk = true ↔ addr + 4 ≤ s.memory.length) ∧
    (¬ (addr + 4 ≤ s.memory.length) →
      s.store_u32 addr v = .err (.AddrOutOfBounds addr) s) ∧
    ((s.store_u32 addr v).state.memory.length = s.memory.length) := by
  have hiff := storeBytes_isSome s.memory addr (leBytes 4 v)
  rcases hsb : storeBytes s.memory addr (leBytes 4 v) with _ | m2 <;> rw [hsb] at hiff
  · have h1 : ¬ (addr + 4 ≤ s.memory.length) := by
      simpa [leBytes_length] using hiff
    refine ⟨?_, fun _ => ?_, ?_⟩
    · simp [Interpreter.store_u32, hsb, IntRes.isOk, h1]
    · simp [Interpreter.store_u32, hsb]
    · simp [Interpreter.store_u32, hsb, IntRes.state]
  · have h2 : addr + 4 ≤ s.memory.length := by
      simpa [leBytes_length] using hiff
    refine ⟨?_, fun hcon => absurd h2 hcon, ?_⟩
    · simp [Interpreter.store_u32, hsb, IntRes.isOk, h2]
    · simp only [Interpreter.store_u32, hsb]
      simpa [IntRes.state] using storeBytes_length _ _ _ _ hsb

/-- C3: every memory access of the interpreter goes through the checked
helpers, which succeed exactly when `[addr, addr + width)` lies inside
`memory` and otherwise fail with `AddrOutOfBounds addr` leaving the state
untouched; a successful store keeps the memory length; and one dispatch
step (`exec_next_op`) never changes the memory length — whatever the
opcode and whatever the outcome — provided the host syscall handler keeps
it, so no executed program can read or write a byte outside `memory`. -/
theorem c3_memory_access_bounds_checked :
    (∀ (s : Interpreter) (addr : Nat),
      ((s.read_u8 addr).isOk = true ↔ addr + 1 ≤ s.memory.length) ∧
      ((s.read_u16 addr).isOk = true ↔ addr + 2 ≤ s.memory.length) ∧
      ((s.read_u32 addr).isOk = true ↔ addr + 4 ≤ s.memory.length) ∧
      (¬ (addr + 1 ≤ s.memory.length) →
        s.read_u8 addr = .err (.AddrOutOfBounds addr) s) ∧
      (¬ (addr + 2 ≤ s.memory.length) →
        s.read_u16 addr = .err (.AddrOutOfBounds addr) s) ∧
      (¬ (addr + 4 ≤ s.memory.length) →
        s.read_u32 addr = .err (.AddrOutOfBounds addr) s)) ∧
    (∀ (s : Interpreter) (addr v : Nat),
      ((s.store_u8 addr v).isOk = true ↔ addr + 1 ≤ s.memory.length) ∧
      ((s.store_u16 addr v).isOk = true ↔ addr + 2 ≤ s.memory.length) ∧
      ((s.store_u32 addr v).isOk = true ↔ addr + 4 ≤ s.memory.length) ∧
      (¬ (addr + 1 ≤ s.memory.length) →
        s.store_u8 addr v = .err (.AddrOutOfBounds addr) s) ∧
      (¬ (addr + 2 ≤ s.memory.length) →
        s.store_u16 addr v = .err (.AddrOutOfBounds addr) s) ∧
      (¬ (addr + 4 ≤ s.memory.length) →
        s.store_u32 addr v = .err (.AddrOutOfBounds addr) s) ∧
      ((s.store_u8 addr v).state.memory.length = s.memory.length) ∧
      ((s.store_u16 addr v).state.memory.length = s.memory.length) ∧
      ((s.store_u32 addr v).state.memory.length = s.memory.length)) ∧
    (∀ (h : SyscallHandler) (s : Interpreter), HandlerPreservesMemLen h →
      ((s.exec_next_op h).state).memory.length = s.memory.length) :=
  ⟨fun s addr =>
    ⟨(read_u8_bounds s addr).1, (read_u16_bounds s addr).1, (read_u32_bounds s addr).1,
     (read_u8_bounds s addr).2, (read_u16_bounds s addr).2, (read_u32_bounds s addr).2⟩,
   fun s addr v =>
    ⟨(store_u8_bounds s addr v).1, (store_u16_bounds s addr v).1,
     (store_u32_bounds s addr v).1, (store_u8_bounds s addr v).2.1,
     (store_u16_bounds s addr v).2.1, (store_u32_bounds s addr v).2.1,
     (store_u8_bounds s addr v).2.2, (store_u16_bounds s addr v).2.2,
     (store_u32_bounds s addr v).2.2⟩,
   fun h s hh => exec_next_op_memLen h s hh⟩

/-- Witness for C3 at a concrete state: an out-of-range `read_u32` fails
with `AddrOutOfBounds`, and one `nop` step under the dummy handler leaves
the 1-byte memory's length unchanged. -/
theorem c3_memory_access_bounds_checked_witness :
    ((({ Interpreter.default with memory := [opcode.Nop] } : Interpreter).exec_next_op
        dummyHandler).state).memory.length
      = ({ Interpreter.default with memory := [opcode.Nop] } : Interpreter).memory.length :=
  c3_memory_access_bounds_checked.2.2 dummyHandler
    { Interpreter.default with memory := [opcode.Nop] }
    (fun _ _ _ => rfl)

/-! ## C4: assembler output decodes as instruction_count ops (amended, general) -/

/-- Opcode bytes the assembler can emit with no operand (note `0x2c` is
never emitted: the `extend_8_32_s` mnemonic maps to `0x2d`). -/
def noArgEmitted : List Nat :=
  [0x01, 0x02, 0x03, 0x05, 0x06, 0x07, 0x08, 0x10, 0x11, 0x12, 0x13, 0x14,
   0x15, 0x16, 0x17, 0x18, 0x19, 0x1a, 0x1b, 0x1c, 0x1d, 0x1e, 0x1f, 0x20,
   0x21, 0x22, 0x2d, 0x2e, 0x2f, 0x30, 0x31, 0x32]

/-- Opcode bytes the assembler emits with a one-byte register operand. -/
def regEmitted : List Nat := [0x09, 0x0a, 0x0b, 0x0c, 0x0e, 0x0f]

/-- Opcode bytes the assembler emits with a four-byte numeric operand. -/
def numEmitted : List Nat :=
  [0x04, 0x23, 0x24, 0x25, 0x26, 0x27, 0x28, 0x29, 0x2a, 0x2b]

def goodOp (o : AsmOp) : Prop :=
  (o.opcode ∈ noArgEmitted ∧ o.arg = none) ∨
  (o.opcode ∈ regEmitted ∧ ∃ k, o.arg = some (.Register k)) ∨
  (o.opcode ∈ numEmitted ∧ ∃ a, o.arg = some a ∧ ∀ k, a ≠ .Register k)

def goodRaw (r : RawOp) : Prop :=
  (r.opcode ∈ noArgEmitted ∧ r.arg = none) ∨
  (r.opcode ∈ regEmitted ∧ ∃ k, r.arg = some (.Register k)) ∨
  (r.opcode ∈ numEmitted ∧ ∃ n, r.arg = some (.Num n))

def goodElem : Elem → Prop
  | .Op o => goodOp o
  | .Const a => ∀ k, a ≠ ArgType.Register k
  | .Label _ => True

/-- Ops and consts both count as one emitted instruction. -/
def countOps : List Elem → Nat
  | [] => 0
  | .Op _ :: t => countOps t + 1
  | .Const _ :: t => countOps t + 1
  | .Label _ :: t => countOps t

theorem parse_arg_not_register (p : Parser) (s : List Char) (a : ArgType)
    (h : p.parse_arg s = .ok a) : ∀ k, a ≠ .Register k := by
  rcases s with _ | ⟨c, t⟩
  · simp [Parser.parse_arg] at h
  · simp only [Parser.parse_arg] at h
    by_cases h1 : c = '@'
    · rw [if_pos h1] at h
      cases h
      intro k hk
      cases hk
    · rw [if_neg h1] at h
      by_cases h2 : c = '.'
      · rw [if_pos h2] at h
        cases h
        intro k hk
        cases hk
      · rw [if_neg h2] at h
        rcases hi : p.parse_i32 (c :: t) with n | e | _ | _ <;> rw [hi] at h <;>
          try simp at h
        cases h
        intro k hk
        cases hk

theorem arg_register_register (p : Parser) (args rest : List (List Char))
    (a : ArgType) (h : p.arg_register args = .ok (a, rest)) :
    ∃ k, a = .Register k := by
  rcases args with _ | ⟨s0, args'⟩
  · simp [Parser.arg_register] at h
  · simp only [Parser.arg_register] at h
    rcases hpa : p.parse_arg s0 with a0 | e | _ | _ <;> simp only [hpa] at h <;>
      try simp at h
    rcases a0 with l | l | n | k <;> try simp at h
    by_cases hr : 0 ≤ n ∧ n < 255
    · rw [if_pos hr] at h
      simp only [AsmRes.ok.injEq, Prod.mk.injEq] at h
      exact ⟨n.toNat, h.1.symm⟩
    · rw [if_neg hr] at h
      simp at h

theorem arg_const_not_register (p : Parser) (args rest : List (List Char))
    (a : ArgType) (h : p.arg_const args = .ok (a, rest)) :
    ∀ k, a ≠ .Register k := by
  rcases args with _ | ⟨s0, args'⟩
  · simp [Parser.arg_const] at h
  · simp only [Parser.arg_const] at h
    rcases hpa : p.parse_arg s0 with a0 | e | _ | _ <;> simp only [hpa] at h <;>
      try simp at h
    rcases h with ⟨rfl, rfl⟩
    exact parse_arg_not_register p s0 a0 hpa

theorem withArg_register_good (p : Parser) (args : List (List Char))
    (oc0 oc : Nat) (arg : Option ArgType) (rem : List (List Char))
    (hmem : oc0 ∈ regEmitted)
    (h : withArg oc0 (p.arg_register args) = .ok (oc, arg, rem)) :
    goodOp ⟨oc, arg⟩ := by
  unfold withArg at h
  rcases har : p.arg_register args with ⟨a, rest⟩ | e | _ | _ <;>
    simp only [har] at h <;> try simp at h
  rcases h with ⟨rfl, rfl, rfl⟩
  obtain ⟨k, rfl⟩ := arg_register_register p args rest a har
  exact Or.inr (Or.inl ⟨hmem, k, rfl⟩)

theorem withArg_const_good (p : Parser) (args : List (List Char))
    (oc0 oc : Nat) (arg : Option ArgType) (rem : List (List Char))
    (hmem : oc0 ∈ numEmitted)
    (h : withArg oc0 (p.arg_const args) = .ok (oc, arg, rem)) :
    goodOp ⟨oc, arg⟩ := by
  unfold withArg at h
  rcases har : p.arg_const args with ⟨a, rest⟩ | e | _ | _ <;>
    simp only [har] at h <;> try simp at h
  rcases h with ⟨rfl, rfl, rfl⟩
  exact Or.inr (Or.inr ⟨hmem, a, rfl, arg_const_not_register p args rest a har⟩)

theorem mnemonic_good (p : Parser) (name : List Char) (args : List (List Char))
    (oc : Nat) (arg : Option ArgType) (rem : List (List Char))
    (h : p.mnemonic name args = .ok (oc, arg, rem)) : goodOp ⟨oc, arg⟩ := by
  unfold Parser.mnemonic at h
  by_cases e1 : name = "nop".toList
  case pos => rw [if_pos e1] at h; cases h; exact Or.inl ⟨by decide, rfl⟩
  rw [if_neg e1] at h
  by_cases e2 : name = "unreachable".toList
  case pos => rw [if_pos e2] at h; cases h; exact Or.inl ⟨by decide, rfl⟩
  rw [if_neg e2] at h
  by_cases e3 : name = "drop".toList
  case pos => rw [if_pos e3] at h; cases h; exact Or.inl ⟨by decide, rfl⟩
  rw [if_neg e3] at h
  by_cases e4 : name = "const".toList
  case pos => rw [if_pos e4] at h; exact withArg_const_good _ _ _ _ _ _ (by decide) h
  rw [if_neg e4] at h
  by_cases e5 : name = "jmp".toList
  case pos => rw [if_pos e5] at h; cases h; exact Or.inl ⟨by decide, rfl⟩
  rw [if_neg e5] at h
  by_cases e6 : name = "jmp_if".toList
  case pos => rw [if_pos e6] at h; cases h; exact Or.inl ⟨by decide, rfl⟩
  rw [if_neg e6] at h
  by_cases e7 : name = "branch".toList
  case pos => rw [if_pos e7] at h; cases h; exact Or.inl ⟨by decide, rfl⟩
  rw [if_neg e7] at h
  by_cases e8 : name = "branch_if".toList
  case pos => rw [if_pos e8] at h; cases h; exact Or.inl ⟨by decide, rfl⟩
  rw [if_neg e8] at h
  by_cases e9 : name = "local_get".toList
  case pos => rw [if_pos e9] at h; exact withArg_register_good _ _ _ _ _ _ (by decide) h
  rw [if_neg e9] at h
  by_cases e10 : name = "local_set".toList
  case pos => rw [if_pos e10] at h; exact withArg_register_good _ _ _ _ _ _ (by decide) h
  rw [if_neg e10] at h
  by_cases e11 : name = "local_tee".toList
  case pos => rw [if_pos e11] at h; exact withArg_register_good _ _ _ _ _ _ (by decide) h
  rw [if_neg e11] at h
  by_cases e12 : name = "global_get".toList
  case pos => rw [if_pos e12] at h; exact withArg_register_good _ _ _ _ _ _ (by decide) h
  rw [if_neg e12] at h
  by_cases e13 : name = "global_set".toList
  case pos => rw [if_pos e13] at h; exact withArg_register_good _ _ _ _ _ _ (by decide) h
  rw [if_neg e13] at h
  by_cases e14 : name = "global_tee".toList
  case pos => rw [if_pos e14] at h; exact withArg_register_good _ _ _ _ _ _ (by decide) h
  rw [if_neg e14] at h
  by_cases e15 : name = "eq".toList
  case pos => rw [if_pos e15] at h; cases h; exact Or.inl ⟨by decide, rfl⟩
  rw [if_neg e15] at h
  by_cases e16 : name = "eqz".toList
  case pos => rw [if_pos e16] at h; cases h; exact Or.inl ⟨by decide, rfl⟩
  rw [if_neg e16] at h
  by_cases e17 : name = "add".toList
  case pos => rw [if_pos e17] at h; cases h; exact Or.inl ⟨by decide, rfl⟩
  rw [if_neg e17] at h
  by_cases e18 : name = "sub".toList
  case pos => rw [if_pos e18] at h; cases h; exact Or.inl ⟨by decide, rfl⟩
  rw [if_neg e18] at h
  by_cases e19 : name = "div_s".toList
  case pos => rw [if_pos e19] at h; cases h; exact Or.inl ⟨by decide, rfl⟩
  rw [if_neg e19] at h
  by_cases e20 : name = "div_u".toList
  case pos => rw [if_pos e20] at h; cases h; exact Or.inl ⟨by decide, rfl⟩
  rw [if_neg e20] at h
  by_cases e21 : name = "mul".toList
  case pos => rw [if_pos e21] at h; cases h; exact Or.inl ⟨by decide, rfl⟩
  rw [if_neg e21] at h
  by_cases e22 : name = "neg".toList
  case pos => rw [if_pos e22] at h; cases h; exact Or.inl ⟨by decide, rfl⟩
  rw [if_neg e22] at h
  by_cases e23 : name = "gt".toList
  case pos => rw [if_pos e23] at h; cases h; exact Or.inl ⟨by decide, rfl⟩
  rw [if_neg e23] at h
  by_cases e24 : name = "lt".toList
  case pos => rw [if_pos e24] at h; cases h; exact Or.inl ⟨by decide, rfl⟩
  rw [if_neg e24] at h
  by_cases e25 : name = "ge".toList
  case pos => rw [if_pos e25] at h; cases h; exact Or.inl ⟨by decide, rfl⟩
  rw [if_neg e25] at h
  by_cases e26 : name = "le".toList
  case pos => rw [if_pos e26] at h; cases h; exact Or.inl ⟨by decide, rfl⟩
  rw [if_neg e26] at h
  by_cases e27 : name = "shiftr".toList
  case pos => rw [if_pos e27] at h; cases h; exact Or.inl ⟨by decide, rfl⟩
  rw [if_neg e27] at h
  by_cases e28 : name = "shiftl".toList
  case pos => rw [if_pos e28] at h; cases h; exact Or.inl ⟨by decide, rfl⟩
  rw [if_neg e28] at h
  by_cases e29 : name = "call".toList
  case pos => rw [if_pos e29] at h; cases h; exact Or.inl ⟨by decide, rfl⟩
  rw [if_neg e29] at h
  by_cases e30 : name = "return".toList
  case pos => rw [if_pos e30] at h; cases h; exact Or.inl ⟨by decide, rfl⟩
  rw [if_neg e30] at h
  by_cases e31 : name = "store_8".toList
  case pos => rw [if_pos e31] at h; exact withArg_const_good _ _ _ _ _ _ (by decide) h
  rw [if_neg e31] at h
  by_cases e32 : name = "store_16".toList
  case pos => rw [if_pos e32] at h; exact withArg_const_good _ _ _ _ _ _ (by decide) h
  rw [if_neg e32] at h
  by_cases e33 : name = "store_32".toList
  case pos => rw [if_pos e33] at h; exact withArg_const_good _ _ _ _ _ _ (by decide) h
  rw [if_neg e33] at h
  by_cases e34 : name = "load_8_u".toList
  case pos => rw [if_pos e34] at h; exact withArg_const_good _ _ _ _ _ _ (by decide) h
  rw [if_neg e34] at h
  by_cases e35 : name = "load_8_s".toList
  case pos => rw [if_pos e35] at h; exact withArg_const_good _ _ _ _ _ _ (by decide) h
  rw [if_neg e35] at h
  by_cases e36 : name = "load_16_s".toList
  case pos => rw [if_pos e36] at h; exact withArg_const_good _ _ _ _ _ _ (by decide) h
  rw [if_neg e36] at h
  by_cases e37 : name = "load_16_u".toList
  case pos => rw [if_pos e37] at h; exact withArg_const_good _ _ _ _ _ _ (by decide) h
  rw [if_neg e37] at h
  by_cases e38 : name = "load_32_s".toList
  case pos => rw [if_pos e38] at h; exact withArg_const_good _ _ _ _ _ _ (by decide) h
  rw [if_neg e38] at h
  by_cases e39 : name = "load_32_u".toList
  case pos => rw [if_pos e39] at h; exact withArg_const_good _ _ _ _ _ _ (by decide) h
  rw [if_neg e39] at h
  by_cases e40 : name = "extend_8_32_s".toList
  case pos => rw [if_pos e40] at h; cases h; exact Or.inl ⟨by decide, rfl⟩
  rw [if_neg e40] at h
  by_cases e41 : name = "extend_16_32_s".toList
  case pos => rw [if_pos e41] at h; cases h; exact Or.inl ⟨by decide, rfl⟩
  rw [if_neg e41] at h
  by_cases e42 : name = "extend_8_32_u".toList
  case pos => rw [if_pos e42] at h; cases h; exact Or.inl ⟨by decide, rfl⟩
  rw [if_neg e42] at h
  by_cases e43 : name = "extend_16_32_u".toList
  case pos => rw [if_pos e43] at h; cases h; exact Or.inl ⟨by decide, rfl⟩
  rw [if_neg e43] at h
  by_cases e44 : name = "end".toList
  case pos => rw [if_pos e44] at h; cases h; exact Or.inl ⟨by decide, rfl⟩
  rw [if_neg e44] at h
  by_cases e45 : name = "push_arg".toList
  case pos => rw [if_pos e45] at h; cases h; exact Or.inl ⟨by decide, rfl⟩
  rw [if_neg e45] at h
  by_cases e46 : name = "dbg_assert".toList
  case pos => rw [if_pos e46] at h; cases h; exact Or.inl ⟨by decide, rfl⟩
  rw [if_neg e46] at h
  simp at h

theorem parse_op_good (p : Parser) (s : List Char) (o : AsmOp)
    (rest : Option (List Char)) (h : p.parse_op s = .ok (o, rest)) :
    goodOp o := by
  unfold Parser.parse_op at h
  rcases hsl : p.slice_until s STATEMENT_SEP with ⟨word, rest0⟩ | e | _ | _ <;>
    simp only [hsl] at h <;> try simp at h
  rcases hit : iter_op_args word with _ | ⟨nm, args⟩ <;>
    simp only [hit] at h <;> try simp at h
  rcases hm : p.mnemonic nm args with ⟨oc, arg, remaining⟩ | e | _ | _ <;>
    simp only [hm] at h <;> try simp at h
  rcases remaining with _ | ⟨x, xs⟩ <;> try simp at h
  rcases h with ⟨rfl, rfl⟩
  exact mnemonic_good p nm args oc arg [] hm

theorem from_arg_type_num (a : ArgType) (p : Parser) (ra : RawArg)
    (hnr : ∀ k, a ≠ .Register k)
    (h : RawArg.from_arg_type a p = .ok ra) : ∃ n, ra = .Num n := by
  rcases a with l | l | n | k
  · unfold RawArg.from_arg_type at h
    rcases hg : p.get_abs_label_addr l with i | e | _ | _ <;>
      simp only [hg] at h <;> try simp at h
    exact ⟨_, h.symm⟩
  · unfold RawArg.from_arg_type at h
    rcases hg : p.get_off_label_addr l with i | e | _ | _ <;>
      simp only [hg] at h <;> try simp at h
    exact ⟨_, h.symm⟩
  · cases h
    exact ⟨_, rfl⟩
  · exact absurd rfl (hnr k)

theorem from_op_good (o : AsmOp) (p : Parser) (r : RawOp)
    (hg : goodOp o) (h : RawOp.from_op o p = .ok r) : goodRaw r := by
  unfold RawOp.from_op at h
  rcases ha : o.arg with _ | a <;> simp only [ha] at h
  · cases h
    rcases hg with ⟨hm, _⟩ | ⟨_, k, hk⟩ | ⟨_, a, hk, _⟩
    · exact Or.inl ⟨hm, rfl⟩
    · rw [ha] at hk; cases hk
    · rw [ha] at hk; cases hk
  · rcases hf : RawArg.from_arg_type a p with ra | e | _ | _ <;>
      simp only [hf] at h <;> try simp at h
    cases h
    rcases hg with ⟨_, hnone⟩ | ⟨hm, k, hk⟩ | ⟨hm, a', hk, hnr⟩
    · rw [ha] at hnone; cases hnone
    · rw [ha] at hk
      cases hk
      cases hf
      exact Or.inr (Or.inl ⟨hm, k, rfl⟩)
    · rw [ha] at hk
      cases hk
      obtain ⟨n, rfl⟩ := from_arg_type_num a p ra hnr hf
      exact Or.inr (Or.inr ⟨hm, n, rfl⟩)

theorem parse_ops_good (p : Parser) (elems : List Elem) (ops : List RawOp)
    (h : Parser.parse_ops p elems = .ok ops) (hg : ∀ e ∈ elems, goodElem e) :
    (∀ r ∈ ops, goodRaw r) ∧ ops.length = countOps elems := by
  induction elems generalizing ops with
  | nil =>
    simp only [Parser.parse_ops] at h
    cases h
    exact ⟨by simp, rfl⟩
  | cons e t ih =>
    rcases e with o | a | l
    · simp only [Parser.parse_ops] at h
      rcases hfo : RawOp.from_op o p with r | e1 | _ | _ <;>
        simp only [hfo] at h <;> try simp at h
      rcases hpo : Parser.parse_ops p t with rs | e1 | _ | _ <;>
        simp only [hpo] at h <;> try simp at h
      cases h
      have hgo : goodOp o := hg (Elem.Op o) (by simp)
      obtain ⟨h1, h2⟩ := ih rs hpo (fun e he => hg e (by simp [he]))
      refine ⟨?_, by simp [countOps, h2]⟩
      intro r2 hr2
      rcases List.mem_cons.mp hr2 with rfl | hmem
      · exact from_op_good o p r2 hgo hfo
      · exact h1 r2 hmem
    · simp only [Parser.parse_ops] at h
      rcases hfa : RawArg.from_arg_type a p with ra | e1 | _ | _ <;>
        simp only [hfa] at h <;> try simp at h
      rcases hpo : Parser.parse_ops p t with rs | e1 | _ | _ <;>
        simp only [hpo] at h <;> try simp at h
      cases h
      have hnr : ∀ k, a ≠ ArgType.Register k := hg (Elem.Const a) (by simp)
      obtain ⟨h1, h2⟩ := ih rs hpo (fun e he => hg e (by simp [he]))
      refine ⟨?_, by simp [countOps, h2]⟩
      intro r2 hr2
      rcases List.mem_cons.mp hr2 with rfl | hmem
      · obtain ⟨n, rfl⟩ := from_arg_type_num a p ra hnr hfa
        refine Or.inr (Or.inr ⟨?_, n, rfl⟩)
        simp [numEmitted]
      · exact h1 r2 hmem
    · simp only [Parser.parse_ops] at h
      obtain ⟨h1, h2⟩ := ih ops h (fun e he => hg e (by simp [he]))
      exact ⟨h1, by simp [countOps, h2]⟩

theorem countOps_append_op (xs : List Elem) (o : AsmOp) :
    countOps (xs ++ [.Op o]) = countOps xs + 1 := by
  induction xs with
  | nil => rfl
  | cons e t ih => rcases e with _ | _ | _ <;> simp [countOps, ih]

theorem countOps_append_const (xs : List Elem) (a : ArgType) :
    countOps (xs ++ [.Const a]) = countOps xs + 1 := by
  induction xs with
  | nil => rfl
  | cons e t ih => rcases e with _ | _ | _ <;> simp [countOps, ih]

theorem countOps_append_label (xs : List Elem) (l : Nat) :
    countOps (xs ++ [.Label l]) = countOps xs := by
  induction xs with
  | nil => rfl
  | cons e t ih => rcases e with _ | _ | _ <;> simp [countOps, ih]

theorem skip_whitespace_op_count (p : Parser) (r : List Char) :
    (p.skip_whitespace r).1.op_count = p.op_count := by
  induction r generalizing p with
  | nil => rfl
  | cons c t ih =>
    simp only [Parser.skip_whitespace]
    by_cases h1 : c = '\r' ∨ c = ' '
    · rw [if_pos h1]
      exact ih p
    · rw [if_neg h1]
      by_cases h2 : c = '\n'
      · rw [if_pos h2]
        exact ih _
      · rw [if_neg h2]

theorem parseElemsStep_broke (p : Parser) (elems : List Elem)
    (rest : Option (List Char)) (p' : Parser) (e' : List Elem)
    (h : parseElemsStep p elems rest = .broke p' e') :
    p' = p ∧ e' = elems := by
  rcases rest with _ | r
  · simp only [parseElemsStep] at h
    cases h
    exact ⟨rfl, rfl⟩
  · rcases r with _ | ⟨c, t⟩ <;> simp only [parseElemsStep] at h
    · cases h
      exact ⟨rfl, rfl⟩
    · by_cases h1 : c = '\n' ∨ c = '\r' ∨ c = ' '
      · rw [if_pos h1] at h
        cases h
      · rw [if_neg h1] at h
        by_cases h2 : c = '#'
        · rw [if_pos h2] at h
          rcases hsl : p.slice_until ((c :: t).drop 1) STATEMENT_SEP with
            ⟨w, sr⟩ | e | _ | _ <;> simp only [hsl] at h <;> try cases h
          rcases hpa : p.parse_arg w with a | e | _ | _ <;> simp only [hpa] at h <;>
            cases h
        · rw [if_neg h2] at h
          by_cases h3 : c = '*'
          · rw [if_pos h3] at h
            cases h
          · rw [if_neg h3] at h
            by_cases h4 : c = ':'
            · rw [if_pos h4] at h
              rcases hpl : p.parse_label ((c :: t).drop 1) with
                ⟨lab, lr⟩ | e | _ | _ <;> simp only [hpl] at h <;> try cases h
              rcases hpu : p.try_push_label lab.name (u32 lab.position) with
                ⟨p2, id⟩ | e | _ | _ <;> simp only [hpu] at h <;> cases h
            · rw [if_neg h4] at h
              rcases hpo : p.parse_op (c :: t) with ⟨op, orr⟩ | e | _ | _ <;>
                simp only [hpo] at h <;> cases h

theorem parseElemsStep_inv (p : Parser) (elems : List Elem)
    (rest : Option (List Char)) (p' : Parser) (e' : List Elem)
    (r' : Option (List Char))
    (h : parseElemsStep p elems rest = .continu p' e' r')
    (hg : ∀ e ∈ elems, goodElem e) (hc : p.op_count = countOps elems) :
    (∀ e ∈ e', goodElem e) ∧ p'.op_count = countOps e' := by
  rcases rest with _ | r
  · simp only [parseElemsStep] at h
    cases h
  · rcases r with _ | ⟨c, t⟩ <;> simp only [parseElemsStep] at h
    · cases h
    · by_cases h1 : c = '\n' ∨ c = '\r' ∨ c = ' '
      · rw [if_pos h1] at h
        cases h
        exact ⟨hg, (skip_whitespace_op_count p (c :: t)).trans hc⟩
      · rw [if_neg h1] at h
        by_cases h2 : c = '#'
        · rw [if_pos h2] at h
          rcases hsl : p.slice_until ((c :: t).drop 1) STATEMENT_SEP with
            ⟨w, sr⟩ | e | _ | _ <;> simp only [hsl] at h <;> try cases h
          rcases hpa : p.parse_arg w with a | e | _ | _ <;> simp only [hpa] at h <;>
            try cases h
          refine ⟨?_, by simp [countOps_append_const, hc]⟩
          intro e he
          rcases List.mem_append.mp he with hmem | hmem
          · exact hg e hmem
          · simp at hmem
            subst hmem
            exact parse_arg_not_register p w a hpa
        · rw [if_neg h2] at h
          by_cases h3 : c = '*'
          · rw [if_pos h3] at h
            cases h
            exact ⟨hg, hc⟩
          · rw [if_neg h3] at h
            by_cases h4 : c = ':'
            · rw [if_pos h4] at h
              rcases hpl : p.parse_label ((c :: t).drop 1) with
                ⟨lab, lr⟩ | e | _ | _ <;> simp only [hpl] at h <;> try cases h
              rcases hpu : p.try_push_label lab.name (u32 lab.position) with
                ⟨p2, id⟩ | e | _ | _ <;> simp only [hpu] at h
              · have hcnt : p2.op_count = p.op_count := by
                  unfold Parser.try_push_label at hpu
                  rcases hlk : lookupLabel p.labels lab.name with _ | v <;>
                    simp only [hlk] at hpu <;> cases hpu
                  rfl
                cases h
                refine ⟨?_, by simp [countOps_append_label, hcnt, hc]⟩
                intro e he
                rcases List.mem_append.mp he with hmem | hmem
                · exact hg e hmem
                · simp at hmem
                  subst hmem
                  exact trivial
              · cases h
              · cases h
              · cases h
            · rw [if_neg h4] at h
              rcases hpo : p.parse_op (c :: t) with ⟨op, orr⟩ | e | _ | _ <;>
                simp only [hpo] at h <;> try cases h
              refine ⟨?_, by simp [countOps_append_op, hc]⟩
              intro e he
              rcases List.mem_append.mp he with hmem | hmem
              · exact hg e hmem
              · simp at hmem
                subst hmem
                exact parse_op_good p (c :: t) op _ hpo

theorem parseElemsFuel_inv (n : Nat) :
    ∀ (p : Parser) (elems : List Elem) (rest : Option (List Char))
      (p' : Parser) (e' : List Elem),
      parseElemsFuel n p elems rest = .ok (p', e') →
      (∀ e ∈ elems, goodElem e) → p.op_count = countOps elems →
      (∀ e ∈ e', goodElem e) ∧ p'.op_count = countOps e' := by
  induction n with
  | zero => intro p elems rest p' e' h; simp [parseElemsFuel] at h
  | succ n ih =>
    intro p elems rest p' e' h hg hc
    simp only [parseElemsFuel] at h
    rcases hstep : parseElemsStep p elems rest with ⟨p2, e2, r2⟩ | ⟨p2, e2⟩ | e | _ <;>
      simp only [hstep] at h <;> try cases h
    · obtain ⟨hg2, hc2⟩ := parseElemsStep_inv p elems rest p2 e2 r2 hstep hg hc
      exact ih p2 e2 r2 p' e' h hg2 hc2
    · obtain ⟨rfl, rfl⟩ := parseElemsStep_broke p elems rest p' e' hstep
      exact ⟨hg, hc⟩

theorem decodeWidth_noArg :
    ∀ b ∈ noArgEmitted, b ∉ ([0x2d, 0x2e, 0x2f] : List Nat) →
      decodeWidth b = some 0 := by
  decide

theorem decodeWidth_reg : ∀ b ∈ regEmitted, decodeWidth b = some 1 := by
  decide

theorem decodeWidth_num : ∀ b ∈ numEmitted, decodeWidth b = some 4 := by
  decide

theorem decodeWidth_ext :
    ∀ b ∈ ([0x2d, 0x2e, 0x2f] : List Nat), decodeWidth b = none := by
  decide

theorem decode_encode_good (r : RawOp) (tail : List Nat) (hg : goodRaw r) :
    ∃ mo, decodeOps (r.encode ++ tail) = mo :: decodeOps tail ∧
      ((∃ r2, mo = .Op r2) ∨
        (r.opcode ∈ ([0x2d, 0x2e, 0x2f] : List Nat) ∧ mo = .Unknown r.opcode)) := by
  obtain ⟨b, arg⟩ := r
  rcases hg with ⟨hm, ha⟩ | ⟨hm, k, ha⟩ | ⟨hm, n, ha⟩ <;>
    simp only at hm ha <;> subst ha <;> fin_cases hm <;>
    first
      | exact ⟨_, rfl, Or.inl ⟨_, rfl⟩⟩
      | exact ⟨_, rfl, Or.inr ⟨by decide, rfl⟩⟩

theorem decode_encodeOps_good (ops : List RawOp) (h : ∀ r ∈ ops, goodRaw r) :
    (decodeOps (encodeOps ops)).length = ops.length ∧
    ∀ mo ∈ decodeOps (encodeOps ops),
      (∃ r2, mo = .Op r2) ∨
        ∃ b ∈ ([0x2d, 0x2e, 0x2f] : List Nat), mo = .Unknown b := by
  induction ops with
  | nil =>
    refine ⟨rfl, ?_⟩
    intro mo hmo
    have hnil : decodeOps (encodeOps []) = [] := rfl
    rw [hnil] at hmo
    simp at hmo
  | cons r t ih =>
    have henc : encodeOps (r :: t) = r.encode ++ encodeOps t := by
      simp [encodeOps]
    obtain ⟨mo, hmo, hcase⟩ := decode_encode_good r (encodeOps t) (h r (by simp))
    obtain ⟨ih1, ih2⟩ := ih (fun r2 hr2 => h r2 (by simp [hr2]))
    rw [henc, hmo]
    refine ⟨by simp [ih1], ?_⟩
    intro mo2 hmo2
    rcases List.mem_cons.mp hmo2 with rfl | hmem
    · rcases hcase with ⟨r2, hr2⟩ | ⟨hx, hu⟩
      · exact Or.inl ⟨r2, hr2⟩
      · exact Or.inr ⟨r.opcode, hx, hu⟩
    · exact ih2 mo2 hmem

theorem as_bytecode_drop16 (p : Parser) (ops : List RawOp) :
    (p.as_bytecode ops).drop 16 = encodeOps ops := by
  simp [Parser.as_bytecode, BytecodeInfo.to_bytecode, Parser.get_bytecode_info,
    BYTECODE_HEADER, leBytes, List.drop_append]

theorem as_bytecode_field8 (p : Parser) (ops : List RawOp) :
    moduleField (p.as_bytecode ops) 8 = u32 p.op_count := by
  simp [Parser.as_bytecode, BytecodeInfo.to_bytecode, Parser.get_bytecode_info,
    moduleField, BYTECODE_HEADER, leBytes, leVal, u32] <;> omega

def extractRes (r : AsmRes ParseResult) : ParseResult :=
  match r with
  | .ok res => res
  | _ => ⟨[], []⟩

def c4wRes : ParseResult := extractRes (Parser.parse "nop;".toList)

/-- C4 (amended): for every source the assembler accepts, decoding the
module's code section (the bytes after the 16-byte header) yields exactly
`instruction_count` (the little-endian field at offset `0x08`) decoded
entries, and every entry is an `Op(_)` except that the three extend opcodes
`0x2d`–`0x2f` — which the assembler does emit — come back as `Unknown(_)`
because the decoder's no-argument ranges skip them. -/
theorem c4_amended_decoder_roundtrip (code : List Char) (res : ParseResult)
    (h : Parser.parse code = .ok res) :
    u32 (decodeOps (res.code.drop 16)).length = moduleField res.code 8 ∧
    ∀ mo ∈ decodeOps (res.code.drop 16),
      (∃ r2, mo = .Op r2) ∨
        ∃ b ∈ ([0x2d, 0x2e, 0x2f] : List Nat), mo = .Unknown b := by
  unfold Parser.parse at h
  rcases hpe : Parser.new.parse_elems code with ⟨p', elems⟩ | e | _ | _ <;>
    simp only [hpe] at h <;> try cases h
  rcases hpo : p'.parse_ops elems with ops | e | _ | _ <;>
    simp only [hpo] at h <;> try cases h
  have hpe' : parseElemsFuel (code.length + 2) Parser.new [] (some code) =
      .ok (p', elems) := hpe
  obtain ⟨hge, hcnt⟩ := parseElemsFuel_inv (code.length + 2) Parser.new []
    (some code) p' elems hpe' (by simp) rfl
  obtain ⟨hgo, hlen⟩ := parse_ops_good p' elems ops hpo hge
  obtain ⟨hdl, hdm⟩ := decode_encodeOps_good ops hgo
  constructor
  · show u32 (decodeOps ((p'.as_bytecode ops).drop 16)).length =
      moduleField (p'.as_bytecode ops) 8
    rw [as_bytecode_drop16, hdl, hlen, ← hcnt, as_bytecode_field8]
  · show ∀ mo ∈ decodeOps ((p'.as_bytecode ops).drop 16), _
    rw [as_bytecode_drop16]
    exact hdm

/-- Witness for C4 (amended) at the concrete source `"nop;"`. -/
theorem c4_amended_decoder_roundtrip_witness :
    Parser.parse "nop;".toList = .ok c4wRes ∧
    (u32 (decodeOps (c4wRes.code.drop 16)).length = moduleField c4wRes.code 8 ∧
      ∀ mo ∈ decodeOps (c4wRes.code.drop 16),
        (∃ r2, mo = .Op r2) ∨
          ∃ b ∈ ([0x2d, 0x2e, 0x2f] : List Nat), mo = .Unknown b) :=
  ⟨by decide, c4_amended_decoder_roundtrip ("nop;".toList) c4wRes (by decide)⟩
